import Mathlib

/-!
# ExtensionSystem: plugin specifications and the plugin manager

A shallow embedding of `src/extensionsystem/pluginspecification.{h,cpp}` and
`src/extensionsystem/pluginmanager.{h,cpp}`.

* A `PluginSpecification *` is an index into the vector of specifications owned by the
  manager (`Heap`); the members of a specification are the fields of a record.
* `QString` is `String`; `Tr::tr` is the identity (no translation installed); the multi-argument
  `QString::arg` substitutes all place markers in one pass, so a formatted text is the
  concatenation of the pieces of the template and the arguments.
* A `QHash<PluginDependency, PluginSpecification *>` is the list of its entries in the order in
  which the hash iterates over them.
-/

namespace ExtensionSystem

/-! ## Data model (`pluginspecification.h`) -/

/-- The enum `PluginState`. -/
inductive PluginState where
  | Invalid
  | Read
  | Resolved
  | Loaded
  | Initialized
  | Running
  | Stopped
  | Deleted
  deriving DecidableEq, Repr

/-- The enum `PluginDependency::Type`. -/
inductive DependencyType where
  | Required
  | Optional
  | Test
  deriving DecidableEq, Repr

/-- The struct `PluginDependency`; the derived equality is `operator==`. -/
structure PluginDependency where
  name : String
  version : String
  type : DependencyType
  deriving DecidableEq, Repr

/-- The struct `PluginArgumentDescription`. -/
structure PluginArgumentDescription where
  name : String
  parameter : String
  description : String
  deriving DecidableEq, Repr

/-- A `QJsonValue`. `undefined` is what `QJsonObject::value` returns for an absent key. -/
inductive JsonValue where
  | undefined
  | null
  | bool (b : Bool)
  | double (d : Int)
  | string (s : String)
  | array (a : List JsonValue)
  | object (o : List (String × JsonValue))

/-- A `QJsonObject`: its members, looked up by key. -/
abbrev JsonObject := List (String × JsonValue)

/-- The class `PluginSpecification` (its data members). `m_plugin` is the handle of the plugin
instance (`none` is `nullptr`), `m_platformSpecification` the pattern of the regular
expression, `m_loader` the file name given to the `QPluginLoader` when one was emplaced,
`m_staticPlugin` what `qobject_cast<IPlugin *>` makes of the instance of the static plugin
when there is one. -/
structure PluginSpecification where
  m_name : String
  m_version : String
  m_compatVersion : String
  m_vendor : String
  m_category : String
  m_description : String
  m_longDescription : String
  m_url : String
  m_revision : String
  m_location : String
  m_filePath : String
  m_copyright : String
  m_license : String
  m_platformSpecification : String
  m_plugin : Option Nat
  m_required : Bool
  m_experimental : Bool
  m_enabledByDefault : Bool
  m_enabledBySettings : Bool
  m_metaData : JsonObject
  m_state : PluginState
  m_dependencies : List PluginDependency
  m_dependencySpecifications : List (PluginDependency × Nat)
  m_arguments : List String
  m_argumentDescriptions : List PluginArgumentDescription
  m_loader : Option String
  m_errorString : Option String
  m_staticPlugin : Option (Option Nat)

namespace PluginSpecification

/-- `PluginSpecification::name`. -/
def name (self : PluginSpecification) : String := self.m_name

/-- `PluginSpecification::version`. -/
def version (self : PluginSpecification) : String := self.m_version

/-- `PluginSpecification::compatVersion`. -/
def compatVersion (self : PluginSpecification) : String := self.m_compatVersion

/-- `PluginSpecification::state`. -/
def state (self : PluginSpecification) : PluginState := self.m_state

/-- `PluginSpecification::dependencies`. -/
def dependencies (self : PluginSpecification) : List PluginDependency := self.m_dependencies

/-- `PluginSpecification::dependencySpecifications`. -/
def dependencySpecifications (self : PluginSpecification) : List (PluginDependency × Nat) :=
  self.m_dependencySpecifications

/-- `PluginSpecification::errorString`. -/
def errorString (self : PluginSpecification) : Option String := self.m_errorString

/-- `PluginSpecification::hasError`. -/
def hasError (self : PluginSpecification) : Bool := self.m_errorString.isSome

/-- `PluginSpecification::isExperimental`. -/
def isExperimental (self : PluginSpecification) : Bool := self.m_experimental

/-- `PluginSpecification::isRequired`. -/
def isRequired (self : PluginSpecification) : Bool := self.m_required

/-- `PluginSpecification::isEnabledByDefault`. -/
def isEnabledByDefault (self : PluginSpecification) : Bool := self.m_enabledByDefault

/-- `PluginSpecification::isEnabledBySettings`. -/
def isEnabledBySettings (self : PluginSpecification) : Bool := self.m_enabledBySettings

/-- The assignment `spec->m_errorString = text`. -/
def setErrorString (self : PluginSpecification) (text : String) : PluginSpecification :=
  { self with m_errorString := some text }

/-- `PluginSpecification::reset`: every member it clears; `m_enabledBySettings` is not among
them and keeps its value. -/
def reset (self : PluginSpecification) : PluginSpecification :=
  { m_name := ""
    m_version := ""
    m_compatVersion := ""
    m_vendor := ""
    m_category := ""
    m_description := ""
    m_longDescription := ""
    m_url := ""
    m_revision := ""
    m_location := ""
    m_filePath := ""
    m_copyright := ""
    m_license := ""
    m_platformSpecification := ""
    m_plugin := none
    m_required := false
    m_experimental := false
    m_enabledByDefault := true
    m_enabledBySettings := self.m_enabledBySettings
    m_metaData := []
    m_state := PluginState.Invalid
    m_dependencies := []
    m_dependencySpecifications := []
    m_arguments := []
    m_argumentDescriptions := []
    m_loader := none
    m_errorString := none
    m_staticPlugin := none }

end PluginSpecification

/-! ## The specifications owned by the manager -/

/-- The vector `m_pluginSpecifications`: a `PluginSpecification *` is a position in it. -/
abbrev Heap := List PluginSpecification

/-- A freshly constructed specification, as the member initialisers and `reset` leave it. -/
def emptySpecification : PluginSpecification :=
  { m_name := ""
    m_version := ""
    m_compatVersion := ""
    m_vendor := ""
    m_category := ""
    m_description := ""
    m_longDescription := ""
    m_url := ""
    m_revision := ""
    m_location := ""
    m_filePath := ""
    m_copyright := ""
    m_license := ""
    m_platformSpecification := ""
    m_plugin := none
    m_required := false
    m_experimental := false
    m_enabledByDefault := true
    m_enabledBySettings := true
    m_metaData := []
    m_state := PluginState.Invalid
    m_dependencies := []
    m_dependencySpecifications := []
    m_arguments := []
    m_argumentDescriptions := []
    m_loader := none
    m_errorString := none
    m_staticPlugin := none }

/-- Dereference of a `PluginSpecification *`. -/
def Heap.deref (h : Heap) (spec : Nat) : PluginSpecification :=
  h.getD spec emptySpecification

/-- Application of `f` to the specification a pointer refers to. -/
def Heap.update (f : PluginSpecification → PluginSpecification) : Heap → Nat → Heap
  | [], _ => []
  | s :: rest, 0 => f s :: rest
  | s :: rest, i + 1 => s :: Heap.update f rest i

/-- The assignment `spec->m_errorString = text` through a pointer. -/
def Heap.setErrorString (h : Heap) (spec : Nat) (text : String) : Heap :=
  Heap.update (fun s => s.setErrorString text) h spec

/-! ## Queue construction (`pluginmanager.cpp`) -/

/-- The text `"%1 (%2) depends on"` with name and version of `depSpec`, and the newline that
follows it. -/
def dependsOnLine (depSpec : PluginSpecification) : String :=
  depSpec.name ++ " (" ++ depSpec.version ++ ") depends on" ++ "\n"

/-- The error text built at lines 20-29 of `pluginmanager.cpp`: the header, one line for every
entry of `circularityCheckQueue` from position `index` on, and `"%1 (%2)"` for `spec`. -/
def circularDependencyText (h : Heap) (spec : Nat) (circularityCheckQueue : List Nat) : String :=
  let index := circularityCheckQueue.indexOf spec
  "Circular dependency detected:" ++ "\n"
    ++ String.join ((circularityCheckQueue.drop index).map (fun i => dependsOnLine (h.deref i)))
    ++ ((h.deref spec).name ++ " (" ++ (h.deref spec).version ++ ")")

/-- The error text built at lines 48-50 of `pluginmanager.cpp`. -/
def dependencyFailedText (depSpec : PluginSpecification) : String :=
  "Cannot load plugin because dependency failed to load: " ++ depSpec.name ++ " ("
    ++ depSpec.version ++ ")\nReason: " ++ depSpec.errorString.getD ""

/-- What a call of the recursive `loadQueue` leaves behind: the returned `bool`, the
specifications, `queue` and `circularityCheckQueue`. -/
structure LoadQueueResult where
  ret : Bool
  heap : Heap
  queue : List Nat
  circularityCheckQueue : List Nat

/-- The loop over `deps` at lines 41-53 of `pluginmanager.cpp`, followed by lines 55-56, with
`recurse` standing for the recursive call. -/
def loadQueueDeps (recurse : Heap → Nat → List Nat → List Nat → Option LoadQueueResult)
    (spec : Nat) : List (PluginDependency × Nat) → Heap → List Nat → List Nat →
    Option LoadQueueResult
  | [], h, queue, circularityCheckQueue =>
      some ⟨true, h, queue ++ [spec], circularityCheckQueue⟩
  | (key, depSpec) :: rest, h, queue, circularityCheckQueue =>
      if key.type = DependencyType.Test then
        loadQueueDeps recurse spec rest h queue circularityCheckQueue
      else
        match recurse h depSpec queue circularityCheckQueue with
        | none => none
        | some r =>
            if r.ret then
              loadQueueDeps recurse spec rest r.heap r.queue r.circularityCheckQueue
            else
              some ⟨false,
                r.heap.setErrorString spec (dependencyFailedText (r.heap.deref depSpec)),
                r.queue, r.circularityCheckQueue⟩

/-- `PluginManager::loadQueue(spec, queue, circularityCheckQueue)`. The first argument bounds
the depth of the recursion; `none` means that the bound was reached. -/
def loadQueueRec : Nat → Heap → Nat → List Nat → List Nat → Option LoadQueueResult
  | 0, _, _, _, _ => none
  | fuel + 1, h, spec, queue, circularityCheckQueue =>
      if queue.contains spec then
        some ⟨true, h, queue, circularityCheckQueue⟩
      else if circularityCheckQueue.contains spec then
        some ⟨false,
          h.setErrorString spec (circularDependencyText h spec circularityCheckQueue),
          queue, circularityCheckQueue⟩
      else
        if (h.deref spec).state = PluginState.Invalid ∨ (h.deref spec).state = PluginState.Read then
          some ⟨false, h, queue ++ [spec], circularityCheckQueue ++ [spec]⟩
        else
          loadQueueDeps (loadQueueRec fuel) spec (h.deref spec).dependencySpecifications
            h queue (circularityCheckQueue ++ [spec])

/-- The loop of `PluginManager::loadQueue()` over the given specifications: each is
traversed with a fresh `circularityCheckQueue`, and the returned `bool` is dropped. -/
def loadQueueLoop (fuel : Nat) : List Nat → Heap → List Nat → Option (Heap × List Nat)
  | [], h, queue => some (h, queue)
  | spec :: rest, h, queue =>
      match loadQueueRec fuel h spec queue [] with
      | none => none
      | some r => loadQueueLoop fuel rest r.heap r.queue

/-- `PluginManager::loadQueue()` with recursion bound `fuel`: the specifications afterwards
and the queue. -/
def loadQueueWith (fuel : Nat) (h : Heap) : Option (Heap × List Nat) :=
  loadQueueLoop fuel (List.range h.length) h []

/-- `PluginManager::loadQueue()`: a recursion visits every specification at most once before
it returns, so one more than their number bounds its depth. -/
def loadQueue (h : Heap) : Option (Heap × List Nat) :=
  loadQueueWith (h.length + 1) h

/-! ## The dependency graph -/

/-- Specification `i` is bound to specification `j` by a Required or Optional dependency. -/
def DependsOn (h : Heap) (i j : Nat) : Prop :=
  ∃ key : PluginDependency, (key, j) ∈ (h.deref i).dependencySpecifications ∧
    (key.type = DependencyType.Required ∨ key.type = DependencyType.Optional)

/-- Every resolved dependency points to a specification of the vector. -/
def WellFormed (h : Heap) : Prop :=
  ∀ i, i < h.length → ∀ p ∈ (h.deref i).dependencySpecifications, p.2 < h.length

/-- Every specification is in state `Resolved`. -/
def AllResolved (h : Heap) : Prop :=
  ∀ i, i < h.length → (h.deref i).state = PluginState.Resolved

/-- Specification `i` lies on a cycle of Required/Optional dependencies. -/
def OnCycle (h : Heap) (i : Nat) : Prop := Relation.TransGen (DependsOn h) i i

/-- No specification lies on a cycle of Required/Optional dependencies. -/
def Acyclic (h : Heap) : Prop := ∀ i, ¬ OnCycle h i

/-- Specification `i` lies on a cycle or depends, directly or transitively, on one that does. -/
def ReachesCycle (h : Heap) (i : Nat) : Prop :=
  ∃ x, Relation.ReflTransGen (DependsOn h) i x ∧ OnCycle h x

/-- The text ends with the circular-dependency report of a specification that lies on a
cycle. -/
def EndsWithCycleReport (h : Heap) (text : String) : Prop :=
  ∃ (pre : String) (s : Nat) (c : List Nat),
    OnCycle h s ∧ text = pre ++ circularDependencyText h s c

/-- The two vectors differ at most in the error texts. -/
def SameShape (h h' : Heap) : Prop :=
  h'.length = h.length ∧ ∀ i,
    (h'.deref i).m_state = (h.deref i).m_state ∧
    (h'.deref i).m_dependencySpecifications = (h.deref i).m_dependencySpecifications ∧
    (h'.deref i).m_name = (h.deref i).m_name ∧
    (h'.deref i).m_version = (h.deref i).m_version

/-- No specification occurs twice in the queue, and each is preceded by the specifications
it depends on. -/
def QueueOrdered (h : Heap) (queue : List Nat) : Prop :=
  queue.Nodup ∧ (∀ i ∈ queue, i < h.length) ∧
    ∀ i ∈ queue, ∀ j, DependsOn h i j → j ∈ queue ∧ queue.indexOf j < queue.indexOf i

/-- From `h` to `h'` an error text changed only on specifications that reach a cycle, to a
text that ends with a cycle report. -/
def ErrorsOnlyFromCycles (g h h' : Heap) : Prop :=
  ∀ i, (h'.deref i).m_errorString = (h.deref i).m_errorString ∨
    (ReachesCycle g i ∧ ∃ e, (h'.deref i).m_errorString = some e ∧ EndsWithCycleReport g e)

/-- What a call of the recursive `loadQueue` on specifications of the shape of `g` may
assume: a valid pointer, a recursion bound that covers the specifications not yet on
`circularityCheckQueue`, an ordered queue, and a `circularityCheckQueue` whose entries are
queued or are proper ancestors of `spec`. -/
structure LoadQueuePre (g : Heap) (fuel : Nat) (h : Heap) (spec : Nat)
    (queue circ : List Nat) : Prop where
  shape : SameShape g h
  spec_lt : spec < g.length
  nodup : circ.Nodup
  bounded : ∀ x ∈ circ, x < g.length
  fuel_le : g.length + 1 ≤ fuel + circ.length
  ordered : QueueOrdered g queue
  path : ∀ x ∈ circ, x ∈ queue ∨ Relation.TransGen (DependsOn g) x spec

/-- What a call of the recursive `loadQueue` guarantees on its result `r`, started on `h`,
`queue` and `circ`; `circ0` is the part of `circ` that no new queue entry comes from. -/
structure LoadQueuePost (g h : Heap) (spec : Nat) (queue circ0 circ : List Nat)
    (r : LoadQueueResult) : Prop where
  shape : SameShape g r.heap
  ordered : QueueOrdered g r.queue
  queue_prefix : ∃ l, r.queue = queue ++ l
  fresh : ∀ x ∈ r.queue, x ∈ queue ∨ x ∉ circ0
  errors : ErrorsOnlyFromCycles g h r.heap
  ok : r.ret = true → r.heap = h ∧ spec ∈ r.queue ∧ r.circularityCheckQueue.Nodup ∧
    (∀ x ∈ r.circularityCheckQueue, x < g.length) ∧
    (∃ l, r.circularityCheckQueue = circ ++ l) ∧
    (∀ x ∈ r.circularityCheckQueue, x ∈ circ ∨ x ∈ r.queue)
  failed : r.ret = false → ReachesCycle g spec ∧
    ∃ e, (r.heap.deref spec).m_errorString = some e ∧ EndsWithCycleReport g e

/-! ## Example specifications -/

/-- A resolved specification with the given name, version `1.0.0` and resolved
dependencies. -/
def resolvedSpec (name : String) (deps : List (PluginDependency × Nat)) : PluginSpecification :=
  { emptySpecification with
    m_name := name
    m_version := "1.0.0"
    m_compatVersion := "1.0.0"
    m_state := PluginState.Resolved
    m_dependencies := deps.map Prod.fst
    m_dependencySpecifications := deps }

/-- A Required dependency on version `1.0.0` of the named plugin. -/
def requiredOn (name : String) : PluginDependency :=
  { name := name, version := "1.0.0", type := DependencyType.Required }

/-- The happy path: `A`, `B` depends on `A`, `C` depends on `B`. -/
def chainABC : Heap :=
  [resolvedSpec "A" [], resolvedSpec "B" [(requiredOn "A", 0)],
    resolvedSpec "C" [(requiredOn "B", 1)]]

/-- The cycle: `A` depends on `B`, `B` on `C`, `C` on `A`, all Required. -/
def cycleABC : Heap :=
  [resolvedSpec "A" [(requiredOn "B", 1)], resolvedSpec "B" [(requiredOn "C", 2)],
    resolvedSpec "C" [(requiredOn "A", 0)]]

/-- A cycle with a dependent outside of it: `D` depends on `A`, `A` on `B`, `B` on `A`. -/
def cycleWithDependent : Heap :=
  [resolvedSpec "D" [(requiredOn "A", 1)], resolvedSpec "A" [(requiredOn "B", 2)],
    resolvedSpec "B" [(requiredOn "A", 1)]]

/-- Specification `i` has a resolved dependency of type Required on specification `j`. -/
def RequiresOn (h : Heap) (i j : Nat) : Prop :=
  ∃ key : PluginDependency, (key, j) ∈ (h.deref i).dependencySpecifications ∧
    key.type = DependencyType.Required

/-- `A` is resolved and requires `B`, which has been read but not resolved. -/
def dependentOfUnresolved : Heap :=
  [resolvedSpec "A" [(requiredOn "B", 1)],
    { resolvedSpec "B" [] with m_state := PluginState.Read }]

/-! ## Reading the meta data (`pluginspecification.cpp`, `utils/stringutils.cpp`) -/

namespace JsonValue

/-- `QJsonValue::isUndefined`. -/
def isUndefined : JsonValue → Bool
  | undefined => true
  | _ => false

/-- `QJsonValue::isString`. -/
def isString : JsonValue → Bool
  | string _ => true
  | _ => false

/-- `QJsonValue::isBool`. -/
def isBool : JsonValue → Bool
  | bool _ => true
  | _ => false

/-- `QJsonValue::isArray`. -/
def isArray : JsonValue → Bool
  | array _ => true
  | _ => false

/-- `QJsonValue::isObject`. -/
def isObject : JsonValue → Bool
  | object _ => true
  | _ => false

/-- `QJsonValue::toString(defaultValue)`: the string, or the default for any other type. -/
def toStringOr (defaultValue : String) : JsonValue → String
  | string s => s
  | _ => defaultValue

/-- `QJsonValue::toString()`: the string, or the null string for any other type. -/
def toString (v : JsonValue) : String := v.toStringOr ""

/-- `QJsonValue::toBool(defaultValue)`. -/
def toBool (defaultValue : Bool) : JsonValue → Bool
  | bool b => b
  | _ => defaultValue

/-- `QJsonValue::toArray`. -/
def toArray : JsonValue → List JsonValue
  | array a => a
  | _ => []

/-- `QJsonValue::toObject`. -/
def toObject : JsonValue → List (String × JsonValue)
  | object o => o
  | _ => []

end JsonValue

/-- `QJsonObject::value(key)`: the member with that key, `undefined` when there is none. -/
def JsonObject.value (o : JsonObject) (key : String) : JsonValue :=
  (o.lookup key).getD JsonValue.undefined

/-! ### Regular expressions

`QRegularExpression` wraps the Perl-compatible library. The model covers the constructs that
occur in `versionRegExp` and follows their Perl-compatible meaning. In particular, without
the multi-line and dollar-end-only options (the code sets no pattern option), `$` matches at
the very end of the subject and also immediately before a line feed that is the last
character of the subject. -/

/-- The constructs of a pattern: `^`, `$`, a character range `[lo-hi]`, a character set
(`[.]`, or a literal such as `_`), `r+`, an optional group `(?:r)?`, and concatenation.
Capturing does not change whether there is a match. -/
inductive RegExp where
  | caret
  | dollar
  | range (lo hi : Char)
  | chars (cs : List Char)
  | plus (r : RegExp)
  | opt (r : RegExp)
  | seq (r s : RegExp)

/-- Repetition one or more times of the matcher `m`, at most `fuel` times (greedy: another
round is tried before the continuation). -/
def RegExp.plusLoop (m : Nat → List Char → (Nat → List Char → Bool) → Bool) :
    Nat → Nat → List Char → (Nat → List Char → Bool) → Bool
  | 0, _, _, _ => false
  | fuel + 1, pos, rest, k =>
      m pos rest (fun pos' rest' => RegExp.plusLoop m fuel pos' rest' k || k pos' rest')

/-- Backtracking match of a pattern at offset `pos` of the subject, where `rest` is what
follows that offset; `k` continues with the offset and the rest behind the match. -/
def RegExp.matchAt : RegExp → Nat → List Char → (Nat → List Char → Bool) → Bool
  | caret, pos, rest, k => pos == 0 && k pos rest
  | dollar, pos, rest, k => (rest == [] || rest == ['\n']) && k pos rest
  | range _ _, _, [], _ => false
  | range lo hi, pos, c :: rest, k => (decide (lo ≤ c) && decide (c ≤ hi)) && k (pos + 1) rest
  | chars _, _, [], _ => false
  | chars cs, pos, c :: rest, k => cs.contains c && k (pos + 1) rest
  | plus r, pos, rest, k => RegExp.plusLoop (RegExp.matchAt r) (rest.length + 1) pos rest k
  | opt r, pos, rest, k => RegExp.matchAt r pos rest k || k pos rest
  | seq r s, pos, rest, k =>
      RegExp.matchAt r pos rest (fun pos' rest' => RegExp.matchAt s pos' rest' k)

/-- `QRegularExpression(pattern).match(subject).hasMatch()`: a match is searched for at
every offset of the subject. -/
def RegExp.hasMatch (r : RegExp) (subject : String) : Bool :=
  (List.range (subject.data.length + 1)).any
    (fun pos => r.matchAt pos (subject.data.drop pos) (fun _ _ => true))

namespace Constants

/-- `[0-9]+`. -/
def digits : RegExp := RegExp.plus (RegExp.range '0' '9')

/-- `Constants::versionRegExp`, the pattern
`^([0-9]+)(?:[.]([0-9]+))?(?:[.]([0-9]+))?(?:_([0-9]+))?$`. -/
def versionRegExp : RegExp :=
  RegExp.seq RegExp.caret
    (RegExp.seq digits
      (RegExp.seq (RegExp.opt (RegExp.seq (RegExp.chars ['.']) digits))
        (RegExp.seq (RegExp.opt (RegExp.seq (RegExp.chars ['.']) digits))
          (RegExp.seq (RegExp.opt (RegExp.seq (RegExp.chars ['_']) digits))
            RegExp.dollar))))

def kPluginMetadata : String := "MetaData"
def kPluginName : String := "Name"
def kPluginVersion : String := "Version"
def kPluginCompatversion : String := "CompatVersion"
def kPluginRequired : String := "Required"
def kPluginExperimental : String := "Experimental"
def kPluginDisabledByDefault : String := "DisabledByDefault"
def kVendor : String := "Vendor"
def kCopyright : String := "Copyright"
def kLicense : String := "License"
def kDescription : String := "Description"
def kLongDescription : String := "LongDescription"
def kUrl : String := "Url"
def kCategory : String := "Category"
def kPlatform : String := "Platform"
def kDependencies : String := "Dependencies"
def kDependencyName : String := "Name"
def kDependencyVersion : String := "Version"
def kDependencyType : String := "Type"
def kDependencyTypeSoft : String := "optional"
def kDependencyTypeHard : String := "required"
def kDependencyTypeTest : String := "test"
def kArguments : String := "Arguments"
def kArgumentName : String := "Name"
def kArgumentParameter : String := "Parameter"
def kArgumentDescription : String := "Description"

end Constants

namespace Helpers

/-- `Helpers::msgValueMissing`. -/
def msgValueMissing (key : String) : String := "\"" ++ key ++ "\" is missing"

/-- `Helpers::msgValueIsNotAString`. -/
def msgValueIsNotAString (key : String) : String :=
  "Value for key \"" ++ key ++ "\" is not a string"

/-- `Helpers::msgValueIsNotABool`. -/
def msgValueIsNotABool (key : String) : String :=
  "Value for key \"" ++ key ++ "\" is not a bool"

/-- `Helpers::msgValueIsNotAObjectArray`. -/
def msgValueIsNotAObjectArray (key : String) : String :=
  "Value for key \"" ++ key ++ "\" is not an array of objects"

/-- `Helpers::msgValueIsNotAMultilineString`. -/
def msgValueIsNotAMultilineString (key : String) : String :=
  "Value for key \"" ++ key ++ "\" is not a string and not an array of strings"

/-- `Helpers::msgInvalidFormat`. -/
def msgInvalidFormat (key : String) (content : String) : String :=
  "Value \"" ++ content ++ "\" for key \"" ++ key ++ "\" has invalid format"

/-- `Helpers::isValidVersion`. -/
def isValidVersion (version : String) : Bool :=
  Constants.versionRegExp.hasMatch version

end Helpers

/-- What the code obtains from outside of the repository: the interface identifier configured
in the manager, the `QString` functions `toLower` and `trimmed`, the compilation of a platform
pattern by `QRegularExpression` (`none` when `isValid()`, otherwise `errorString()`), its
match against `PluginManager::platformName()`, the paths computed by `QFileInfo`, and the file
name and the meta data the `QPluginLoader` reports for a file path. -/
structure Host where
  pluginIID : String
  toLower : String → String
  trimmed : String → String
  patternError : String → Option String
  matchesPlatform : String → Bool
  absolutePath : String → String
  absoluteFilePath : String → String
  loaderFileName : String → String
  loaderMetaData : String → JsonObject

/-- `Utils::readMultiLineString(value, out)`: the returned `bool` and `out` afterwards. -/
def readMultiLineString (value : JsonValue) (out : String) : Bool × String :=
  if value.isString then
    (true, value.toString)
  else if value.isArray then
    if value.toArray.all (fun v => v.isString) then
      (true, String.intercalate "\n" (value.toArray.map (fun v => v.toString)))
    else
      (false, out)
  else
    (false, out)

namespace PluginSpecification

open Constants Helpers

/-- `PluginSpecification::reportError`: stores the text and returns `true`. -/
def reportError (self : PluginSpecification) (errorString : String) :
    Bool × PluginSpecification :=
  (true, { self with m_errorString := some errorString })

/-- Lines 437-489 of `pluginspecification.cpp`, the body of the loop over the `Dependencies`
array up to the `append`: the `PluginDependency` built from the entry `v`, or the text that
is handed to `reportError`. -/
def readDependency (host : Host) (v : JsonValue) : Except String PluginDependency :=
  if !v.isObject then
    Except.error (msgValueIsNotAObjectArray kDependencies)
  else
    let dependencyObject : JsonObject := v.toObject
    let value := dependencyObject.value kDependencyName
    if value.isUndefined then
      Except.error ("Dependency: " ++ msgValueMissing kDependencyName)
    else if !value.isString then
      Except.error ("Dependency: " ++ msgValueIsNotAString kDependencyName)
    else
      let depName := value.toString
      let value := dependencyObject.value kDependencyVersion
      if !value.isUndefined && !value.isString then
        Except.error ("Dependency: " ++ msgValueIsNotAString kDependencyVersion)
      else
        let depVersion := value.toString
        if !isValidVersion depVersion then
          Except.error ("Dependency: " ++ msgInvalidFormat kDependencyVersion depVersion)
        else
          let value := dependencyObject.value kDependencyType
          if !value.isUndefined && !value.isString then
            Except.error ("Dependency: " ++ msgValueIsNotAString kDependencyType)
          else if value.isUndefined then
            Except.ok { name := depName, version := depVersion, type := DependencyType.Required }
          else
            let typeValue := value.toString
            if host.toLower typeValue = kDependencyTypeHard then
              Except.ok
                { name := depName, version := depVersion, type := DependencyType.Required }
            else if host.toLower typeValue = kDependencyTypeSoft then
              Except.ok
                { name := depName, version := depVersion, type := DependencyType.Optional }
            else if host.toLower typeValue = kDependencyTypeTest then
              Except.ok { name := depName, version := depVersion, type := DependencyType.Test }
            else
              Except.error
                ("Dependency: \"" ++ kDependencyType ++ "\" must be \""
                  ++ kDependencyTypeHard ++ "\" or \"" ++ kDependencyTypeSoft
                  ++ "\" (is \"" ++ typeValue ++ "\").")

/-- The statement `m_dependencies.append(dep)`. -/
def appendDependency (self : PluginSpecification) (dep : PluginDependency) :
    PluginSpecification :=
  { self with m_dependencies := self.m_dependencies ++ [dep] }

/-- The loop over the `Dependencies` array at lines 436-491 of `pluginspecification.cpp`.
`Except.error` carries what `readMetaData` returns from inside the loop, `Except.ok` the
specification when the loop has run to its end. -/
def readDependencies (host : Host) :
    List JsonValue → PluginSpecification →
    Except (Bool × PluginSpecification) PluginSpecification
  | [], self => Except.ok self
  | v :: rest, self =>
      match readDependency host v with
      | Except.error text => Except.error (self.reportError text)
      | Except.ok dep => readDependencies host rest (self.appendDependency dep)

/-- The loop over the `Arguments` array at lines 499-538 of `pluginspecification.cpp`, with
the same convention as `readDependencies`. -/
def readArguments :
    List JsonValue → PluginSpecification →
    Except (Bool × PluginSpecification) PluginSpecification
  | [], self => Except.ok self
  | v :: rest, self =>
      if !v.isObject then
        Except.error (self.reportError (msgValueIsNotAObjectArray kArguments))
      else
        let argumentObject : JsonObject := v.toObject
        let value := argumentObject.value kArgumentName
        if value.isUndefined then
          Except.error (self.reportError ("Argument: " ++ msgValueMissing kArgumentName))
        else if !value.isString then
          Except.error (self.reportError ("Argument: " ++ msgValueIsNotAString kArgumentName))
        else
          let argName := value.toString
          if argName.isEmpty then
            Except.error
              (self.reportError ("Argument: \"" ++ kArgumentName ++ "\" is empty"))
          else
            let value := argumentObject.value kArgumentDescription
            if !value.isUndefined && !value.isString then
              Except.error
                (self.reportError ("Argument: " ++ msgValueIsNotAString kArgumentDescription))
            else
              let argDescription := value.toString
              let value := argumentObject.value kArgumentParameter
              if !value.isUndefined && !value.isString then
                Except.error
                  (self.reportError ("Argument: " ++ msgValueIsNotAString kArgumentParameter))
              else
                let argParameter := value.toString
                readArguments rest
                  { self with
                    m_argumentDescriptions := self.m_argumentDescriptions ++
                      [{ name := argName, parameter := argParameter,
                         description := argDescription }] }

/-- Lines 494-541 of `pluginspecification.cpp`: the `Arguments` and the final `return true`. -/
def readMetaDataArguments (self : PluginSpecification) : Bool × PluginSpecification :=
  let value := JsonObject.value self.m_metaData kArguments
  if !value.isUndefined && !value.isArray then
    self.reportError (msgValueIsNotAObjectArray kArguments)
  else if !value.isUndefined then
    match readArguments value.toArray self with
    | Except.error r => r
    | Except.ok self => (true, self)
  else
    (true, self)

/-- Lines 431-492 of `pluginspecification.cpp`: the `Dependencies`, and what follows. -/
def readMetaDataDependencies (host : Host) (self : PluginSpecification) :
    Bool × PluginSpecification :=
  let value := JsonObject.value self.m_metaData kDependencies
  if !value.isUndefined && !value.isArray then
    self.reportError (msgValueIsNotAObjectArray kDependencies)
  else if !value.isUndefined then
    match readDependencies host value.toArray self with
    | Except.error r => r
    | Except.ok self => readMetaDataArguments self
  else
    readMetaDataArguments self

/-- Lines 387-429 of `pluginspecification.cpp`: vendor, copyright, descriptions, url,
category, license and platform, and what follows. -/
def readMetaDataDescriptive (host : Host) (self : PluginSpecification) :
    Bool × PluginSpecification :=
  let value := JsonObject.value self.m_metaData kVendor
  if !value.isUndefined && !value.isString then
    self.reportError (msgValueIsNotAString kVendor)
  else
  let self := { self with m_vendor := value.toString }
  let value := JsonObject.value self.m_metaData kCopyright
  if !value.isUndefined && !value.isString then
    self.reportError (msgValueIsNotAString kCopyright)
  else
  let self := { self with m_copyright := value.toString }
  let value := JsonObject.value self.m_metaData kDescription
  if !value.isUndefined && !(readMultiLineString value self.m_description).1 then
    self.reportError (msgValueIsNotAString kDescription)
  else
  let self :=
    { self with
      m_description :=
        if value.isUndefined then self.m_description
        else (readMultiLineString value self.m_description).2 }
  let value := JsonObject.value self.m_metaData kLongDescription
  if !value.isUndefined && !(readMultiLineString value self.m_longDescription).1 then
    self.reportError (msgValueIsNotAString kLongDescription)
  else
  let self :=
    { self with
      m_longDescription :=
        if value.isUndefined then self.m_longDescription
        else (readMultiLineString value self.m_longDescription).2 }
  let value := JsonObject.value self.m_metaData kUrl
  if !value.isUndefined && !value.isString then
    self.reportError (msgValueIsNotAString kUrl)
  else
  let self := { self with m_url := value.toString }
  let value := JsonObject.value self.m_metaData kCategory
  if !value.isUndefined && !value.isString then
    self.reportError (msgValueIsNotAString kCategory)
  else
  let self := { self with m_category := value.toString }
  let value := JsonObject.value self.m_metaData kLicense
  if !value.isUndefined && !(readMultiLineString value self.m_license).1 then
    self.reportError (msgValueIsNotAMultilineString kLicense)
  else
  let self :=
    { self with
      m_license :=
        if value.isUndefined then self.m_license
        else (readMultiLineString value self.m_license).2 }
  let value := JsonObject.value self.m_metaData kPlatform
  if !value.isUndefined && !value.isString then
    self.reportError (msgValueIsNotAString kPlatform)
  else
  let platformSpec := host.trimmed value.toString
  if !platformSpec.isEmpty then
    let self := { self with m_platformSpecification := platformSpec }
    match host.patternError platformSpec with
    | some error =>
        self.reportError
          ("Invalid platform specification \"" ++ platformSpec ++ "\": " ++ error)
    | none => readMetaDataDependencies host self
  else
    readMetaDataDependencies host self

/-- Lines 365-385 of `pluginspecification.cpp`: the flags, and what follows. -/
def readMetaDataFlags (host : Host) (self : PluginSpecification) :
    Bool × PluginSpecification :=
  let value := JsonObject.value self.m_metaData kPluginRequired
  if !value.isUndefined && !value.isBool then
    self.reportError (msgValueIsNotABool kPluginRequired)
  else
  let self := { self with m_required := value.toBool false }
  let value := JsonObject.value self.m_metaData kPluginExperimental
  if !value.isUndefined && !value.isBool then
    self.reportError (msgValueIsNotABool kPluginExperimental)
  else
  let self := { self with m_experimental := value.toBool false }
  let value := JsonObject.value self.m_metaData kPluginDisabledByDefault
  if !value.isUndefined && !value.isBool then
    self.reportError (msgValueIsNotABool kPluginDisabledByDefault)
  else
  let self := { self with m_enabledByDefault := !value.toBool false }
  let self :=
    { self with
      m_enabledByDefault := if self.m_experimental then false else self.m_enabledByDefault }
  let self := { self with m_enabledBySettings := self.m_enabledByDefault }
  readMetaDataDescriptive host self

/-- `PluginSpecification::readMetaData`: the returned `bool` and the specification
afterwards. Lines 322-363 (interface identifier, name, version, compatibility version) are
followed by the blocks above, in the order of the source. -/
def readMetaData (host : Host) (self : PluginSpecification) (pluginMetaData : JsonObject) :
    Bool × PluginSpecification :=
  let value := pluginMetaData.value "IID"
  if !value.isString then
    (false, self)
  else if value.toString ≠ host.pluginIID then
    (false, self)
  else
  let value := pluginMetaData.value kPluginMetadata
  if !value.isObject then
    self.reportError "Plugin meta data not found"
  else
  let self := { self with m_metaData := value.toObject }
  let value := JsonObject.value self.m_metaData kPluginName
  if value.isUndefined then
    self.reportError (msgValueMissing kPluginName)
  else if !value.isString then
    self.reportError (msgValueIsNotAString kPluginName)
  else
  let self := { self with m_name := value.toString }
  let value := JsonObject.value self.m_metaData kPluginVersion
  if value.isUndefined then
    self.reportError (msgValueMissing kPluginVersion)
  else if !value.isString then
    self.reportError (msgValueIsNotAString kPluginVersion)
  else
  let self := { self with m_version := value.toString }
  if !isValidVersion self.m_version then
    self.reportError (msgInvalidFormat kPluginVersion self.m_version)
  else
  let value := JsonObject.value self.m_metaData kPluginCompatversion
  if !value.isUndefined && !value.isString then
    self.reportError (msgValueIsNotAString kPluginCompatversion)
  else
  let self := { self with m_compatVersion := value.toStringOr self.m_version }
  if !value.isUndefined && !isValidVersion self.m_compatVersion then
    self.reportError (msgInvalidFormat kPluginCompatversion self.m_compatVersion)
  else
    readMetaDataFlags host self

/-- `PluginSpecification::read`: the returned `bool` and the specification afterwards. -/
def read (host : Host) (self : PluginSpecification) (filePath : String) :
    Bool × PluginSpecification :=
  let self := self.reset
  let self :=
    { self with
      m_location := host.absolutePath filePath
      m_filePath := host.absoluteFilePath filePath
      m_loader := some filePath }
  if (host.loaderFileName filePath).isEmpty then
    (false, self)
  else if !(self.readMetaData host (host.loaderMetaData filePath)).1 then
    (false, (self.readMetaData host (host.loaderMetaData filePath)).2)
  else
    (true, { (self.readMetaData host (host.loaderMetaData filePath)).2 with
              m_state := PluginState.Read })

/-- `PluginSpecification::isAvailableForHostPlatform`. -/
def isAvailableForHostPlatform (host : Host) (self : PluginSpecification) : Bool :=
  self.m_platformSpecification.isEmpty || host.matchesPlatform self.m_platformSpecification

/-- `PluginSpecification::isEffectivelyEnabled`. -/
def isEffectivelyEnabled (host : Host) (self : PluginSpecification) : Bool :=
  if !self.isAvailableForHostPlatform host then false else self.isEnabledBySettings

end PluginSpecification

namespace PluginSpecification

/-- The specification without what lines 494-541 of `pluginspecification.cpp` may write:
the argument descriptions and the error text. -/
def eraseFromArguments (self : PluginSpecification) : PluginSpecification :=
  { self with m_argumentDescriptions := [], m_errorString := none }

/-- The specification without what lines 431-541 may write. -/
def eraseFromDependencies (self : PluginSpecification) : PluginSpecification :=
  { self with m_dependencies := [], m_argumentDescriptions := [], m_errorString := none }

/-- The specification without what lines 387-541 may write. -/
def eraseFromDescriptive (self : PluginSpecification) : PluginSpecification :=
  { self with
    m_vendor := ""
    m_copyright := ""
    m_description := ""
    m_longDescription := ""
    m_url := ""
    m_category := ""
    m_license := ""
    m_platformSpecification := ""
    m_dependencies := []
    m_argumentDescriptions := []
    m_errorString := none }

/-- The specification without what lines 365-541 may write. -/
def eraseFromFlags (self : PluginSpecification) : PluginSpecification :=
  { self with
    m_required := false
    m_experimental := false
    m_enabledByDefault := false
    m_enabledBySettings := false
    m_vendor := ""
    m_copyright := ""
    m_description := ""
    m_longDescription := ""
    m_url := ""
    m_category := ""
    m_license := ""
    m_platformSpecification := ""
    m_dependencies := []
    m_argumentDescriptions := []
    m_errorString := none }

/-- The specification without what `readMetaData` may write. -/
def eraseFromMetaData (self : PluginSpecification) : PluginSpecification :=
  { self with
    m_metaData := []
    m_name := ""
    m_version := ""
    m_compatVersion := ""
    m_required := false
    m_experimental := false
    m_enabledByDefault := false
    m_enabledBySettings := false
    m_vendor := ""
    m_copyright := ""
    m_description := ""
    m_longDescription := ""
    m_url := ""
    m_category := ""
    m_license := ""
    m_platformSpecification := ""
    m_dependencies := []
    m_argumentDescriptions := []
    m_errorString := none }

/-- The dependencies of `r` are those of `s` followed by one dependency per entry of the
`Dependencies` array of the meta data: the one that the loop body builds from the entry, in
the order of the array. -/
def DependenciesRead (host : Host) (s r : PluginSpecification) : Prop :=
  ∃ ds : List PluginDependency,
    r.m_dependencies = s.m_dependencies ++ ds ∧
    List.Forall₂ (fun v d => readDependency host v = Except.ok d)
      (JsonObject.value s.m_metaData Constants.kDependencies).toArray ds

/-- What the part of `readMetaData` from line 387 on guarantees for its result `r` when it
starts on `s`: it returns `true`, it writes nothing before its own fields, and when it leaves
no error there was none before and the dependencies were read. -/
def DescriptiveOutcome (host : Host) (s : PluginSpecification) (r : Bool × PluginSpecification) : Prop :=
  r.1 = true ∧ r.2.eraseFromDescriptive = s.eraseFromDescriptive ∧
    (r.2.m_errorString = none → s.m_errorString = none ∧ DependenciesRead host s r.2)

/-- What the part of `readMetaData` from line 365 on guarantees for its result `r` when it
starts on `s`: as `DescriptiveOutcome`, and when it leaves no error the flags are those of
the meta data. -/
def FlagsOutcome (host : Host) (s : PluginSpecification) (r : Bool × PluginSpecification) : Prop :=
  r.1 = true ∧ r.2.eraseFromFlags = s.eraseFromFlags ∧
    (r.2.m_errorString = none → s.m_errorString = none ∧ DependenciesRead host s r.2 ∧
      r.2.m_required = (JsonObject.value s.m_metaData Constants.kPluginRequired).toBool false ∧
      r.2.m_experimental
        = (JsonObject.value s.m_metaData Constants.kPluginExperimental).toBool false ∧
      r.2.m_enabledByDefault
        = (!(JsonObject.value s.m_metaData Constants.kPluginDisabledByDefault).toBool false
            && !(JsonObject.value s.m_metaData Constants.kPluginExperimental).toBool false) ∧
      r.2.m_enabledBySettings = r.2.m_enabledByDefault)

/-- The top-level object has a string `IID` that equals the interface identifier configured
in the manager. -/
def IIDMatches (host : Host) (pluginMetaData : JsonObject) : Prop :=
  (pluginMetaData.value "IID").isString = true ∧
    (pluginMetaData.value "IID").toString = host.pluginIID

/-- What `readMetaData` has done when it returned `true` and left no error on `r`, started on
`start` with the `MetaData` object `md`: every field read is the one of `md`. -/
structure ReadOutcome (host : Host) (md : JsonObject) (start r : PluginSpecification) : Prop where
  no_error_before : start.m_errorString = none
  metaData : r.m_metaData = md
  name_isString : (JsonObject.value md Constants.kPluginName).isString = true
  name : r.m_name = (JsonObject.value md Constants.kPluginName).toString
  version_isString : (JsonObject.value md Constants.kPluginVersion).isString = true
  version : r.m_version = (JsonObject.value md Constants.kPluginVersion).toString
  version_valid : Helpers.isValidVersion r.m_version = true
  compatVersion : r.m_compatVersion
    = (JsonObject.value md Constants.kPluginCompatversion).toStringOr r.m_version
  compatVersion_valid :
    (JsonObject.value md Constants.kPluginCompatversion).isUndefined = true ∨
      ((JsonObject.value md Constants.kPluginCompatversion).isString = true ∧
        Helpers.isValidVersion r.m_compatVersion = true)
  required : r.m_required = (JsonObject.value md Constants.kPluginRequired).toBool false
  experimental :
    r.m_experimental = (JsonObject.value md Constants.kPluginExperimental).toBool false
  enabledByDefault : r.m_enabledByDefault
    = (!(JsonObject.value md Constants.kPluginDisabledByDefault).toBool false
        && !(JsonObject.value md Constants.kPluginExperimental).toBool false)
  enabledBySettings : r.m_enabledBySettings = r.m_enabledByDefault
  dependencies : ∃ ds : List PluginDependency,
    r.m_dependencies = start.m_dependencies ++ ds ∧
    List.Forall₂ (fun v d => readDependency host v = Except.ok d)
      (JsonObject.value md Constants.kDependencies).toArray ds

end PluginSpecification

/-! ## Example descriptors -/

/-- Lower-casing of the letters `A` to `Z`, on which `QString::toLower` agrees. -/
def asciiToLower (s : String) : String :=
  String.mk (s.data.map Char.toLower)

/-- Removal of leading and trailing white space. -/
def asciiTrimmed (s : String) : String :=
  String.mk ((s.data.dropWhile Char.isWhitespace).reverse.dropWhile Char.isWhitespace).reverse

/-- A host configured with the interface identifier `org.example.plugin`, whose loader
reports the given meta data for every file, and for which every platform pattern compiles and
matches. -/
def hostWith (pluginMetaData : JsonObject) : Host :=
  { pluginIID := "org.example.plugin"
    toLower := asciiToLower
    trimmed := asciiTrimmed
    patternError := fun _ => none
    matchesPlatform := fun _ => true
    absolutePath := fun _ => "/plugins"
    absoluteFilePath := fun filePath => "/plugins/" ++ filePath
    loaderFileName := fun filePath => filePath
    loaderMetaData := fun _ => pluginMetaData }

/-- A descriptor with the matching interface identifier and the given `MetaData` members. -/
def descriptor (metaData : JsonObject) : JsonObject :=
  [("IID", JsonValue.string "org.example.plugin"), ("MetaData", JsonValue.object metaData)]

/-- A descriptor whose `MetaData` has no `Name`. -/
def descriptorWithoutName : JsonObject :=
  descriptor [("Version", JsonValue.string "1.0.0")]

/-- A descriptor whose `Version` is `1.0` followed by a line feed. -/
def descriptorVersionNewline : JsonObject :=
  descriptor [("Name", JsonValue.string "A"), ("Version", JsonValue.string "1.0\n")]

/-- A descriptor whose `CompatVersion` is newer than its `Version`. -/
def descriptorCompatNewer : JsonObject :=
  descriptor [("Name", JsonValue.string "A"), ("Version", JsonValue.string "1.0"),
    ("CompatVersion", JsonValue.string "2.0")]

/-- A descriptor with one dependency whose `Version` is the empty string. -/
def descriptorDependencyEmptyVersion : JsonObject :=
  descriptor [("Name", JsonValue.string "A"), ("Version", JsonValue.string "1.0.0"),
    ("Dependencies", JsonValue.array
      [JsonValue.object [("Name", JsonValue.string "B"), ("Version", JsonValue.string "")]])]

/-- A descriptor with dependencies of every type, and one without `Type`. -/
def descriptorDependencyTypes : JsonObject :=
  descriptor [("Name", JsonValue.string "A"), ("Version", JsonValue.string "1.0.0"),
    ("Dependencies", JsonValue.array
      [JsonValue.object [("Name", JsonValue.string "B"), ("Version", JsonValue.string "1.0")],
       JsonValue.object [("Name", JsonValue.string "C"), ("Version", JsonValue.string "2.0"),
         ("Type", JsonValue.string "Optional")],
       JsonValue.object [("Name", JsonValue.string "D"), ("Version", JsonValue.string "3.0"),
         ("Type", JsonValue.string "TEST")],
       JsonValue.object [("Name", JsonValue.string "E"), ("Version", JsonValue.string "4.0"),
         ("Type", JsonValue.string "required")]])]

/-- A descriptor of an experimental plugin. -/
def descriptorExperimental : JsonObject :=
  descriptor [("Name", JsonValue.string "A"), ("Version", JsonValue.string "1.0.0"),
    ("Experimental", JsonValue.bool true)]

/-- The specification as `readMetaData` holds it on reaching the `Dependencies` at line 431,
for a `MetaData` object with the given name and version and no other member read before that
line. -/
def specificationAtDependencies (metaData : JsonObject) (name version : String) :
    PluginSpecification :=
  { emptySpecification with
    m_metaData := metaData
    m_name := name
    m_version := version
    m_compatVersion := version }

/-- The `MetaData` object of `descriptorDependencyEmptyVersion`. -/
def metaDataDependencyEmptyVersion : JsonObject :=
  [("Name", JsonValue.string "A"), ("Version", JsonValue.string "1.0.0"),
    ("Dependencies", JsonValue.array
      [JsonValue.object [("Name", JsonValue.string "B"), ("Version", JsonValue.string "")]])]

/-- A descriptor with a dependency whose `Type` is none of the three known ones. -/
def metaDataDependencyUnknownType : JsonObject :=
  [("Name", JsonValue.string "A"), ("Version", JsonValue.string "1.0.0"),
    ("Dependencies", JsonValue.array
      [JsonValue.object [("Name", JsonValue.string "B"), ("Version", JsonValue.string "1.0"),
        ("Type", JsonValue.string "soft")]])]

/-- The specification after the descriptor of the experimental plugin was read into it; the
settings have it disabled. -/
def readExperimentalBefore : PluginSpecification :=
  (PluginSpecification.read (hostWith descriptorExperimental) emptySpecification "A.so").2

/-! ## The version grammar and the version order in the words of the specification -/

/-- A non-empty run of the decimal digits `0` to `9`. -/
def isDigitRun (cs : List Char) : Bool :=
  !cs.isEmpty && cs.all (fun c => decide ('0' ≤ c) && decide (c ≤ '9'))

/-- One to three non-empty runs of decimal digits separated by `.`. -/
def isDottedRuns (cs : List Char) : Bool :=
  decide (1 ≤ (cs.splitOn '.').length) && decide ((cs.splitOn '.').length ≤ 3)
    && (cs.splitOn '.').all isDigitRun

/-- The version grammar as the specification words it: one to three non-empty runs of decimal
digits separated by `.`, optionally followed by `_` and a non-empty run of decimal digits, and
nothing else. -/
def matchesVersionGrammar (v : String) : Bool :=
  match v.data.splitOn '_' with
  | [main] => isDottedRuns main
  | [main, build] => isDottedRuns main && isDigitRun build
  | _ => false

/-- The number that a run of decimal digits denotes. -/
def digitRunValue (cs : List Char) : Nat :=
  cs.foldl (fun n c => 10 * n + (c.toNat - '0'.toNat)) 0

/-- The numeric components of a version of the grammar: the three dotted numbers and the
number behind `_`, a component that is not written being `0`. -/
def versionComponents (v : String) : List Nat :=
  match v.data.splitOn '_' with
  | [] => [0, 0, 0, 0]
  | main :: build =>
      ((main.splitOn '.').map digitRunValue ++ [0, 0, 0]).take 3
        ++ [(build.head?.map digitRunValue).getD 0]

/-- Lexicographic `≤` on lists of numbers. -/
def componentsLE : List Nat → List Nat → Bool
  | [], _ => true
  | _ :: _, [] => false
  | a :: as, b :: bs => decide (a < b) || (decide (a = b) && componentsLE as bs)

/-- The order of the specification on versions: numeric, component by component. -/
def versionLE (a b : String) : Bool :=
  componentsLE (versionComponents a) (versionComponents b)

/-! ## The lifecycle (`iplugin.h`, `pluginspecification.cpp`, `pluginmanager.cpp`)

The code of a plugin and the `QPluginLoader` are outside of the repository: what they answer
is a parameter (`Runtime`). What the manager and a specification call and emit is recorded,
oldest first, as a list of `Event`s. -/

/-- The enum `PluginShutdownFlag`. -/
inductive PluginShutdownFlag where
  | SynchronousShutdown
  | AsynchronousShutdown
  deriving DecidableEq, Repr

/-- The value of an enumerator of `PluginState`. -/
def PluginState.toInt : PluginState → Int
  | Invalid => 0
  | Read => 1
  | Resolved => 2
  | Loaded => 3
  | Initialized => 4
  | Running => 5
  | Stopped => 6
  | Deleted => 7

/-- A `QObject *`; `none` is `nullptr`. -/
abbrev ObjectHandle := Option Nat

/-- What the loader of a file and the plugin objects answer: `QDir::toNativeSeparators`,
`QPluginLoader::load`, `errorString` and `qobject_cast<IPlugin *>(instance())` for the file
name the loader was given, and the virtual functions `initialize` (as `callInitialize`: the
returned `bool` and the text it writes to `errorString`), `delayedInitialize` and
`aboutToShutdown` of a plugin. -/
structure Runtime where
  toNativeSeparators : String → String
  loaderLoad : String → Bool
  loaderErrorString : String → String
  loaderInstance : String → Option Nat
  callInitialize : Nat → List String → Bool × String
  delayedInitialize : Nat → Bool
  aboutToShutdown : Nat → PluginShutdownFlag

/-- A call that leaves the repository, or a signal. A registry signal carries, besides its
argument, what `allObjects()` returns while the signal is emitted. -/
inductive Event where
  | loaderLoad (fileName : String)
  | loaderUnload (fileName : String)
  | callInitialize (plugin : Nat) (arguments : List String)
  | extensionsInitialized (plugin : Nat)
  | delayedInitialize (plugin : Nat)
  | aboutToShutdown (plugin : Nat)
  | deletePlugin (plugin : Nat)
  | connectAsynchronousShutdownFinished (plugin : Option Nat)
  | objectAdded (obj : ObjectHandle) (allObjects : List ObjectHandle)
  | aboutToRemoveObject (obj : ObjectHandle) (allObjects : List ObjectHandle)
  | pluginsChanged
  | startDelayedInitializeTimer (interval : Nat)
  | processEvents
  | initializationDone
  deriving DecidableEq, Repr

/-- What a member function of a specification leaves behind: the returned value, the
specification, and the events of the call. -/
structure Outcome (α : Type) where
  ret : α
  spec : PluginSpecification
  events : List Event

namespace PluginSpecification

/-- `PluginSpecification::plugin`. -/
def plugin (self : PluginSpecification) : Option Nat := self.m_plugin

/-- `PluginSpecification::arguments`. -/
def arguments (self : PluginSpecification) : List String := self.m_arguments

/-- `PluginSpecification::addArguments`. -/
def addArguments (self : PluginSpecification) (arguments : List String) :
    PluginSpecification :=
  { self with m_arguments := self.m_arguments ++ arguments }

/-- `PluginSpecification::loadLibrary`. Without a loader, line 309 dereferences
`m_staticPlugin`; when that holds no value either, the behaviour of the code is undefined and
the result is `none`. -/
def loadLibrary (rt : Runtime) (self : PluginSpecification) : Option (Outcome Bool) :=
  if self.m_errorString.isSome then
    some ⟨false, self, []⟩
  else if self.m_state ≠ PluginState.Resolved then
    if self.m_state = PluginState.Loaded then
      some ⟨true, self, []⟩
    else
      some ⟨false,
        self.setErrorString "Loading the library failed because state != Resolved", []⟩
  else
    match self.m_loader with
    | some fileName =>
        if !rt.loaderLoad fileName then
          some ⟨false,
            self.setErrorString
              (rt.toNativeSeparators self.m_filePath ++ ": " ++ rt.loaderErrorString fileName),
            [Event.loaderLoad fileName]⟩
        else
          match rt.loaderInstance fileName with
          | none =>
              some ⟨false,
                self.setErrorString "Plugin is not valid (does not derive from IPlugin)",
                [Event.loaderLoad fileName, Event.loaderUnload fileName]⟩
          | some pluginObject =>
              some ⟨true,
                { self with m_state := PluginState.Loaded, m_plugin := some pluginObject },
                [Event.loaderLoad fileName]⟩
    | none =>
        match self.m_staticPlugin with
        | none => none
        | some none =>
            some ⟨false,
              self.setErrorString "Plugin is not valid (does not derive from IPlugin)", []⟩
        | some (some pluginObject) =>
            some ⟨true,
              { self with m_state := PluginState.Loaded, m_plugin := some pluginObject }, []⟩

/-- `PluginSpecification::initializePlugin`. -/
def initializePlugin (rt : Runtime) (self : PluginSpecification) : Outcome Bool :=
  if self.m_errorString.isSome then
    ⟨false, self, []⟩
  else if self.m_state ≠ PluginState.Loaded then
    if self.m_state = PluginState.Initialized then
      ⟨true, self, []⟩
    else
      ⟨false, self.setErrorString "Initializing the plugin failed because state != Loaded", []⟩
  else
    match self.m_plugin with
    | none =>
        ⟨false, self.setErrorString "Internal error: have no plugin instance to initialize", []⟩
    | some p =>
        if !(rt.callInitialize p self.m_arguments).1 then
          ⟨false,
            self.setErrorString
              ("Plugin initialization failed: " ++ (rt.callInitialize p self.m_arguments).2),
            [Event.callInitialize p self.m_arguments]⟩
        else
          ⟨true, { self with m_state := PluginState.Initialized },
            [Event.callInitialize p self.m_arguments]⟩

/-- `PluginSpecification::initializeExtensions`. -/
def initializeExtensions (self : PluginSpecification) : Outcome Bool :=
  if self.m_errorString.isSome then
    ⟨false, self, []⟩
  else if self.m_state ≠ PluginState.Initialized then
    if self.m_state = PluginState.Running then
      ⟨true, self, []⟩
    else
      ⟨false,
        self.setErrorString "Cannot perform extensionsInitialized because state != Initialized",
        []⟩
  else
    match self.m_plugin with
    | none =>
        ⟨false,
          self.setErrorString
            "Internal error: have no plugin instance to perform extensionsInitialized",
          []⟩
    | some p =>
        ⟨true, { self with m_state := PluginState.Running }, [Event.extensionsInitialized p]⟩

/-- `PluginSpecification::delayedInitialize`. -/
def delayedInitialize (rt : Runtime) (self : PluginSpecification) : Outcome Bool :=
  if self.m_errorString.isSome then
    ⟨false, self, []⟩
  else if self.m_state ≠ PluginState.Running then
    ⟨false, self, []⟩
  else
    match self.m_plugin with
    | none =>
        ⟨false,
          self.setErrorString
            "Internal error: have no plugin instance to perform delayedInitialize",
          []⟩
    | some p => ⟨rt.delayedInitialize p, self, [Event.delayedInitialize p]⟩

/-- `PluginSpecification::stop`. -/
def stop (rt : Runtime) (self : PluginSpecification) : Outcome PluginShutdownFlag :=
  match self.m_plugin with
  | none => ⟨PluginShutdownFlag.SynchronousShutdown, self, []⟩
  | some p =>
      ⟨rt.aboutToShutdown p, { self with m_state := PluginState.Stopped },
        [Event.aboutToShutdown p]⟩

/-- `PluginSpecification::kill`. -/
def kill (self : PluginSpecification) : Outcome Unit :=
  match self.m_plugin with
  | none => ⟨(), self, []⟩
  | some p =>
      ⟨(), { self with m_plugin := none, m_state := PluginState.Deleted },
        [Event.deletePlugin p]⟩

end PluginSpecification

/-- The class `PluginManager`: the specifications, the registered objects, the plugins that
shut down asynchronously, the queue for `delayedInitialize`, the flag set when it has been
drained, and the events so far. -/
structure PluginManager where
  m_pluginSpecifications : Heap
  m_allObjects : List ObjectHandle
  m_asynchronousPlugins : List Nat
  m_delayedInitializeQueue : List Nat
  m_isInitializationDone : Bool
  events : List Event

namespace PluginManager

/-- The constant `kDelayedInitializeInterval`. -/
def kDelayedInitializeInterval : Nat := 20

/-- A member function of the specification behind a pointer is called: the specification is
replaced by what the call leaves and the events of the call are recorded. -/
def call {α : Type} (m : PluginManager) (spec : Nat) (outcome : Outcome α) : PluginManager :=
  { m with
    m_pluginSpecifications := Heap.update (fun _ => outcome.spec) m.m_pluginSpecifications spec
    events := m.events ++ outcome.events }

/-- The text built at lines 106-108 of `pluginmanager.cpp`. -/
def dependencyNotLoadedText (depSpec : PluginSpecification) : String :=
  "Cannot load plugin because dependency failed to load: " ++ depSpec.name ++ "("
    ++ depSpec.version ++ ")\nReason: " ++ depSpec.errorString.getD ""

/-- The loop at lines 101-111 of `pluginmanager.cpp`: the text for the first dependency of
type Required whose state is not `destState`, if there is one. -/
def failedDependency (h : Heap) (destState : PluginState) :
    List (PluginDependency × Nat) → Option String
  | [] => none
  | (key, depSpec) :: rest =>
      if key.type ≠ DependencyType.Required then
        failedDependency h destState rest
      else if (h.deref depSpec).state ≠ destState then
        some (dependencyNotLoadedText (h.deref depSpec))
      else
        failedDependency h destState rest

/-- The second `switch` of `PluginManager::loadPlugin`, lines 112-133; `none` when
`loadLibrary` runs into undefined behaviour. -/
def loadPluginTransition (rt : Runtime) (m : PluginManager) (spec : Nat)
    (destState : PluginState) : Option PluginManager :=
  match destState with
  | PluginState.Loaded =>
      ((m.m_pluginSpecifications.deref spec).loadLibrary rt).map
        (fun outcome => m.call spec outcome)
  | PluginState.Initialized =>
      some (m.call spec ((m.m_pluginSpecifications.deref spec).initializePlugin rt))
  | PluginState.Stopped =>
      if ((m.m_pluginSpecifications.deref spec).stop rt).ret
          = PluginShutdownFlag.AsynchronousShutdown then
        some
          { m.call spec ((m.m_pluginSpecifications.deref spec).stop rt) with
            m_asynchronousPlugins :=
              if m.m_asynchronousPlugins.contains spec then m.m_asynchronousPlugins
              else m.m_asynchronousPlugins ++ [spec]
            events := m.events ++ ((m.m_pluginSpecifications.deref spec).stop rt).events
              ++ [Event.connectAsynchronousShutdownFinished
                    ((m.m_pluginSpecifications.deref spec).stop rt).spec.plugin] }
      else
        some (m.call spec ((m.m_pluginSpecifications.deref spec).stop rt))
  | _ => some m

/-- `PluginManager::loadPlugin`; `none` when `loadLibrary` runs into undefined behaviour. -/
def loadPlugin (host : Host) (rt : Runtime) (m : PluginManager) (spec : Nat)
    (destState : PluginState) : Option PluginManager :=
  if (m.m_pluginSpecifications.deref spec).hasError
      || decide ((m.m_pluginSpecifications.deref spec).state.toInt ≠ destState.toInt - 1) then
    some m
  else if !(m.m_pluginSpecifications.deref spec).isEffectivelyEnabled host
      && decide (destState = PluginState.Loaded) then
    some m
  else
    match destState with
    | PluginState.Running =>
        some (m.call spec (m.m_pluginSpecifications.deref spec).initializeExtensions)
    | PluginState.Deleted =>
        some (m.call spec (m.m_pluginSpecifications.deref spec).kill)
    | _ =>
        match failedDependency m.m_pluginSpecifications destState
            (m.m_pluginSpecifications.deref spec).dependencySpecifications with
        | some text =>
            some
              { m with
                m_pluginSpecifications := m.m_pluginSpecifications.setErrorString spec text }
        | none => loadPluginTransition rt m spec destState

/-- The first loop of `PluginManager::loadPlugins`, lines 231-232. -/
def initializedPass (host : Host) (rt : Runtime) (m : PluginManager) (queue : List Nat) :
    Option PluginManager :=
  queue.foldlM (fun m spec => loadPlugin host rt m spec PluginState.Initialized) m

/-- The body of the second loop of `PluginManager::loadPlugins`, lines 236-242. -/
def runningStep (host : Host) (rt : Runtime) (m : PluginManager) (spec : Nat) :
    Option PluginManager :=
  (loadPlugin host rt m spec PluginState.Running).map (fun loaded =>
    if (loaded.m_pluginSpecifications.deref spec).state = PluginState.Running then
      { loaded with m_delayedInitializeQueue := loaded.m_delayedInitializeQueue ++ [spec] }
    else
      loaded.call spec (loaded.m_pluginSpecifications.deref spec).kill)

/-- The second loop of `PluginManager::loadPlugins`: `Utils::reverseForeach` over the
queue. -/
def runningPass (host : Host) (rt : Runtime) (m : PluginManager) (queue : List Nat) :
    Option PluginManager :=
  queue.reverse.foldlM (runningStep host rt) m

/-- `PluginManager::loadPlugins` on the queue that `loadQueue()` returned, which left the
specifications `h`. -/
def loadPluginsOn (host : Host) (rt : Runtime) (m : PluginManager) (h : Heap)
    (queue : List Nat) : Option PluginManager :=
  (initializedPass host rt { m with m_pluginSpecifications := h } queue).bind
    (fun initialized =>
      (runningPass host rt initialized queue).map (fun running =>
        { running with
          events := running.events
            ++ [Event.pluginsChanged,
                Event.startDelayedInitializeTimer kDelayedInitializeInterval] }))

/-- `PluginManager::loadPlugins`; `none` when the recursion bound of `loadQueue()` was
reached. -/
def loadPlugins (host : Host) (rt : Runtime) (m : PluginManager) : Option PluginManager :=
  match loadQueue m.m_pluginSpecifications with
  | none => none
  | some (h, queue) => loadPluginsOn host rt m h queue

/-- `PluginManager::allObjects`. -/
def allObjects (m : PluginManager) : List ObjectHandle := m.m_allObjects

/-- `PluginManager::addObject`. -/
def addObject (m : PluginManager) (obj : ObjectHandle) : PluginManager :=
  if obj = none then
    m
  else if m.m_allObjects.contains obj then
    m
  else
    { m with
      m_allObjects := m.m_allObjects ++ [obj]
      events := m.events ++ [Event.objectAdded obj (m.m_allObjects ++ [obj])] }

/-- `PluginManager::removeObject`; `removeAll` drops every occurrence. -/
def removeObject (m : PluginManager) (obj : ObjectHandle) : PluginManager :=
  if obj = none then
    m
  else if !m.m_allObjects.contains obj then
    m
  else
    { m with
      m_allObjects := m.m_allObjects.filter (fun o => o ≠ obj)
      events := m.events ++ [Event.aboutToRemoveObject obj m.m_allObjects] }

end PluginManager

/-! ## Example plugins and managers -/

/-- A runtime in which the loader loads every file, the files `A.so`, `B.so` and `C.so` yield
the plugin objects 1, 2 and 3, and every plugin keeps the implementations of `IPlugin`:
`initialize` returns `true`, `delayedInitialize` returns `false`, and `aboutToShutdown`
returns `SynchronousShutdown`. -/
def baseRuntime : Runtime :=
  { toNativeSeparators := fun path => path
    loaderLoad := fun _ => true
    loaderErrorString := fun _ => ""
    loaderInstance := fun fileName =>
      if fileName = "A.so" then some 1
      else if fileName = "B.so" then some 2
      else if fileName = "C.so" then some 3
      else none
    callInitialize := fun _ _ => (true, "")
    delayedInitialize := fun _ => false
    aboutToShutdown := fun _ => PluginShutdownFlag.SynchronousShutdown }

/-- As `baseRuntime`, but the loader fails to load `A.so` with the error text `X`. -/
def runtimeLoadOfAFails : Runtime :=
  { baseRuntime with
    loaderLoad := fun fileName => decide (fileName ≠ "A.so")
    loaderErrorString := fun fileName => if fileName = "A.so" then "X" else "" }

/-- A host for which every platform pattern matches. -/
def plainHost : Host := hostWith []

/-- A resolved, error-free, enabled specification with a loader for the file `<name>.so`. -/
def loadableSpec (name : String) (deps : List (PluginDependency × Nat)) :
    PluginSpecification :=
  { resolvedSpec name deps with
    m_filePath := "/plugins/" ++ name ++ ".so"
    m_loader := some (name ++ ".so") }

/-- A loaded specification with the given plugin object. -/
def loadedSpec (name : String) (deps : List (PluginDependency × Nat)) (plugin : Nat) :
    PluginSpecification :=
  { loadableSpec name deps with m_state := PluginState.Loaded, m_plugin := some plugin }

/-- A manager that owns the given specifications and nothing else. -/
def managerOf (h : Heap) : PluginManager :=
  { m_pluginSpecifications := h
    m_allObjects := []
    m_asynchronousPlugins := []
    m_delayedInitializeQueue := []
    m_isInitializationDone := false
    events := [] }

/-- The happy path before loading: `A`, `B` requires `A`, `C` requires `B`, all resolved. -/
def loadableChain : Heap :=
  [loadableSpec "A" [], loadableSpec "B" [(requiredOn "A", 0)],
    loadableSpec "C" [(requiredOn "B", 1)]]

/-- The happy path with the three libraries loaded. -/
def loadedChain : Heap :=
  [loadedSpec "A" [] 1, loadedSpec "B" [(requiredOn "A", 0)] 2,
    loadedSpec "C" [(requiredOn "B", 1)] 3]

/-- `B` requires `A`, both resolved. -/
def loadablePair : Heap :=
  [loadableSpec "A" [], loadableSpec "B" [(requiredOn "A", 0)]]

/-- A resolved, error-free specification that the settings disable. -/
def disabledSpec (name : String) : PluginSpecification :=
  { loadableSpec name [] with m_enabledBySettings := false }

/-- `B` requires `A`, both resolved, and `A` is disabled by the settings. -/
def pairWithDisabledDependency : Heap :=
  [disabledSpec "A", loadableSpec "B" [(requiredOn "A", 0)]]

/-- A loaded specification whose `initialize` has failed: it holds the error and the plugin
object 1. -/
def failedToInitialize : PluginSpecification :=
  { loadedSpec "A" [] 1 with m_errorString := some "Plugin initialization failed: no" }

/-- `A` requires `B` and `B` requires `A`, both resolved; `A` holds an error text from an
earlier failure. -/
def cycleWithEarlierError : Heap :=
  [{ resolvedSpec "A" [(requiredOn "B", 1)] with m_errorString := some "first error" },
    resolvedSpec "B" [(requiredOn "A", 0)]]

/-- The manager of `loadablePair` after the transition of `A` to `Loaded` was tried with a
loader that fails on `A.so`: `A` holds the error text of the loader, and the call of the
loader is recorded. -/
def pairAfterFailedLoad : PluginManager :=
  { managerOf
      [(loadableSpec "A" []).setErrorString "/plugins/A.so: X",
        loadableSpec "B" [(requiredOn "A", 0)]] with
    events := [Event.loaderLoad "A.so"] }

/-- A running specification with the given plugin object. -/
def runningSpec (name : String) (deps : List (PluginDependency × Nat)) (plugin : Nat) :
    PluginSpecification :=
  { loadableSpec name deps with m_state := PluginState.Running, m_plugin := some plugin }

/-- `B` requires `A`, both running. -/
def runningPair : Heap :=
  [runningSpec "A" [] 1, runningSpec "B" [(requiredOn "A", 0)] 2]

/-- `B` requires `A`; `B` is running and `A` has been stopped. -/
def runningAfterStopped : Heap :=
  [{ runningSpec "A" [] 1 with m_state := PluginState.Stopped },
    runningSpec "B" [(requiredOn "A", 0)] 2]

/-- As `baseRuntime`, but the plugin object 2 shuts down asynchronously. -/
def runtimeAsynchronous : Runtime :=
  { baseRuntime with
    aboutToShutdown := fun p =>
      if p = 2 then PluginShutdownFlag.AsynchronousShutdown
      else PluginShutdownFlag.SynchronousShutdown }

/-- As `baseRuntime`, but `initialize` of the plugin object 1 fails with the text `no`. -/
def runtimeInitializeFails : Runtime :=
  { baseRuntime with
    callInitialize := fun p _ => if p = 1 then (false, "no") else (true, "") }

/-- As `baseRuntime`, but `delayedInitialize` of the plugin object 2 returns `true`. -/
def runtimeDelayed : Runtime :=
  { baseRuntime with delayedInitialize := fun p => decide (p = 2) }

/-- The manager of `runningPair` with `B` and `A` queued for `delayedInitialize`. -/
def runningPairQueued : PluginManager :=
  { managerOf runningPair with m_delayedInitializeQueue := [1, 0] }

/-! ## Properties of the lifecycle -/

/-- Every specification whose state is `Loaded` or later has each of its resolved
dependencies of type Required in a state that is not behind its own. -/
def RequiredDependenciesAhead (h : Heap) : Prop :=
  ∀ p key d, PluginState.Loaded.toInt ≤ (h.deref p).state.toInt →
    (key, d) ∈ (h.deref p).dependencySpecifications → key.type = DependencyType.Required →
    (h.deref p).state.toInt ≤ (h.deref d).state.toInt

namespace PluginManager

/-- The manager in the middle of `loadPluginsOn`: after the first loop and the first `k`
iterations of the second loop. -/
def duringLoadPlugins (host : Host) (rt : Runtime) (m : PluginManager) (h : Heap)
    (queue : List Nat) (k : Nat) : Option PluginManager :=
  (initializedPass host rt { m with m_pluginSpecifications := h } queue).bind
    (fun initialized => (queue.reverse.take k).foldlM (runningStep host rt) initialized)

end PluginManager

/-- The plugin instance is there in the states `Loaded`, `Initialized`, `Running` and
`Stopped`, and it is gone in the state `Deleted`. -/
def InstanceInvariant (s : PluginSpecification) : Prop :=
  ((s.state = PluginState.Loaded ∨ s.state = PluginState.Initialized ∨
      s.state = PluginState.Running ∨ s.state = PluginState.Stopped) → s.plugin ≠ none) ∧
  (s.state = PluginState.Deleted → s.plugin = none)

/-- What `start` can become through `reset`, `loadLibrary`, `initializePlugin`,
`initializeExtensions`, `delayedInitialize`, `stop` and `kill`, whatever the loader and the
plugin answer. -/
inductive LifecycleReachable (start : PluginSpecification) : PluginSpecification → Prop
  | start : LifecycleReachable start start
  | reset (s : PluginSpecification) :
      LifecycleReachable start s → LifecycleReachable start s.reset
  | loadLibrary (rt : Runtime) (s : PluginSpecification) (outcome : Outcome Bool) :
      LifecycleReachable start s → s.loadLibrary rt = some outcome →
      LifecycleReachable start outcome.spec
  | initializePlugin (rt : Runtime) (s : PluginSpecification) :
      LifecycleReachable start s → LifecycleReachable start (s.initializePlugin rt).spec
  | initializeExtensions (s : PluginSpecification) :
      LifecycleReachable start s → LifecycleReachable start s.initializeExtensions.spec
  | delayedInitialize (rt : Runtime) (s : PluginSpecification) :
      LifecycleReachable start s → LifecycleReachable start (s.delayedInitialize rt).spec
  | stop (rt : Runtime) (s : PluginSpecification) :
      LifecycleReachable start s → LifecycleReachable start (s.stop rt).spec
  | kill (s : PluginSpecification) :
      LifecycleReachable start s → LifecycleReachable start s.kill.spec

/-! ## Properties of reading -/

namespace PluginSpecification

/-- The specification with `m_enabledBySettings` replaced. -/
def withEnabledBySettings (b : Bool) (self : PluginSpecification) : PluginSpecification :=
  { self with m_enabledBySettings := b }

/-- The specification at line 250 of `pluginspecification.cpp`, inside `read`: after `reset`
and the assignments to `m_location`, `m_filePath` and `m_loader`. -/
def readStart (host : Host) (self : PluginSpecification) (filePath : String) :
    PluginSpecification :=
  { self.reset with
    m_location := host.absolutePath filePath
    m_filePath := host.absoluteFilePath filePath
    m_loader := some filePath }

/-- The function `f` on specifications either never looks at `m_enabledBySettings` of `s` and
leaves it as it is, or overwrites it with a value that does not depend on it. -/
def KeepsOrSets (f : PluginSpecification → Bool × PluginSpecification)
    (s : PluginSpecification) : Prop :=
  (∀ b, f (s.withEnabledBySettings b) = ((f s).1, (f s).2.withEnabledBySettings b)) ∨
  (∀ b, f (s.withEnabledBySettings b) = f s)

end PluginSpecification

/-! ## Properties of the queue -/

/-- The specification with every entry of type Test deleted from its resolved
dependencies. -/
def PluginSpecification.withoutTestDependencies (self : PluginSpecification) :
    PluginSpecification :=
  { self with
    m_dependencySpecifications :=
      self.m_dependencySpecifications.filter (fun e => e.1.type ≠ DependencyType.Test) }

/-- The specifications with every entry of type Test deleted from the resolved dependencies
of each. -/
def Heap.withoutTestDependencies (h : Heap) : Heap :=
  h.map PluginSpecification.withoutTestDependencies

/-- The result of a call of the recursive `loadQueue`, with every entry of type Test deleted
from the resolved dependencies of each specification. -/
def LoadQueueResult.withoutTestDependencies (r : LoadQueueResult) : LoadQueueResult :=
  ⟨r.ret, r.heap.withoutTestDependencies, r.queue, r.circularityCheckQueue⟩

/-- A dependency of type Test on version `1.0.0` of the named plugin. -/
def testOn (name : String) : PluginDependency :=
  { name := name, version := "1.0.0", type := DependencyType.Test }

/-- `A` requires `B`, and `B` has a dependency of type Test on `A`. -/
def cycleThroughTest : Heap :=
  [resolvedSpec "A" [(requiredOn "B", 1)], resolvedSpec "B" [(testOn "A", 0)]]

/-- What every call of the recursive `loadQueue` guarantees on its result `r`, whatever the
states and the dependency graph of the specifications `g`, when it starts on `queue` and
`circ`: the specifications keep their shape, no specification is twice in the queue or twice
on the path, the new entries of the queue were not on the path, the path has only grown, and
it holds only valid pointers when the call returns `true`, or when `valid` says that the call
started from valid pointers. -/
structure LoadQueueTotal (g : Heap) (queue circ : List Nat) (valid : Prop)
    (r : LoadQueueResult) : Prop where
  shape : SameShape g r.heap
  nodup : r.queue.Nodup
  fresh : ∀ x ∈ r.queue, x ∈ queue ∨ x ∉ circ
  path_prefix : ∃ l, r.circularityCheckQueue = circ ++ l
  path_nodup : r.circularityCheckQueue.Nodup
  bounded : r.ret = true → ∀ x ∈ r.circularityCheckQueue, x < g.length
  bounded_of_valid : valid → ∀ x ∈ r.circularityCheckQueue, x < g.length

/-! ## The delayed initialisation (`pluginmanager.cpp`, lines 136-150) -/

namespace PluginManager

/-- One iteration of the loop of `PluginManager::startDelayedInitialize`, lines 140-145, with
`spec` at the front of the queue and `rest` behind it: the specification is dequeued,
`delayedInitialize` is called on it, and `QCoreApplication::processEvents` is called when
that returned `true`. The events processed there are taken not to call into the manager. -/
def delayedInitializeStep (rt : Runtime) (m : PluginManager) (spec : Nat) (rest : List Nat) :
    PluginManager :=
  { m with
    m_pluginSpecifications :=
      Heap.update (fun _ => ((m.m_pluginSpecifications.deref spec).delayedInitialize rt).spec)
        m.m_pluginSpecifications spec
    m_delayedInitializeQueue := rest
    events := m.events ++ ((m.m_pluginSpecifications.deref spec).delayedInitialize rt).events
      ++ (if ((m.m_pluginSpecifications.deref spec).delayedInitialize rt).ret then
            [Event.processEvents]
          else []) }

/-- The loop `while (!m_delayedInitializeQueue.empty())` of
`PluginManager::startDelayedInitialize`. The first argument bounds the number of times the
condition is evaluated; `none` means that the bound was reached. -/
def delayedInitializeLoop (rt : Runtime) : Nat → PluginManager → Option PluginManager
  | 0, _ => none
  | fuel + 1, m =>
      match m.m_delayedInitializeQueue with
      | [] => some m
      | spec :: rest => delayedInitializeLoop rt fuel (delayedInitializeStep rt m spec rest)

/-- `PluginManager::startDelayedInitialize` with the bound `fuel` on the loop. -/
def startDelayedInitializeWith (fuel : Nat) (rt : Runtime) (m : PluginManager) :
    Option PluginManager :=
  (delayedInitializeLoop rt fuel m).map (fun m' =>
    { m' with
      m_isInitializationDone := true
      events := m'.events ++ [Event.initializationDone] })

/-- `PluginManager::startDelayedInitialize`: every iteration dequeues one specification, so
the condition of the loop is evaluated once more than the queue is long. -/
def startDelayedInitialize (rt : Runtime) (m : PluginManager) : Option PluginManager :=
  startDelayedInitializeWith (m.m_delayedInitializeQueue.length + 1) rt m

/-- What one iteration of the loop records for the specification `s`: the call of
`delayedInitialize` of the plugin when `s->delayedInitialize()` gets that far, and
`processEvents` when `true` was returned. -/
def delayedCallEvents (rt : Runtime) (s : PluginSpecification) : List Event :=
  (s.delayedInitialize rt).events
    ++ (if (s.delayedInitialize rt).ret then [Event.processEvents] else [])

end PluginManager

/-! ## Lemmas on the vector of specifications -/

theorem Heap.length_update (f : PluginSpecification → PluginSpecification) (h : Heap) (i : Nat) :
    (Heap.update f h i).length = h.length := by
  induction h generalizing i with
  | nil => rfl
  | cons s rest ih =>
    cases i with
    | zero => rfl
    | succ i => simp [Heap.update, ih]

theorem Heap.deref_update_of_ne (f : PluginSpecification → PluginSpecification) (h : Heap)
    (i j : Nat) (hij : j ≠ i) : (Heap.update f h i).deref j = h.deref j := by
  induction h generalizing i j with
  | nil => rfl
  | cons s rest ih =>
    cases i with
    | zero =>
      cases j with
      | zero => exact absurd rfl hij
      | succ j => rfl
    | succ i =>
      cases j with
      | zero => rfl
      | succ j =>
        have := ih i j (fun e => hij (by rw [e]))
        simpa [Heap.update, Heap.deref] using this

theorem Heap.deref_update_self (f : PluginSpecification → PluginSpecification) (h : Heap)
    (i : Nat) (hi : i < h.length) : (Heap.update f h i).deref i = f (h.deref i) := by
  induction h generalizing i with
  | nil => exact absurd hi (Nat.not_lt_zero _)
  | cons s rest ih =>
    cases i with
    | zero => rfl
    | succ i =>
      have := ih i (Nat.lt_of_succ_lt_succ hi)
      simpa [Heap.update, Heap.deref] using this

theorem Heap.update_of_length_le (f : PluginSpecification → PluginSpecification) (h : Heap)
    (i : Nat) (hi : h.length ≤ i) : Heap.update f h i = h := by
  induction h generalizing i with
  | nil => rfl
  | cons s rest ih =>
    cases i with
    | zero => exact absurd hi (by simp)
    | succ i =>
      have := ih i (Nat.le_of_succ_le_succ hi)
      simp [Heap.update, this]

theorem sameShape_refl (h : Heap) : SameShape h h := ⟨rfl, fun _ => ⟨rfl, rfl, rfl, rfl⟩⟩

theorem SameShape.then {a b c : Heap} (hab : SameShape a b) (hbc : SameShape b c) :
    SameShape a c := by
  refine ⟨hbc.1.trans hab.1, fun i => ?_⟩
  obtain ⟨s1, d1, n1, v1⟩ := hab.2 i
  obtain ⟨s2, d2, n2, v2⟩ := hbc.2 i
  exact ⟨s2.trans s1, d2.trans d1, n2.trans n1, v2.trans v1⟩

theorem sameShape_setErrorString (h : Heap) (spec : Nat) (text : String) :
    SameShape h (h.setErrorString spec text) := by
  refine ⟨Heap.length_update _ _ _, fun i => ?_⟩
  by_cases hi : i = spec
  · subst hi
    by_cases hl : i < h.length
    · unfold Heap.setErrorString
      rw [Heap.deref_update_self _ _ _ hl]
      exact ⟨rfl, rfl, rfl, rfl⟩
    · unfold Heap.setErrorString
      rw [Heap.update_of_length_le _ _ _ (Nat.le_of_not_lt hl)]
      exact ⟨rfl, rfl, rfl, rfl⟩
  · unfold Heap.setErrorString
    rw [Heap.deref_update_of_ne _ _ _ _ hi]
    exact ⟨rfl, rfl, rfl, rfl⟩

theorem Heap.errorString_setErrorString_self (h : Heap) (spec : Nat) (text : String)
    (hl : spec < h.length) :
    ((h.setErrorString spec text).deref spec).m_errorString = some text := by
  unfold Heap.setErrorString
  rw [Heap.deref_update_self _ _ _ hl]
  rfl

theorem Heap.deref_setErrorString_of_ne (h : Heap) (spec : Nat) (text : String) (j : Nat)
    (hj : j ≠ spec) : (h.setErrorString spec text).deref j = h.deref j :=
  Heap.deref_update_of_ne _ _ _ _ hj

theorem circularDependencyText_congr {g h : Heap} (hs : SameShape g h) (spec : Nat)
    (c : List Nat) : circularDependencyText h spec c = circularDependencyText g spec c := by
  unfold circularDependencyText dependsOnLine PluginSpecification.name
    PluginSpecification.version
  have e : ∀ i, (h.deref i).m_name = (g.deref i).m_name ∧
      (h.deref i).m_version = (g.deref i).m_version := fun i => ⟨(hs.2 i).2.2.1, (hs.2 i).2.2.2⟩
  simp only [e]

/-! ## Lemmas on queue construction -/

theorem length_le_of_nodup_of_lt {l : List Nat} {n : Nat} (hl : l.Nodup)
    (hb : ∀ x ∈ l, x < n) : l.length ≤ n := by
  have hsub : l ⊆ List.range n := fun x hx => List.mem_range.2 (hb x hx)
  have := (List.subperm_of_subset hl hsub).length_le
  simpa using this

theorem type_ne_test_iff (t : DependencyType) :
    t ≠ DependencyType.Test ↔ (t = DependencyType.Required ∨ t = DependencyType.Optional) := by
  cases t <;> simp

theorem DependsOn.congr {g h : Heap} (hs : SameShape g h) {i j : Nat} :
    DependsOn h i j ↔ DependsOn g i j := by
  unfold DependsOn PluginSpecification.dependencySpecifications
  rw [(hs.2 i).2.1]

theorem errorsOnlyFromCycles_refl (g h : Heap) : ErrorsOnlyFromCycles g h h :=
  fun _ => Or.inl rfl

theorem ErrorsOnlyFromCycles.andThen {g a b c : Heap} (hab : ErrorsOnlyFromCycles g a b)
    (hbc : ErrorsOnlyFromCycles g b c) : ErrorsOnlyFromCycles g a c := by
  intro i
  rcases hbc i with e | e
  · rcases hab i with e' | e'
    · exact Or.inl (e.trans e')
    · refine Or.inr ⟨e'.1, ?_⟩
      obtain ⟨t, ht, hr⟩ := e'.2
      exact ⟨t, e.trans ht, hr⟩
  · exact Or.inr e

theorem errorsOnlyFromCycles_setErrorString {g h : Heap} (spec : Nat) (text : String)
    (hreach : ReachesCycle g spec) (htext : EndsWithCycleReport g text) :
    ErrorsOnlyFromCycles g h (h.setErrorString spec text) := by
  intro i
  by_cases hi : i = spec
  · subst hi
    by_cases hl : i < h.length
    · exact Or.inr ⟨hreach, text, Heap.errorString_setErrorString_self h i text hl, htext⟩
    · left
      unfold Heap.setErrorString
      rw [Heap.update_of_length_le _ _ _ (Nat.le_of_not_lt hl)]
  · left
    rw [Heap.deref_setErrorString_of_ne _ _ _ _ hi]

theorem QueueOrdered.nil (g : Heap) : QueueOrdered g [] :=
  ⟨List.nodup_nil, fun _ hi => absurd hi (List.not_mem_nil _),
    fun _ hi => absurd hi (List.not_mem_nil _)⟩

theorem QueueOrdered.append {g : Heap} {queue : List Nat} {spec : Nat}
    (hq : QueueOrdered g queue) (hlt : spec < g.length) (hnot : spec ∉ queue)
    (hdeps : ∀ j, DependsOn g spec j → j ∈ queue) : QueueOrdered g (queue ++ [spec]) := by
  obtain ⟨hnd, hb, hord⟩ := hq
  refine ⟨?_, ?_, ?_⟩
  · rw [List.nodup_append]
    refine ⟨hnd, List.nodup_singleton _, ?_⟩
    intro x hx hx'
    rw [List.mem_singleton] at hx'
    exact hnot (hx' ▸ hx)
  · intro i hi
    rcases List.mem_append.1 hi with hi | hi
    · exact hb i hi
    · rw [List.mem_singleton] at hi
      exact hi ▸ hlt
  · intro i hi j hij
    rcases List.mem_append.1 hi with hi | hi
    · obtain ⟨hj, hlt'⟩ := hord i hi j hij
      refine ⟨List.mem_append_left _ hj, ?_⟩
      rw [List.indexOf_append_of_mem hj, List.indexOf_append_of_mem hi]
      exact hlt'
    · rw [List.mem_singleton] at hi
      subst hi
      have hj := hdeps j hij
      refine ⟨List.mem_append_left _ hj, ?_⟩
      rw [List.indexOf_append_of_mem hj, List.indexOf_append_of_not_mem hnot]
      have := List.indexOf_lt_length.2 hj
      omega

theorem QueueOrdered.before_of_transGen {g : Heap} {queue : List Nat}
    (hq : QueueOrdered g queue) {i j : Nat} (hi : i ∈ queue)
    (hij : Relation.TransGen (DependsOn g) i j) :
    j ∈ queue ∧ queue.indexOf j < queue.indexOf i := by
  induction hij with
  | single e => exact hq.2.2 i hi _ e
  | tail _ e ih =>
    obtain ⟨hb, hlt⟩ := ih
    obtain ⟨hc, hlt'⟩ := hq.2.2 _ hb _ e
    exact ⟨hc, Nat.lt_trans hlt' hlt⟩

theorem QueueOrdered.mem_of_reflTransGen {g : Heap} {queue : List Nat}
    (hq : QueueOrdered g queue) {i j : Nat} (hi : i ∈ queue)
    (hij : Relation.ReflTransGen (DependsOn g) i j) : j ∈ queue := by
  rcases Relation.reflTransGen_iff_eq_or_transGen.1 hij with e | e
  · exact e ▸ hi
  · exact (hq.before_of_transGen hi e).1

theorem QueueOrdered.not_reachesCycle {g : Heap} {queue : List Nat}
    (hq : QueueOrdered g queue) {i : Nat} (hi : i ∈ queue) : ¬ ReachesCycle g i := by
  rintro ⟨x, hix, hxx⟩
  have hx := hq.mem_of_reflTransGen hi hix
  exact Nat.lt_irrefl _ (hq.before_of_transGen hx hxx).2

theorem ReachesCycle.of_dependsOn {g : Heap} {i j : Nat} (hij : DependsOn g i j)
    (hj : ReachesCycle g j) : ReachesCycle g i := by
  obtain ⟨x, hjx, hxx⟩ := hj
  exact ⟨x, Relation.ReflTransGen.head hij hjx, hxx⟩

theorem EndsWithCycleReport.dependencyFailedText {g : Heap} (depSpec : PluginSpecification)
    {e : String} (he : depSpec.m_errorString = some e) (hr : EndsWithCycleReport g e) :
    EndsWithCycleReport g (dependencyFailedText depSpec) := by
  obtain ⟨pre, s, c, hs, rfl⟩ := hr
  refine ⟨"Cannot load plugin because dependency failed to load: " ++ depSpec.name ++ " ("
    ++ depSpec.version ++ ")\nReason: " ++ pre, s, c, hs, ?_⟩
  unfold ExtensionSystem.dependencyFailedText PluginSpecification.errorString
  rw [he]
  simp [String.append_assoc]

theorem loadQueueDeps_post (g : Heap) (hwf : WellFormed g) (fuel : Nat)
    (ih : ∀ h spec queue circ, LoadQueuePre g fuel h spec queue circ →
      ∃ r, loadQueueRec fuel h spec queue circ = some r ∧
        LoadQueuePost g h spec queue circ circ r)
    (spec : Nat) (hspec : spec < g.length) (circ0 : List Nat) :
    ∀ (rest : List (PluginDependency × Nat)) (h : Heap) (queue circ : List Nat),
      SameShape g h →
      (∀ p ∈ rest, p ∈ (g.deref spec).dependencySpecifications) →
      (∀ j, DependsOn g spec j →
        (∃ key, (key, j) ∈ rest ∧ key.type ≠ DependencyType.Test) ∨ j ∈ queue) →
      QueueOrdered g queue → spec ∉ queue → spec ∈ circ → spec ∉ circ0 →
      (∀ x ∈ circ0, x ∈ circ) →
      circ.Nodup → (∀ x ∈ circ, x < g.length) → g.length + 1 ≤ fuel + circ.length →
      (∀ x ∈ circ, x ∈ queue ∨ x = spec ∨ Relation.TransGen (DependsOn g) x spec) →
      ∃ r, loadQueueDeps (loadQueueRec fuel) spec rest h queue circ = some r ∧
        LoadQueuePost g h spec queue circ0 circ r := by
  intro rest
  induction rest with
  | nil =>
    intro h queue circ hshape _ hdone hord hnotq _ hnot0 _ hnd hbd _ _
    refine ⟨⟨true, h, queue ++ [spec], circ⟩, rfl, ?_⟩
    have hdeps : ∀ j, DependsOn g spec j → j ∈ queue := by
      intro j hj
      rcases hdone j hj with ⟨key, hk, _⟩ | hq
      · exact absurd hk (List.not_mem_nil _)
      · exact hq
    refine ⟨hshape, hord.append hspec hnotq hdeps, ⟨[spec], rfl⟩, ?_,
      errorsOnlyFromCycles_refl g h, ?_, ?_⟩
    · intro x hx
      rcases List.mem_append.1 hx with hx | hx
      · exact Or.inl hx
      · rw [List.mem_singleton] at hx
        exact Or.inr (hx ▸ hnot0)
    · intro _
      refine ⟨rfl, by simp, hnd, hbd, ⟨[], by simp⟩, fun x hx => Or.inl hx⟩
    · intro hf
      exact absurd hf (by simp)
  | cons p rest ihrest =>
    obtain ⟨key, depSpec⟩ := p
    intro h queue circ hshape hsub hdone hord hnotq hin hnot0 hsub0 hnd hbd hfuel hpath
    have hsub' : ∀ p ∈ rest, p ∈ (g.deref spec).dependencySpecifications :=
      fun p hp => hsub p (List.mem_cons_of_mem _ hp)
    by_cases htest : key.type = DependencyType.Test
    · have hdone' : ∀ j, DependsOn g spec j →
          (∃ key, (key, j) ∈ rest ∧ key.type ≠ DependencyType.Test) ∨ j ∈ queue := by
        intro j hj
        rcases hdone j hj with ⟨k, hk, hkt⟩ | hq
        · rcases List.mem_cons.1 hk with e | hk
          · have : k = key := (Prod.mk.inj e).1
            exact absurd (this ▸ htest) hkt
          · exact Or.inl ⟨k, hk, hkt⟩
        · exact Or.inr hq
      have := ihrest h queue circ hshape hsub' hdone' hord hnotq hin hnot0 hsub0 hnd hbd
        hfuel hpath
      simpa [loadQueueDeps, htest] using this
    · have hedge : DependsOn g spec depSpec :=
        ⟨key, hsub _ (List.mem_cons_self _ _), (type_ne_test_iff _).1 htest⟩
      have hdep_lt : depSpec < g.length :=
        hwf spec hspec _ (hsub _ (List.mem_cons_self _ _))
      have hpre : LoadQueuePre g fuel h depSpec queue circ := by
        refine ⟨hshape, hdep_lt, hnd, hbd, hfuel, hord, ?_⟩
        intro x hx
        rcases hpath x hx with hq | e | ht
        · exact Or.inl hq
        · exact Or.inr (e ▸ Relation.TransGen.single hedge)
        · exact Or.inr (Relation.TransGen.tail ht hedge)
      obtain ⟨r1, hr1, post1⟩ := ih h depSpec queue circ hpre
      obtain ⟨l1, hl1⟩ := post1.queue_prefix
      have hq_sub : ∀ x ∈ queue, x ∈ r1.queue := by
        intro x hx
        rw [hl1]
        exact List.mem_append_left _ hx
      have hnotq1 : spec ∉ r1.queue := by
        intro hmem
        rcases post1.fresh spec hmem with hq | hc
        · exact hnotq hq
        · exact hc hin
      by_cases hret : r1.ret = true
      · obtain ⟨hheap, hdepq, hnd1, hbd1, ⟨lc, hlc⟩, hnew⟩ := post1.ok hret
        have hc_sub : ∀ x ∈ circ, x ∈ r1.circularityCheckQueue := by
          intro x hx
          rw [hlc]
          exact List.mem_append_left _ hx
        have hdone' : ∀ j, DependsOn g spec j →
            (∃ key, (key, j) ∈ rest ∧ key.type ≠ DependencyType.Test) ∨ j ∈ r1.queue := by
          intro j hj
          rcases hdone j hj with ⟨k, hk, hkt⟩ | hq
          · rcases List.mem_cons.1 hk with e | hk
            · have : j = depSpec := (Prod.mk.inj e).2
              exact Or.inr (this ▸ hdepq)
            · exact Or.inl ⟨k, hk, hkt⟩
          · exact Or.inr (hq_sub j hq)
        have hfuel1 : g.length + 1 ≤ fuel + r1.circularityCheckQueue.length := by
          rw [hlc, List.length_append]
          omega
        have hpath1 : ∀ x ∈ r1.circularityCheckQueue,
            x ∈ r1.queue ∨ x = spec ∨ Relation.TransGen (DependsOn g) x spec := by
          intro x hx
          rcases hnew x hx with hc | hq
          · rcases hpath x hc with hq | e
            · exact Or.inl (hq_sub x hq)
            · exact Or.inr e
          · exact Or.inl hq
        obtain ⟨r2, hr2, post2⟩ := ihrest r1.heap r1.queue r1.circularityCheckQueue
          post1.shape hsub' hdone' post1.ordered hnotq1 (hc_sub spec hin) hnot0
          (fun x hx => hc_sub x (hsub0 x hx)) hnd1 hbd1 hfuel1 hpath1
        refine ⟨r2, ?_, ?_⟩
        · simp [loadQueueDeps, htest, hr1, hret, hr2]
        · obtain ⟨l2, hl2⟩ := post2.queue_prefix
          refine ⟨post2.shape, post2.ordered, ⟨l1 ++ l2, ?_⟩, ?_, ?_, ?_, post2.failed⟩
          · rw [hl2, hl1, List.append_assoc]
          · intro x hx
            rcases post2.fresh x hx with hq | hc
            · rcases post1.fresh x hq with hq' | hc'
              · exact Or.inl hq'
              · exact Or.inr (fun h0 => hc' (hsub0 x h0))
            · exact Or.inr hc
          · exact (hheap ▸ post2.errors)
          · intro hok
            obtain ⟨hh2, hs2, hnd2, hbd2, ⟨lc2, hlc2⟩, hnew2⟩ := post2.ok hok
            refine ⟨hh2.trans hheap, hs2, hnd2, hbd2, ⟨lc ++ lc2, ?_⟩, ?_⟩
            · rw [hlc2, hlc, List.append_assoc]
            · intro x hx
              rcases hnew2 x hx with hc | hq
              · rcases hnew x hc with hc' | hq'
                · exact Or.inl hc'
                · right
                  rw [hl2]
                  exact List.mem_append_left _ hq'
              · exact Or.inr hq
      · have hret' : r1.ret = false := by simpa using hret
        obtain ⟨hreach, e, he, hrep⟩ := post1.failed hret'
        have hreach' : ReachesCycle g spec := ReachesCycle.of_dependsOn hedge hreach
        have hrep' : EndsWithCycleReport g (dependencyFailedText (r1.heap.deref depSpec)) :=
          EndsWithCycleReport.dependencyFailedText _ he hrep
        have hspec1 : spec < r1.heap.length := by
          rw [post1.shape.1]
          exact hspec
        refine ⟨⟨false,
          r1.heap.setErrorString spec (dependencyFailedText (r1.heap.deref depSpec)),
          r1.queue, r1.circularityCheckQueue⟩, ?_, ?_⟩
        · simp [loadQueueDeps, htest, hr1, hret']
        · refine ⟨post1.shape.then (sameShape_setErrorString _ _ _), post1.ordered,
            ⟨l1, hl1⟩, ?_, ?_, ?_, ?_⟩
          · intro x hx
            rcases post1.fresh x hx with hq | hc
            · exact Or.inl hq
            · exact Or.inr (fun h0 => hc (hsub0 x h0))
          · exact post1.errors.andThen
              (errorsOnlyFromCycles_setErrorString spec _ hreach' hrep')
          · intro hf
            exact absurd hf (by simp)
          · intro _
            exact ⟨hreach', _, Heap.errorString_setErrorString_self _ _ _ hspec1, hrep'⟩

theorem loadQueueRec_post (g : Heap) (hwf : WellFormed g) (hres : AllResolved g) :
    ∀ (fuel : Nat) (h : Heap) (spec : Nat) (queue circ : List Nat),
      LoadQueuePre g fuel h spec queue circ →
      ∃ r, loadQueueRec fuel h spec queue circ = some r ∧
        LoadQueuePost g h spec queue circ circ r := by
  intro fuel
  induction fuel with
  | zero =>
    intro h spec queue circ pre
    have := length_le_of_nodup_of_lt pre.nodup pre.bounded
    have := pre.fuel_le
    omega
  | succ fuel ih =>
    intro h spec queue circ pre
    by_cases hq : spec ∈ queue
    · refine ⟨⟨true, h, queue, circ⟩, by simp [loadQueueRec, hq], ?_⟩
      refine ⟨pre.shape, pre.ordered, ⟨[], by simp⟩, fun x hx => Or.inl hx,
        errorsOnlyFromCycles_refl g h, ?_, ?_⟩
      · intro _
        exact ⟨rfl, hq, pre.nodup, pre.bounded, ⟨[], by simp⟩, fun x hx => Or.inl hx⟩
      · intro hf
        exact absurd hf (by simp)
    · by_cases hc : spec ∈ circ
      · have hcyc : OnCycle g spec := by
          rcases pre.path spec hc with h1 | h1
          · exact absurd h1 hq
          · exact h1
        have hreach : ReachesCycle g spec := ⟨spec, Relation.ReflTransGen.refl, hcyc⟩
        have hrep : EndsWithCycleReport g (circularDependencyText h spec circ) :=
          ⟨"", spec, circ, hcyc, by
            rw [circularDependencyText_congr pre.shape]
            simp⟩
        have hlt : spec < h.length := by
          rw [pre.shape.1]
          exact pre.spec_lt
        refine ⟨⟨false, h.setErrorString spec (circularDependencyText h spec circ), queue,
          circ⟩, by simp [loadQueueRec, hq, hc], ?_⟩
        refine ⟨pre.shape.then (sameShape_setErrorString _ _ _), pre.ordered,
          ⟨[], by simp⟩, fun x hx => Or.inl hx,
          errorsOnlyFromCycles_setErrorString spec _ hreach hrep, ?_, ?_⟩
        · intro hf
          exact absurd hf (by simp)
        · intro _
          exact ⟨hreach, _, Heap.errorString_setErrorString_self _ _ _ hlt, hrep⟩
      · have hstate : (h.deref spec).state = PluginState.Resolved := by
          have := hres spec pre.spec_lt
          unfold PluginSpecification.state at this ⊢
          rw [(pre.shape.2 spec).1]
          exact this
        have hdepsEq : (h.deref spec).dependencySpecifications
            = (g.deref spec).dependencySpecifications := (pre.shape.2 spec).2.1
        have hnd : (circ ++ [spec]).Nodup := by
          rw [List.nodup_append]
          refine ⟨pre.nodup, List.nodup_singleton _, ?_⟩
          intro x hx hx'
          rw [List.mem_singleton] at hx'
          exact hc (hx' ▸ hx)
        have hbd : ∀ x ∈ circ ++ [spec], x < g.length := by
          intro x hx
          rcases List.mem_append.1 hx with hx | hx
          · exact pre.bounded x hx
          · rw [List.mem_singleton] at hx
            exact hx ▸ pre.spec_lt
        have hfuel : g.length + 1 ≤ fuel + (circ ++ [spec]).length := by
          have := pre.fuel_le
          rw [List.length_append, List.length_singleton]
          omega
        have hdone : ∀ j, DependsOn g spec j →
            (∃ key, (key, j) ∈ (g.deref spec).dependencySpecifications ∧
              key.type ≠ DependencyType.Test) ∨ j ∈ queue := by
          rintro j ⟨key, hk, ht⟩
          exact Or.inl ⟨key, hk, (type_ne_test_iff _).2 ht⟩
        have hpath : ∀ x ∈ circ ++ [spec],
            x ∈ queue ∨ x = spec ∨ Relation.TransGen (DependsOn g) x spec := by
          intro x hx
          rcases List.mem_append.1 hx with hx | hx
          · rcases pre.path x hx with h1 | h1
            · exact Or.inl h1
            · exact Or.inr (Or.inr h1)
          · rw [List.mem_singleton] at hx
            exact Or.inr (Or.inl hx)
        obtain ⟨r, hr, post⟩ := loadQueueDeps_post g hwf fuel ih spec pre.spec_lt circ
          (g.deref spec).dependencySpecifications h queue (circ ++ [spec]) pre.shape
          (fun p hp => hp) hdone pre.ordered hq (by simp) hc
          (fun x hx => List.mem_append_left _ hx) hnd hbd hfuel hpath
        refine ⟨r, ?_, ?_⟩
        · simp [loadQueueRec, hq, hc, hstate, hdepsEq, hr]
        · refine ⟨post.shape, post.ordered, post.queue_prefix, post.fresh, post.errors, ?_,
            post.failed⟩
          intro hok
          obtain ⟨hh, hs, hnd', hbd', ⟨lc, hlc⟩, hnew⟩ := post.ok hok
          refine ⟨hh, hs, hnd', hbd', ⟨[spec] ++ lc, ?_⟩, ?_⟩
          · rw [hlc, List.append_assoc]
          · intro x hx
            rcases hnew x hx with hx' | hx'
            · rcases List.mem_append.1 hx' with hx'' | hx''
              · exact Or.inl hx''
              · rw [List.mem_singleton] at hx''
                exact Or.inr (hx'' ▸ hs)
            · exact Or.inr hx'

theorem loadQueueLoop_post (g : Heap) (hwf : WellFormed g) (hres : AllResolved g)
    (fuel : Nat) (hfuel : g.length + 1 ≤ fuel) :
    ∀ (l : List Nat) (h : Heap) (queue : List Nat),
      (∀ x ∈ l, x < g.length) → SameShape g h → QueueOrdered g queue →
      ∃ h' queue', loadQueueLoop fuel l h queue = some (h', queue') ∧
        SameShape g h' ∧ QueueOrdered g queue' ∧ (∀ x ∈ queue, x ∈ queue') ∧
        ErrorsOnlyFromCycles g h h' ∧
        (∀ x ∈ l, x ∈ queue' ∨ (ReachesCycle g x ∧
          ∃ e, (h'.deref x).m_errorString = some e ∧ EndsWithCycleReport g e)) := by
  intro l
  induction l with
  | nil =>
    intro h queue _ hshape hord
    exact ⟨h, queue, rfl, hshape, hord, fun x hx => hx, errorsOnlyFromCycles_refl g h,
      fun x hx => absurd hx (List.not_mem_nil _)⟩
  | cons spec rest ih =>
    intro h queue hlt hshape hord
    have hpre : LoadQueuePre g fuel h spec queue [] :=
      ⟨hshape, hlt spec (List.mem_cons_self _ _), List.nodup_nil,
        fun x hx => absurd hx (List.not_mem_nil _), by simpa using hfuel, hord,
        fun x hx => absurd hx (List.not_mem_nil _)⟩
    obtain ⟨r, hr, post⟩ := loadQueueRec_post g hwf hres fuel h spec queue [] hpre
    obtain ⟨h', queue', hrun, hshape', hord', hsub', herr', hall'⟩ :=
      ih r.heap r.queue (fun x hx => hlt x (List.mem_cons_of_mem _ hx)) post.shape
        post.ordered
    obtain ⟨l1, hl1⟩ := post.queue_prefix
    refine ⟨h', queue', by simp [loadQueueLoop, hr, hrun], hshape', hord', ?_,
      post.errors.andThen herr', ?_⟩
    · intro x hx
      apply hsub'
      rw [hl1]
      exact List.mem_append_left _ hx
    · intro x hx
      rcases List.mem_cons.1 hx with e | hx
      · subst e
        by_cases hret : r.ret = true
        · exact Or.inl (hsub' x (post.ok hret).2.1)
        · have hret' : r.ret = false := by simpa using hret
          obtain ⟨hreach, e, he, hrep⟩ := post.failed hret'
          right
          refine ⟨hreach, ?_⟩
          rcases herr' x with same | changed
          · exact ⟨e, same.trans he, hrep⟩
          · exact changed.2
      · exact hall' x hx

/-- The outcome of `loadQueue()` on specifications that are all in state `Resolved`: with a
recursion bound of at least one more than their number it returns; the queue is ordered and
holds exactly the specifications that do not reach a cycle; those that reach one hold an
error that ends with a cycle report; the others keep their error slot. -/
theorem loadQueueWith_post (h : Heap) (hwf : WellFormed h) (hres : AllResolved h)
    (fuel : Nat) (hfuel : h.length + 1 ≤ fuel) :
    ∃ h' queue, loadQueueWith fuel h = some (h', queue) ∧
      SameShape h h' ∧ QueueOrdered h queue ∧
      (∀ i, i < h.length → (i ∈ queue ↔ ¬ ReachesCycle h i)) ∧
      (∀ i, i < h.length → ReachesCycle h i →
        ∃ e, (h'.deref i).m_errorString = some e ∧ EndsWithCycleReport h e) ∧
      (∀ i, ¬ ReachesCycle h i → (h'.deref i).m_errorString = (h.deref i).m_errorString) := by
  obtain ⟨h', queue, hrun, hshape, hord, _, herr, hall⟩ :=
    loadQueueLoop_post h hwf hres fuel hfuel (List.range h.length) h []
      (fun x hx => List.mem_range.1 hx) (sameShape_refl h) (QueueOrdered.nil h)
  refine ⟨h', queue, hrun, hshape, hord, ?_, ?_, ?_⟩
  · intro i hi
    constructor
    · exact fun hq => hord.not_reachesCycle hq
    · intro hn
      rcases hall i (List.mem_range.2 hi) with hq | hr
      · exact hq
      · exact absurd hr.1 hn
  · intro i hi hr
    rcases hall i (List.mem_range.2 hi) with hq | hr'
    · exact absurd hr (hord.not_reachesCycle hq)
    · exact hr'.2
  · intro i hn
    rcases herr i with same | changed
    · exact same
    · exact absurd changed.1 hn

/-! ## Claims on queue construction -/

theorem Acyclic.of_decreasing {h : Heap} (hdec : ∀ i j, DependsOn h i j → j < i) :
    Acyclic h := by
  intro i hi
  have key : ∀ a b, Relation.TransGen (DependsOn h) a b → b < a := by
    intro a b hab
    induction hab with
    | single e => exact hdec _ _ e
    | tail _ e ih => exact Nat.lt_trans (hdec _ _ e) ih
  exact Nat.lt_irrefl _ (key i i hi)

theorem ReachesCycle.not_of_acyclic {h : Heap} (hacyc : Acyclic h) (i : Nat) :
    ¬ ReachesCycle h i := fun ⟨x, _, hx⟩ => hacyc x hx

theorem chainABC_dependsOn_lt (i j : Nat) (hij : DependsOn chainABC i j) : j < i := by
  obtain ⟨key, hk, _⟩ := hij
  match i with
  | 0 => simp [chainABC, Heap.deref, resolvedSpec, PluginSpecification.dependencySpecifications] at hk
  | 1 =>
    simp [chainABC, Heap.deref, resolvedSpec, PluginSpecification.dependencySpecifications] at hk
    omega
  | 2 =>
    simp [chainABC, Heap.deref, resolvedSpec, PluginSpecification.dependencySpecifications] at hk
    omega
  | n + 3 =>
    simp [chainABC, Heap.deref, emptySpecification,
      PluginSpecification.dependencySpecifications] at hk

theorem chainABC_wellFormed : WellFormed chainABC := by
  intro i hi p hp
  have hi' : i < 3 := hi
  interval_cases i <;>
    simp [chainABC, Heap.deref, resolvedSpec,
      PluginSpecification.dependencySpecifications] at hp ⊢
  all_goals (try simp [hp])

theorem chainABC_allResolved : AllResolved chainABC := by
  intro i hi
  have hi' : i < 3 := hi
  interval_cases i <;> rfl

/-- C1: for specifications that are all in state Resolved and whose Required/Optional
dependency graph is acyclic, `loadQueue()` returns (with any recursion bound of at least one
more than the number of specifications) a queue that contains every specification, and
every specification stands in it after each specification it depends on through a Required
or Optional dependency; for the chain `A`, `B` depends on `A`, `C` depends on `B`, whatever
the other members of the three specifications hold, the queue is exactly `[A, B, C]`. -/
theorem C1_loadQueue_acyclic_order (h : Heap) (hwf : WellFormed h) (hres : AllResolved h)
    (hacyc : Acyclic h) (fuel : Nat) (hfuel : h.length + 1 ≤ fuel) :
    (∃ h' queue, loadQueueWith fuel h = some (h', queue) ∧
      (∀ i, i < h.length → i ∈ queue) ∧
      (∀ i j, i < h.length → DependsOn h i j →
        j ∈ queue ∧ queue.indexOf j < queue.indexOf i)) ∧
    (∀ (a b c : PluginSpecification) (kb kc : PluginDependency),
      a.m_state = PluginState.Resolved → b.m_state = PluginState.Resolved →
      c.m_state = PluginState.Resolved →
      a.m_dependencySpecifications = [] → b.m_dependencySpecifications = [(kb, 0)] →
      c.m_dependencySpecifications = [(kc, 1)] →
      loadQueue [a, b, c] = some ([a, b, c], [0, 1, 2])) := by
  constructor
  · obtain ⟨h', queue, hrun, _, hord, hmem, _, _⟩ := loadQueueWith_post h hwf hres fuel hfuel
    have hall : ∀ i, i < h.length → i ∈ queue :=
      fun i hi => (hmem i hi).2 (ReachesCycle.not_of_acyclic hacyc i)
    exact ⟨h', queue, hrun, hall, fun i j hi hij => hord.2.2 i (hall i hi) j hij⟩
  · intro a b c kb kc ha hb hc hda hdb hdc
    simp [loadQueue, loadQueueWith, loadQueueLoop, loadQueueRec, loadQueueDeps, Heap.deref,
      PluginSpecification.state, PluginSpecification.dependencySpecifications, ha, hb, hc,
      hda, hdb, hdc, List.range_succ]

/-- C1 at the happy-path chain `A`, `B`, `C`. -/
theorem C1_loadQueue_acyclic_order_witness :
    (∃ h' queue, loadQueueWith 4 chainABC = some (h', queue) ∧
      (∀ i, i < chainABC.length → i ∈ queue) ∧
      (∀ i j, i < chainABC.length → DependsOn chainABC i j →
        j ∈ queue ∧ queue.indexOf j < queue.indexOf i)) ∧
    loadQueue chainABC = some (chainABC, [0, 1, 2]) :=
  ⟨(C1_loadQueue_acyclic_order chainABC chainABC_wellFormed chainABC_allResolved
      (Acyclic.of_decreasing chainABC_dependsOn_lt) 4 (by decide)).1,
    (C1_loadQueue_acyclic_order chainABC chainABC_wellFormed chainABC_allResolved
      (Acyclic.of_decreasing chainABC_dependsOn_lt) 4 (by decide)).2
      (resolvedSpec "A" []) (resolvedSpec "B" [(requiredOn "A", 0)])
      (resolvedSpec "C" [(requiredOn "B", 1)]) (requiredOn "A") (requiredOn "B")
      rfl rfl rfl rfl rfl rfl⟩

/-- C2: a call of the recursive `loadQueue` on a specification that is not in the queue but
occurs on `circularityCheckQueue` returns false, leaves queue and `circularityCheckQueue` as
they were, and sets the error text of that specification to the header
`Circular dependency detected:`, then, in the order of `circularityCheckQueue` and from the
first occurrence of the specification to the end, one line `name (version) depends on` per
entry, then `name (version)` of the specification itself. -/
theorem C2_loadQueue_circular_report (fuel : Nat) (h : Heap) (spec : Nat)
    (queue circularityCheckQueue : List Nat) (hq : spec ∉ queue)
    (hc : spec ∈ circularityCheckQueue) (hvalid : spec < h.length) :
    ∃ r, loadQueueRec (fuel + 1) h spec queue circularityCheckQueue = some r ∧
      r.ret = false ∧ r.queue = queue ∧ r.circularityCheckQueue = circularityCheckQueue ∧
      (r.heap.deref spec).errorString = some
        ("Circular dependency detected:\n"
          ++ String.join
              ((circularityCheckQueue.drop (circularityCheckQueue.indexOf spec)).map
                (fun i => (h.deref i).name ++ " (" ++ (h.deref i).version ++ ") depends on\n"))
          ++ ((h.deref spec).name ++ " (" ++ (h.deref spec).version ++ ")")) ∧
      (∀ i, i ≠ spec → r.heap.deref i = h.deref i) := by
  refine ⟨⟨false,
    h.setErrorString spec (circularDependencyText h spec circularityCheckQueue), queue,
    circularityCheckQueue⟩, by simp [loadQueueRec, hq, hc], rfl, rfl, rfl, ?_, ?_⟩
  · unfold PluginSpecification.errorString
    rw [Heap.errorString_setErrorString_self _ _ _ hvalid]
    have e1 : "Circular dependency detected:" ++ "\n" = "Circular dependency detected:\n" := by
      decide
    have e2 : ∀ s : String, s ++ ") depends on" ++ "\n" = s ++ ") depends on\n" := by
      intro s
      rw [String.append_assoc]
      rfl
    simp only [circularDependencyText, dependsOnLine, e1, e2]
  · intro i hi
    exact Heap.deref_setErrorString_of_ne _ _ _ _ hi

/-- C2 at the cycle `A`, `B`, `C`, when the traversal that started at `A` comes back
to `A`. -/
theorem C2_loadQueue_circular_report_witness :
    ∃ r, loadQueueRec (0 + 1) cycleABC 0 [] [0, 1, 2] = some r ∧
      r.ret = false ∧ r.queue = [] ∧ r.circularityCheckQueue = [0, 1, 2] ∧
      (r.heap.deref 0).errorString = some
        ("Circular dependency detected:\n"
          ++ String.join
              ((([0, 1, 2] : List Nat).drop (([0, 1, 2] : List Nat).indexOf 0)).map
                (fun i => (cycleABC.deref i).name ++ " (" ++ (cycleABC.deref i).version
                  ++ ") depends on\n"))
          ++ ((cycleABC.deref 0).name ++ " (" ++ (cycleABC.deref 0).version ++ ")")) ∧
      (∀ i, i ≠ 0 → r.heap.deref i = cycleABC.deref i) :=
  C2_loadQueue_circular_report 0 cycleABC 0 [] [0, 1, 2] (by decide) (by decide) (by decide)

theorem DependsOn.of_requiresOn {h : Heap} {i j : Nat} (hij : RequiresOn h i j) :
    DependsOn h i j := by
  obtain ⟨key, hk, ht⟩ := hij
  exact ⟨key, hk, Or.inl ht⟩

theorem cycleABC_wellFormed : WellFormed cycleABC := by
  intro i hi p hp
  have hi' : i < 3 := hi
  interval_cases i <;>
    simp [cycleABC, Heap.deref, resolvedSpec,
      PluginSpecification.dependencySpecifications] at hp ⊢
  all_goals (try simp [hp])

theorem cycleABC_allResolved : AllResolved cycleABC := by
  intro i hi
  have hi' : i < 3 := hi
  interval_cases i <;> rfl

theorem cycleABC_requiresOn :
    RequiresOn cycleABC 0 1 ∧ RequiresOn cycleABC 1 2 ∧ RequiresOn cycleABC 2 0 := by
  refine ⟨⟨requiredOn "B", ?_, rfl⟩, ⟨requiredOn "C", ?_, rfl⟩, ⟨requiredOn "A", ?_, rfl⟩⟩ <;>
  simp [cycleABC, Heap.deref, resolvedSpec, PluginSpecification.dependencySpecifications]

/-- C3, as stated, fails: for `A`, `B`, `C` in state Resolved with Required dependencies
`A` on `B`, `B` on `C` and `C` on `A`, the queue returned by `loadQueue()` is empty. -/
theorem C3_counterexample :
    AllResolved cycleABC ∧ RequiresOn cycleABC 0 1 ∧ RequiresOn cycleABC 1 2 ∧
      RequiresOn cycleABC 2 0 ∧ (loadQueue cycleABC).map Prod.snd = some [] := by
  refine ⟨cycleABC_allResolved, ⟨requiredOn "B", ?_, rfl⟩, ⟨requiredOn "C", ?_, rfl⟩,
    ⟨requiredOn "A", ?_, rfl⟩, by decide⟩ <;>
  simp [cycleABC, Heap.deref, resolvedSpec, PluginSpecification.dependencySpecifications]

/-- C3, amended: for three specifications `A`, `B`, `C` in state Resolved with Required
dependencies `A` on `B`, `B` on `C` and `C` on `A`, `loadQueue()` returns, the queue it
returns contains none of the three (it is empty), and each of the three holds an error
afterwards. -/
theorem C3_loadQueue_cycle_not_queued (h : Heap) (hlen : h.length = 3) (hwf : WellFormed h)
    (hres : AllResolved h) (hab : RequiresOn h 0 1) (hbc : RequiresOn h 1 2)
    (hca : RequiresOn h 2 0) (fuel : Nat) (hfuel : h.length + 1 ≤ fuel) :
    ∃ h', loadQueueWith fuel h = some (h', []) ∧
      (h'.deref 0).hasError = true ∧ (h'.deref 1).hasError = true ∧
      (h'.deref 2).hasError = true := by
  obtain ⟨h', queue, hrun, _, hord, hmem, herr, _⟩ := loadQueueWith_post h hwf hres fuel hfuel
  have e01 := DependsOn.of_requiresOn hab
  have e12 := DependsOn.of_requiresOn hbc
  have e20 := DependsOn.of_requiresOn hca
  have c0 : OnCycle h 0 :=
    Relation.TransGen.tail (Relation.TransGen.tail (Relation.TransGen.single e01) e12) e20
  have c1 : OnCycle h 1 :=
    Relation.TransGen.tail (Relation.TransGen.tail (Relation.TransGen.single e12) e20) e01
  have c2 : OnCycle h 2 :=
    Relation.TransGen.tail (Relation.TransGen.tail (Relation.TransGen.single e20) e01) e12
  have r0 : ReachesCycle h 0 := ⟨0, Relation.ReflTransGen.refl, c0⟩
  have r1 : ReachesCycle h 1 := ⟨1, Relation.ReflTransGen.refl, c1⟩
  have r2 : ReachesCycle h 2 := ⟨2, Relation.ReflTransGen.refl, c2⟩
  have hempty : queue = [] := by
    apply List.eq_nil_iff_forall_not_mem.2
    intro i hi
    have hlt : i < 3 := hlen ▸ hord.2.1 i hi
    have hn := hord.not_reachesCycle hi
    interval_cases i
    · exact hn r0
    · exact hn r1
    · exact hn r2
  refine ⟨h', hempty ▸ hrun, ?_, ?_, ?_⟩
  · obtain ⟨e, he, _⟩ := herr 0 (by omega) r0
    simp [PluginSpecification.hasError, he]
  · obtain ⟨e, he, _⟩ := herr 1 (by omega) r1
    simp [PluginSpecification.hasError, he]
  · obtain ⟨e, he, _⟩ := herr 2 (by omega) r2
    simp [PluginSpecification.hasError, he]

/-- C3, amended, at the cycle `A`, `B`, `C`. -/
theorem C3_loadQueue_cycle_not_queued_witness :
    ∃ h', loadQueueWith 4 cycleABC = some (h', []) ∧
      (h'.deref 0).hasError = true ∧ (h'.deref 1).hasError = true ∧
      (h'.deref 2).hasError = true :=
  C3_loadQueue_cycle_not_queued cycleABC rfl cycleABC_wellFormed cycleABC_allResolved
    cycleABC_requiresOn.1 cycleABC_requiresOn.2.1 cycleABC_requiresOn.2.2 4 (by decide)

theorem cycleWithDependent_wellFormed : WellFormed cycleWithDependent := by
  intro i hi p hp
  have hi' : i < 3 := hi
  interval_cases i <;>
    simp [cycleWithDependent, Heap.deref, resolvedSpec,
      PluginSpecification.dependencySpecifications] at hp ⊢
  all_goals (try simp [hp])

theorem cycleWithDependent_allResolved : AllResolved cycleWithDependent := by
  intro i hi
  have hi' : i < 3 := hi
  interval_cases i <;> rfl

theorem cycleWithDependent_clean (i : Nat) :
    (cycleWithDependent.deref i).errorString = none := by
  match i with
  | 0 => rfl
  | 1 => rfl
  | 2 => rfl
  | n + 3 => rfl

theorem cycleWithDependent_not_onCycle : ¬ OnCycle cycleWithDependent 0 := by
  intro hc
  obtain ⟨b, _, key, hk, _⟩ := Relation.TransGen.tail'_iff.1 hc
  match b with
  | 0 =>
    simp [cycleWithDependent, Heap.deref, resolvedSpec,
      PluginSpecification.dependencySpecifications] at hk
  | 1 =>
    simp [cycleWithDependent, Heap.deref, resolvedSpec,
      PluginSpecification.dependencySpecifications] at hk
  | 2 =>
    simp [cycleWithDependent, Heap.deref, resolvedSpec,
      PluginSpecification.dependencySpecifications] at hk
  | n + 3 =>
    simp [cycleWithDependent, Heap.deref, emptySpecification,
      PluginSpecification.dependencySpecifications] at hk

set_option maxRecDepth 100000 in
theorem cycleWithDependent_error_of_dependent :
    (loadQueue cycleWithDependent).map (fun r => (r.1.deref 0).errorString) = some (some
      ("Cannot load plugin because dependency failed to load: A (1.0.0)\nReason: "
        ++ "Cannot load plugin because dependency failed to load: B (1.0.0)\nReason: "
        ++ "Cannot load plugin because dependency failed to load: A (1.0.0)\nReason: "
        ++ "Circular dependency detected:\nA (1.0.0) depends on\nB (1.0.0) depends on\n"
        ++ "A (1.0.0)")) := by
  decide

/-- C4, as stated, fails: `D` depends on `A`, and `A` and `B` depend on each other; all
three are in state Resolved and error-free. `D` does not lie on the cycle and nothing else
fails for it, yet after `loadQueue()` it holds an error (the dependency failure that was
propagated to it). -/
theorem C4_counterexample :
    AllResolved cycleWithDependent ∧
      (∀ i, (cycleWithDependent.deref i).errorString = none) ∧
      ¬ OnCycle cycleWithDependent 0 ∧
      (loadQueue cycleWithDependent).map (fun r => (r.1.deref 0).errorString) = some (some
        ("Cannot load plugin because dependency failed to load: A (1.0.0)\nReason: "
          ++ "Cannot load plugin because dependency failed to load: B (1.0.0)\nReason: "
          ++ "Cannot load plugin because dependency failed to load: A (1.0.0)\nReason: "
          ++ "Circular dependency detected:\nA (1.0.0) depends on\nB (1.0.0) depends on\n"
          ++ "A (1.0.0)")) :=
  ⟨cycleWithDependent_allResolved, cycleWithDependent_clean, cycleWithDependent_not_onCycle,
    cycleWithDependent_error_of_dependent⟩

/-- C4, amended: after `loadQueue()` over specifications that are all in state Resolved and
error-free, exactly the specifications that lie on a cycle of Required/Optional dependencies
or depend, directly or transitively through such dependencies, on a specification of a cycle
hold an error, and its text ends with the circular-dependency report of a specification that
lies on a cycle; every other specification holds no error. -/
theorem C4_loadQueue_errors_iff_reaches_cycle (h : Heap) (hwf : WellFormed h)
    (hres : AllResolved h) (hclean : ∀ i, (h.deref i).errorString = none) (fuel : Nat)
    (hfuel : h.length + 1 ≤ fuel) :
    ∃ h' queue, loadQueueWith fuel h = some (h', queue) ∧
      ∀ i, i < h.length →
        ((h'.deref i).hasError = true ↔ ReachesCycle h i) ∧
        (ReachesCycle h i →
          ∃ e, (h'.deref i).errorString = some e ∧ EndsWithCycleReport h e) := by
  obtain ⟨h', queue, hrun, _, _, _, herr, hsame⟩ := loadQueueWith_post h hwf hres fuel hfuel
  refine ⟨h', queue, hrun, fun i hi => ⟨⟨?_, ?_⟩, fun hr => herr i hi hr⟩⟩
  · intro he
    by_contra hn
    have h1 := hsame i hn
    have h2 := hclean i
    unfold PluginSpecification.errorString at h2
    rw [h2] at h1
    simp [PluginSpecification.hasError, h1] at he
  · intro hr
    obtain ⟨e, he, _⟩ := herr i hi hr
    simp [PluginSpecification.hasError, he]

/-- C4, amended, at `D` depends on `A`, `A` and `B` depend on each other. -/
theorem C4_loadQueue_errors_iff_reaches_cycle_witness :
    ∃ h' queue, loadQueueWith 4 cycleWithDependent = some (h', queue) ∧
      ∀ i, i < cycleWithDependent.length →
        ((h'.deref i).hasError = true ↔ ReachesCycle cycleWithDependent i) ∧
        (ReachesCycle cycleWithDependent i →
          ∃ e, (h'.deref i).errorString = some e ∧
            EndsWithCycleReport cycleWithDependent e) :=
  C4_loadQueue_errors_iff_reaches_cycle cycleWithDependent cycleWithDependent_wellFormed
    cycleWithDependent_allResolved cycleWithDependent_clean 4 (by decide)

/-! ## Lemmas on reading the meta data -/

namespace PluginSpecification

open Constants Helpers

theorem readArguments_error (l : List JsonValue) (s : PluginSpecification)
    (r : Bool × PluginSpecification) (h : readArguments l s = Except.error r) :
    r.1 = true ∧ r.2.m_errorString.isSome = true ∧
      r.2.eraseFromArguments = s.eraseFromArguments := by
  induction l generalizing s with
  | nil => simp [readArguments] at h
  | cons v rest ih =>
    unfold readArguments at h
    simp only [] at h
    split_ifs at h
    all_goals first
      | (injection h with h; subst h; simp [reportError, eraseFromArguments])
      | (have hrec := ih _ h; exact hrec)

theorem readArguments_ok (l : List JsonValue) (s s' : PluginSpecification)
    (h : readArguments l s = Except.ok s') :
    s'.m_errorString = s.m_errorString ∧ s'.eraseFromArguments = s.eraseFromArguments := by
  induction l generalizing s with
  | nil =>
    simp only [readArguments, Except.ok.injEq] at h
    subst h
    exact ⟨rfl, rfl⟩
  | cons v rest ih =>
    unfold readArguments at h
    simp only [] at h
    split_ifs at h
    have hrec := ih _ h
    exact hrec

theorem readMetaDataArguments_ret (s : PluginSpecification) :
    (readMetaDataArguments s).1 = true := by
  unfold readMetaDataArguments
  simp only []
  split_ifs
  · rfl
  · split
    · next r hr => exact (readArguments_error _ _ _ hr).1
    · rfl
  · rfl

theorem readMetaDataArguments_frame (s : PluginSpecification) :
    (readMetaDataArguments s).2.eraseFromArguments = s.eraseFromArguments := by
  unfold readMetaDataArguments
  simp only []
  split_ifs
  · rfl
  · split
    · next r hr => exact (readArguments_error _ _ _ hr).2.2
    · next s' hs => exact (readArguments_ok _ _ _ hs).2
  · rfl

theorem readMetaDataArguments_error_none (s : PluginSpecification)
    (h : (readMetaDataArguments s).2.m_errorString = none) : s.m_errorString = none := by
  unfold readMetaDataArguments at h
  simp only [] at h
  split_ifs at h
  · simp [reportError] at h
  · split at h
    · next r hr =>
      have := (readArguments_error _ _ _ hr).2.1
      simp [h] at this
    · next s' hs => exact (readArguments_ok _ _ _ hs).1 ▸ h
  · exact h

end PluginSpecification

namespace PluginSpecification

open Constants Helpers

theorem readDependency_ok (host : Host) (v : JsonValue) (dep : PluginDependency)
    (h : readDependency host v = Except.ok dep) :
    dep.name = (JsonObject.value v.toObject kDependencyName).toString ∧
    dep.version = (JsonObject.value v.toObject kDependencyVersion).toString ∧
    isValidVersion dep.version = true := by
  unfold readDependency at h
  by_cases h1 : (!v.isObject) = true
  · simp only [if_pos h1] at h
    exact Except.noConfusion h
  simp only [if_neg h1] at h
  by_cases h2 : (JsonObject.value v.toObject kDependencyName).isUndefined = true
  · simp only [if_pos h2] at h
    exact Except.noConfusion h
  simp only [if_neg h2] at h
  by_cases h3 : (!(JsonObject.value v.toObject kDependencyName).isString) = true
  · simp only [if_pos h3] at h
    exact Except.noConfusion h
  simp only [if_neg h3] at h
  by_cases h4 : (!(JsonObject.value v.toObject kDependencyVersion).isUndefined &&
      !(JsonObject.value v.toObject kDependencyVersion).isString) = true
  · simp only [if_pos h4] at h
    exact Except.noConfusion h
  simp only [if_neg h4] at h
  by_cases h5 : (!isValidVersion (JsonObject.value v.toObject kDependencyVersion).toString)
      = true
  · simp only [if_pos h5] at h
    exact Except.noConfusion h
  simp only [if_neg h5] at h
  have hv : isValidVersion (JsonObject.value v.toObject kDependencyVersion).toString = true := by
    cases hb : isValidVersion (JsonObject.value v.toObject kDependencyVersion).toString
    · rw [hb] at h5
      exact absurd rfl h5
    · rfl
  by_cases h6 : (!(JsonObject.value v.toObject kDependencyType).isUndefined &&
      !(JsonObject.value v.toObject kDependencyType).isString) = true
  · simp only [if_pos h6] at h
    exact Except.noConfusion h
  simp only [if_neg h6] at h
  by_cases h7 : (JsonObject.value v.toObject kDependencyType).isUndefined = true
  · simp only [if_pos h7] at h
    injection h with h
    subst h
    exact ⟨rfl, rfl, hv⟩
  simp only [if_neg h7] at h
  by_cases h8 : host.toLower (JsonObject.value v.toObject kDependencyType).toString
      = kDependencyTypeHard
  · simp only [if_pos h8] at h
    injection h with h
    subst h
    exact ⟨rfl, rfl, hv⟩
  simp only [if_neg h8] at h
  by_cases h9 : host.toLower (JsonObject.value v.toObject kDependencyType).toString
      = kDependencyTypeSoft
  · simp only [if_pos h9] at h
    injection h with h
    subst h
    exact ⟨rfl, rfl, hv⟩
  simp only [if_neg h9] at h
  by_cases h10 : host.toLower (JsonObject.value v.toObject kDependencyType).toString
      = kDependencyTypeTest
  · simp only [if_pos h10] at h
    injection h with h
    subst h
    exact ⟨rfl, rfl, hv⟩
  simp only [if_neg h10] at h
  exact Except.noConfusion h

theorem readDependencies_error (host : Host) (l : List JsonValue) (s : PluginSpecification)
    (r : Bool × PluginSpecification) (h : readDependencies host l s = Except.error r) :
    r.1 = true ∧ r.2.m_errorString.isSome = true ∧
      r.2.eraseFromDependencies = s.eraseFromDependencies := by
  induction l generalizing s with
  | nil => simp [readDependencies] at h
  | cons v rest ih =>
    unfold readDependencies at h
    split at h
    · injection h with h
      subst h
      simp [reportError, eraseFromDependencies, eraseFromArguments]
    · have hrec := ih _ h
      exact hrec

theorem readDependencies_ok (host : Host) (l : List JsonValue) (s s' : PluginSpecification)
    (h : readDependencies host l s = Except.ok s') :
    ∃ ds : List PluginDependency,
      s' = { s with m_dependencies := s.m_dependencies ++ ds } ∧
      List.Forall₂ (fun v d => readDependency host v = Except.ok d) l ds := by
  induction l generalizing s with
  | nil =>
    simp only [readDependencies, Except.ok.injEq] at h
    subst h
    exact ⟨[], by simp, List.Forall₂.nil⟩
  | cons v rest ih =>
    unfold readDependencies at h
    split at h
    · exact absurd h (by simp)
    · next dep hdep =>
      obtain ⟨ds, hs, hall⟩ := ih _ h
      refine ⟨dep :: ds, ?_, List.Forall₂.cons hdep hall⟩
      rw [hs]
      simp [appendDependency]

theorem readDependencies_append (host : Host) (pre l : List JsonValue)
    (s s' : PluginSpecification) (h : readDependencies host pre s = Except.ok s') :
    readDependencies host (pre ++ l) s = readDependencies host l s' := by
  induction pre generalizing s with
  | nil =>
    simp only [readDependencies, Except.ok.injEq] at h
    subst h
    rfl
  | cons v rest ih =>
    cases hdep : readDependency host v with
    | error text =>
      simp only [readDependencies, hdep] at h
      exact absurd h (by simp)
    | ok dep =>
      simp only [readDependencies, hdep] at h
      simp only [List.cons_append, readDependencies, hdep]
      exact ih _ h

theorem readMetaDataDependencies_ret (host : Host) (s : PluginSpecification) :
    (readMetaDataDependencies host s).1 = true := by
  unfold readMetaDataDependencies
  simp only []
  split_ifs
  · rfl
  · split
    · next r hr => exact (readDependencies_error _ _ _ _ hr).1
    · exact readMetaDataArguments_ret _
  · exact readMetaDataArguments_ret _

theorem eraseFromDependencies_congr {a b : PluginSpecification}
    (h : a.eraseFromArguments = b.eraseFromArguments) :
    a.eraseFromDependencies = b.eraseFromDependencies :=
  congrArg (fun x : PluginSpecification => { x with m_dependencies := [] }) h

theorem readMetaDataDependencies_frame (host : Host) (s : PluginSpecification) :
    (readMetaDataDependencies host s).2.eraseFromDependencies = s.eraseFromDependencies := by
  unfold readMetaDataDependencies
  simp only []
  split_ifs
  · rfl
  · split
    · next r hr => exact (readDependencies_error _ _ _ _ hr).2.2
    · next s' hs =>
      obtain ⟨ds, hs', _⟩ := readDependencies_ok _ _ _ _ hs
      rw [eraseFromDependencies_congr (readMetaDataArguments_frame s'), hs']
      rfl
  · exact eraseFromDependencies_congr (readMetaDataArguments_frame s)

theorem readMetaDataDependencies_error_none (host : Host) (s : PluginSpecification)
    (h : (readMetaDataDependencies host s).2.m_errorString = none) :
    s.m_errorString = none ∧ DependenciesRead host s (readMetaDataDependencies host s).2 := by
  have hdeps : ∀ t : PluginSpecification,
      (readMetaDataArguments t).2.m_dependencies = t.m_dependencies := by
    intro t
    have := congrArg (fun x => x.m_dependencies) (readMetaDataArguments_frame t)
    exact this
  unfold DependenciesRead
  unfold readMetaDataDependencies at h ⊢
  simp only [] at h ⊢
  split_ifs at h ⊢
  · simp [reportError] at h
  · split at h
    · next r hr =>
      have := (readDependencies_error _ _ _ _ hr).2.1
      simp [h] at this
    · next s' hs =>
      obtain ⟨ds, hs', hall⟩ := readDependencies_ok _ _ _ _ hs
      have he := readMetaDataArguments_error_none s' h
      refine ⟨?_, ds, ?_, hall⟩
      · rw [hs'] at he
        exact he
      · rw [hdeps s', hs']
  · next hund =>
    refine ⟨readMetaDataArguments_error_none s h, [], ?_, ?_⟩
    · rw [hdeps s]
      simp
    · have : JsonObject.value s.m_metaData kDependencies = JsonValue.undefined := by
        cases hv : JsonObject.value s.m_metaData kDependencies <;>
          simp [hv, JsonValue.isUndefined] at hund
        rfl
      rw [this]
      exact List.Forall₂.nil

end PluginSpecification

namespace PluginSpecification

open Constants Helpers

theorem eraseFromDescriptive_congr {a b : PluginSpecification}
    (h : a.eraseFromDependencies = b.eraseFromDependencies) :
    a.eraseFromDescriptive = b.eraseFromDescriptive :=
  congrArg (fun x : PluginSpecification =>
    { x with
      m_vendor := ""
      m_copyright := ""
      m_description := ""
      m_longDescription := ""
      m_url := ""
      m_category := ""
      m_license := ""
      m_platformSpecification := "" }) h

theorem eraseFromFlags_congr {a b : PluginSpecification}
    (h : a.eraseFromDescriptive = b.eraseFromDescriptive) :
    a.eraseFromFlags = b.eraseFromFlags :=
  congrArg (fun x : PluginSpecification =>
    { x with
      m_required := false
      m_experimental := false
      m_enabledByDefault := false
      m_enabledBySettings := false }) h

theorem eraseFromMetaData_congr {a b : PluginSpecification}
    (h : a.eraseFromFlags = b.eraseFromFlags) :
    a.eraseFromMetaData = b.eraseFromMetaData :=
  congrArg (fun x : PluginSpecification =>
    { x with
      m_metaData := []
      m_name := ""
      m_version := ""
      m_compatVersion := "" }) h

theorem descriptiveOutcome_reportError (host : Host) (s t : PluginSpecification)
    (text : String)
    (ht : t.eraseFromDescriptive = s.eraseFromDescriptive) :
    DescriptiveOutcome host s (t.reportError text) :=
  ⟨rfl, ht, fun h => absurd h (by simp [reportError])⟩

theorem descriptiveOutcome_dependencies (host : Host) (s t : PluginSpecification)
    (ht : t.eraseFromDescriptive = s.eraseFromDescriptive)
    (he : t.m_errorString = s.m_errorString) (hd : t.m_dependencies = s.m_dependencies)
    (hm : t.m_metaData = s.m_metaData) :
    DescriptiveOutcome host s (readMetaDataDependencies host t) := by
  refine ⟨readMetaDataDependencies_ret host t, ?_, ?_⟩
  · rw [eraseFromDescriptive_congr (readMetaDataDependencies_frame host t), ht]
  · intro h
    obtain ⟨h1, ds, h2, h3⟩ := readMetaDataDependencies_error_none host t h
    refine ⟨he ▸ h1, ds, ?_, ?_⟩
    · rw [h2, hd]
    · rw [← hm]
      exact h3

theorem readMetaDataDescriptive_outcome (host : Host) (s : PluginSpecification) :
    DescriptiveOutcome host s (readMetaDataDescriptive host s) := by
  unfold readMetaDataDescriptive
  by_cases h1 : (!(JsonObject.value s.m_metaData kVendor).isUndefined &&
      !(JsonObject.value s.m_metaData kVendor).isString) = true
  · simp only [if_pos h1]
    exact descriptiveOutcome_reportError host s _ _ rfl
  simp only [if_neg h1]
  by_cases h2 : (!(JsonObject.value s.m_metaData kCopyright).isUndefined &&
      !(JsonObject.value s.m_metaData kCopyright).isString) = true
  · simp only [if_pos h2]
    exact descriptiveOutcome_reportError host s _ _ rfl
  simp only [if_neg h2]
  by_cases h3 : (!(JsonObject.value s.m_metaData kDescription).isUndefined &&
      !(readMultiLineString (JsonObject.value s.m_metaData kDescription) s.m_description).1)
      = true
  · simp only [if_pos h3]
    exact descriptiveOutcome_reportError host s _ _ rfl
  simp only [if_neg h3]
  by_cases h4 : (!(JsonObject.value s.m_metaData kLongDescription).isUndefined &&
      !(readMultiLineString (JsonObject.value s.m_metaData kLongDescription)
        s.m_longDescription).1) = true
  · simp only [if_pos h4]
    exact descriptiveOutcome_reportError host s _ _ rfl
  simp only [if_neg h4]
  by_cases h5 : (!(JsonObject.value s.m_metaData kUrl).isUndefined &&
      !(JsonObject.value s.m_metaData kUrl).isString) = true
  · simp only [if_pos h5]
    exact descriptiveOutcome_reportError host s _ _ rfl
  simp only [if_neg h5]
  by_cases h6 : (!(JsonObject.value s.m_metaData kCategory).isUndefined &&
      !(JsonObject.value s.m_metaData kCategory).isString) = true
  · simp only [if_pos h6]
    exact descriptiveOutcome_reportError host s _ _ rfl
  simp only [if_neg h6]
  by_cases h7 : (!(JsonObject.value s.m_metaData kLicense).isUndefined &&
      !(readMultiLineString (JsonObject.value s.m_metaData kLicense) s.m_license).1) = true
  · simp only [if_pos h7]
    exact descriptiveOutcome_reportError host s _ _ rfl
  simp only [if_neg h7]
  by_cases h8 : (!(JsonObject.value s.m_metaData kPlatform).isUndefined &&
      !(JsonObject.value s.m_metaData kPlatform).isString) = true
  · simp only [if_pos h8]
    exact descriptiveOutcome_reportError host s _ _ rfl
  simp only [if_neg h8]
  by_cases h9 : (!(host.trimmed (JsonObject.value s.m_metaData kPlatform).toString).isEmpty)
      = true
  · simp only [if_pos h9]
    cases hp : host.patternError (host.trimmed (JsonObject.value s.m_metaData kPlatform).toString)
    · exact descriptiveOutcome_dependencies host s _ rfl rfl rfl rfl
    · exact descriptiveOutcome_reportError host s _ _ rfl
  · simp only [if_neg h9]
    exact descriptiveOutcome_dependencies host s _ rfl rfl rfl rfl

end PluginSpecification

namespace PluginSpecification

open Constants Helpers

theorem flagsOutcome_reportError (host : Host) (s t : PluginSpecification) (text : String)
    (ht : t.eraseFromFlags = s.eraseFromFlags) : FlagsOutcome host s (t.reportError text) :=
  ⟨rfl, ht, fun h => absurd h (by simp [reportError])⟩

theorem readMetaDataFlags_outcome (host : Host) (s : PluginSpecification) :
    FlagsOutcome host s (readMetaDataFlags host s) := by
  unfold readMetaDataFlags
  by_cases h1 : (!(JsonObject.value s.m_metaData kPluginRequired).isUndefined &&
      !(JsonObject.value s.m_metaData kPluginRequired).isBool) = true
  · simp only [if_pos h1]
    exact flagsOutcome_reportError host s _ _ rfl
  simp only [if_neg h1]
  by_cases h2 : (!(JsonObject.value s.m_metaData kPluginExperimental).isUndefined &&
      !(JsonObject.value s.m_metaData kPluginExperimental).isBool) = true
  · simp only [if_pos h2]
    exact flagsOutcome_reportError host s _ _ rfl
  simp only [if_neg h2]
  by_cases h3 : (!(JsonObject.value s.m_metaData kPluginDisabledByDefault).isUndefined &&
      !(JsonObject.value s.m_metaData kPluginDisabledByDefault).isBool) = true
  · simp only [if_pos h3]
    exact flagsOutcome_reportError host s _ _ rfl
  simp only [if_neg h3]
  generalize ht : ({ s with
      m_required := (JsonObject.value s.m_metaData kPluginRequired).toBool false
      m_experimental := (JsonObject.value s.m_metaData kPluginExperimental).toBool false
      m_enabledByDefault :=
        if (JsonObject.value s.m_metaData kPluginExperimental).toBool false = true then false
        else !(JsonObject.value s.m_metaData kPluginDisabledByDefault).toBool false
      m_enabledBySettings :=
        if (JsonObject.value s.m_metaData kPluginExperimental).toBool false = true then false
        else !(JsonObject.value s.m_metaData kPluginDisabledByDefault).toBool false } :
      PluginSpecification) = t
  obtain ⟨o1, o2, o3⟩ := readMetaDataDescriptive_outcome host t
  have hts : t.eraseFromFlags = s.eraseFromFlags := by
    rw [← ht]
    rfl
  have hflags := o2
  refine ⟨o1, (eraseFromFlags_congr o2).trans hts, ?_⟩
  intro herr
  obtain ⟨e1, ds, d1, d2⟩ := o3 herr
  have hreq := congrArg (fun x => x.m_required) hflags
  have hexp := congrArg (fun x => x.m_experimental) hflags
  have hebd := congrArg (fun x => x.m_enabledByDefault) hflags
  have hebs := congrArg (fun x => x.m_enabledBySettings) hflags
  have hreq' : (readMetaDataDescriptive host t).2.m_required = t.m_required := hreq
  have hexp' : (readMetaDataDescriptive host t).2.m_experimental = t.m_experimental := hexp
  have hebd' : (readMetaDataDescriptive host t).2.m_enabledByDefault = t.m_enabledByDefault :=
    hebd
  have hebs' : (readMetaDataDescriptive host t).2.m_enabledBySettings
      = t.m_enabledBySettings := hebs
  subst ht
  refine ⟨e1, ⟨ds, d1, d2⟩, hreq', hexp', ?_, ?_⟩
  · rw [hebd']
    cases (JsonObject.value s.m_metaData kPluginExperimental).toBool false <;>
      cases (JsonObject.value s.m_metaData kPluginDisabledByDefault).toBool false <;> rfl
  · rw [hebs', hebd']

end PluginSpecification

namespace PluginSpecification

open Constants Helpers

theorem bool_not_eq_true_iff (b : Bool) : (!b) = true ↔ b = false := by
  cases b <;> simp

theorem readMetaData_not_iid (host : Host) (self : PluginSpecification) (md : JsonObject)
    (h : ¬ IIDMatches host md) : readMetaData host self md = (false, self) := by
  unfold readMetaData
  by_cases h1 : (!(JsonObject.value md "IID").isString) = true
  · simp only [if_pos h1]
  · simp only [if_neg h1]
    have hs : (JsonObject.value md "IID").isString = true := by
      cases hb : (JsonObject.value md "IID").isString
      · rw [hb] at h1
        exact absurd rfl h1
      · rfl
    have h2 : (JsonObject.value md "IID").toString ≠ host.pluginIID := fun e => h ⟨hs, e⟩
    simp only [if_pos h2]

/-- The outcome of `readMetaData` on a top-level object whose `IID` matches: it returns `true`,
writes nothing but the members it reads, and when it leaves no error every member read comes
from the `MetaData` object. -/
theorem readMetaData_outcome (host : Host) (self : PluginSpecification) (md : JsonObject)
    (hiid : IIDMatches host md) :
    (readMetaData host self md).1 = true ∧
    (readMetaData host self md).2.eraseFromMetaData = self.eraseFromMetaData ∧
    ((readMetaData host self md).2.m_errorString = none →
      (JsonObject.value md kPluginMetadata).isObject = true ∧
      ReadOutcome host (JsonObject.value md kPluginMetadata).toObject self
        (readMetaData host self md).2) := by
  unfold readMetaData
  have h1 : ¬ (!(JsonObject.value md "IID").isString) = true := by
    rw [hiid.1]
    simp
  have h2 : ¬ (JsonObject.value md "IID").toString ≠ host.pluginIID := fun h => h hiid.2
  simp only [if_neg h1, if_neg h2]
  by_cases h3 : (!(JsonObject.value md kPluginMetadata).isObject) = true
  · simp only [if_pos h3]
    exact ⟨rfl, rfl, fun h => absurd h (by simp [reportError])⟩
  simp only [if_neg h3]
  generalize hmeta : (JsonObject.value md kPluginMetadata).toObject = mo
  by_cases h4 : (JsonObject.value mo kPluginName).isUndefined = true
  · simp only [if_pos h4]
    exact ⟨rfl, rfl, fun h => absurd h (by simp [reportError])⟩
  simp only [if_neg h4]
  by_cases h5 : (!(JsonObject.value mo kPluginName).isString) = true
  · simp only [if_pos h5]
    exact ⟨rfl, rfl, fun h => absurd h (by simp [reportError])⟩
  simp only [if_neg h5]
  by_cases h6 : (JsonObject.value mo kPluginVersion).isUndefined = true
  · simp only [if_pos h6]
    exact ⟨rfl, rfl, fun h => absurd h (by simp [reportError])⟩
  simp only [if_neg h6]
  by_cases h7 : (!(JsonObject.value mo kPluginVersion).isString) = true
  · simp only [if_pos h7]
    exact ⟨rfl, rfl, fun h => absurd h (by simp [reportError])⟩
  simp only [if_neg h7]
  by_cases h8 : (!isValidVersion (JsonObject.value mo kPluginVersion).toString) = true
  · simp only [if_pos h8]
    exact ⟨rfl, rfl, fun h => absurd h (by simp [reportError])⟩
  simp only [if_neg h8]
  by_cases h9 : (!(JsonObject.value mo kPluginCompatversion).isUndefined &&
      !(JsonObject.value mo kPluginCompatversion).isString) = true
  · simp only [if_pos h9]
    exact ⟨rfl, rfl, fun h => absurd h (by simp [reportError])⟩
  simp only [if_neg h9]
  by_cases h10 : (!(JsonObject.value mo kPluginCompatversion).isUndefined &&
      !isValidVersion ((JsonObject.value mo kPluginCompatversion).toStringOr
        (JsonObject.value mo kPluginVersion).toString)) = true
  · simp only [if_pos h10]
    exact ⟨rfl, rfl, fun h => absurd h (by simp [reportError])⟩
  simp only [if_neg h10]
  generalize ht : ({ self with
      m_metaData := mo
      m_name := (JsonObject.value mo kPluginName).toString
      m_version := (JsonObject.value mo kPluginVersion).toString
      m_compatVersion := (JsonObject.value mo kPluginCompatversion).toStringOr
        (JsonObject.value mo kPluginVersion).toString } : PluginSpecification) = t
  obtain ⟨o1, o2, o3⟩ := readMetaDataFlags_outcome host t
  have hts : t.eraseFromMetaData = self.eraseFromMetaData := by
    rw [← ht]
    rfl
  refine ⟨o1, (eraseFromMetaData_congr o2).trans hts, ?_⟩
  intro herr
  obtain ⟨e1, ⟨ds, d1, d2⟩, f1, f2, f3, f4⟩ := o3 herr
  have hmd : (readMetaDataFlags host t).2.m_metaData = t.m_metaData :=
    congrArg (fun x => x.m_metaData) o2
  have hname : (readMetaDataFlags host t).2.m_name = t.m_name :=
    congrArg (fun x => x.m_name) o2
  have hver : (readMetaDataFlags host t).2.m_version = t.m_version :=
    congrArg (fun x => x.m_version) o2
  have hcompat : (readMetaDataFlags host t).2.m_compatVersion = t.m_compatVersion :=
    congrArg (fun x => x.m_compatVersion) o2
  subst ht
  have hobj : (JsonObject.value md kPluginMetadata).isObject = true := by
    cases hb : (JsonObject.value md kPluginMetadata).isObject
    · rw [hb] at h3
      exact absurd rfl h3
    · rfl
  refine ⟨hobj, ?_⟩
  have hvalid : isValidVersion (JsonObject.value mo kPluginVersion).toString = true := by
    cases hb : isValidVersion (JsonObject.value mo kPluginVersion).toString
    · rw [hb] at h8
      exact absurd rfl h8
    · rfl
  have hnameS : (JsonObject.value mo kPluginName).isString = true := by
    cases hb : (JsonObject.value mo kPluginName).isString
    · rw [hb] at h5
      exact absurd rfl h5
    · rfl
  have hverS : (JsonObject.value mo kPluginVersion).isString = true := by
    cases hb : (JsonObject.value mo kPluginVersion).isString
    · rw [hb] at h7
      exact absurd rfl h7
    · rfl
  refine
    { no_error_before := e1
      metaData := hmd
      name_isString := hnameS
      name := hname
      version_isString := hverS
      version := hver
      version_valid := by rw [hver]; exact hvalid
      compatVersion := by rw [hcompat, hver]
      compatVersion_valid := ?_
      required := f1
      experimental := f2
      enabledByDefault := f3
      enabledBySettings := f4
      dependencies := ⟨ds, d1, d2⟩ }
  rw [hcompat]
  cases hu : (JsonObject.value mo kPluginCompatversion).isUndefined
  · right
    rw [hu] at h9 h10
    constructor
    · cases hb : (JsonObject.value mo kPluginCompatversion).isString
      · rw [hb] at h9
        exact absurd rfl h9
      · rfl
    · cases hb : isValidVersion ((JsonObject.value mo kPluginCompatversion).toStringOr
          (JsonObject.value mo kPluginVersion).toString)
      · rw [hb] at h10
        exact absurd rfl h10
      · rfl
  · exact Or.inl rfl

end PluginSpecification

namespace PluginSpecification

open Constants Helpers

theorem readMetaData_state (host : Host) (self : PluginSpecification) (md : JsonObject) :
    (readMetaData host self md).2.m_state = self.m_state := by
  by_cases hiid : IIDMatches host md
  · exact congrArg (fun x => x.m_state) (readMetaData_outcome host self md hiid).2.1
  · rw [readMetaData_not_iid host self md hiid]

theorem readMetaData_ret_iff (host : Host) (self : PluginSpecification) (md : JsonObject) :
    (readMetaData host self md).1 = true ↔ IIDMatches host md := by
  constructor
  · intro h
    by_contra hn
    rw [readMetaData_not_iid host self md hn] at h
    exact absurd h (by simp)
  · exact fun h => (readMetaData_outcome host self md h).1

theorem read_of_iid (host : Host) (self : PluginSpecification) (filePath : String)
    (hfile : (host.loaderFileName filePath).isEmpty = false)
    (hiid : IIDMatches host (host.loaderMetaData filePath)) :
    ∃ start : PluginSpecification, start.m_state = PluginState.Invalid ∧
      start.m_errorString = none ∧ start.m_dependencies = [] ∧
      read host self filePath =
        (true, { (readMetaData host start (host.loaderMetaData filePath)).2 with
                  m_state := PluginState.Read }) := by
  refine ⟨{ self.reset with
      m_location := host.absolutePath filePath
      m_filePath := host.absoluteFilePath filePath
      m_loader := some filePath }, rfl, rfl, rfl, ?_⟩
  unfold read
  have h1 : ¬ (host.loaderFileName filePath).isEmpty = true := by
    rw [hfile]
    simp
  simp only [if_neg h1]
  have h2 := (readMetaData_ret_iff host { self.reset with
      m_location := host.absolutePath filePath
      m_filePath := host.absoluteFilePath filePath
      m_loader := some filePath } (host.loaderMetaData filePath)).2 hiid
  have h3 : ¬ (!(readMetaData host { self.reset with
      m_location := host.absolutePath filePath
      m_filePath := host.absoluteFilePath filePath
      m_loader := some filePath } (host.loaderMetaData filePath)).1) = true := by
    rw [h2]
    simp
  simp only [if_neg h3]

theorem read_of_not_iid (host : Host) (self : PluginSpecification) (filePath : String)
    (h : (host.loaderFileName filePath).isEmpty = true ∨
      ¬ IIDMatches host (host.loaderMetaData filePath)) :
    ∃ start : PluginSpecification, start.m_state = PluginState.Invalid ∧
      start.m_errorString = none ∧ read host self filePath = (false, start) := by
  refine ⟨{ self.reset with
      m_location := host.absolutePath filePath
      m_filePath := host.absoluteFilePath filePath
      m_loader := some filePath }, rfl, rfl, ?_⟩
  unfold read
  by_cases h1 : (host.loaderFileName filePath).isEmpty = true
  · simp only [if_pos h1]
  · simp only [if_neg h1]
    have hiid : ¬ IIDMatches host (host.loaderMetaData filePath) := by
      rcases h with h | h
      · exact absurd h h1
      · exact h
    rw [readMetaData_not_iid host _ _ hiid]
    rfl

theorem msgValueMissing_name : msgValueMissing kPluginName = "\"Name\" is missing" := by
  decide

theorem msgInvalidFormat_version (v : String) :
    msgInvalidFormat kPluginVersion v
      = "Value \"" ++ v ++ "\" for key \"Version\" has invalid format" := by
  unfold msgInvalidFormat kPluginVersion
  rw [String.append_assoc, String.append_assoc, String.append_assoc]
  rfl

theorem readMetaData_name_missing (host : Host) (self : PluginSpecification) (md : JsonObject)
    (hiid : IIDMatches host md) (hobj : (JsonObject.value md kPluginMetadata).isObject = true)
    (hname : JsonObject.value (JsonObject.value md kPluginMetadata).toObject kPluginName
      = JsonValue.undefined) :
    (readMetaData host self md).2.m_errorString = some "\"Name\" is missing" := by
  unfold readMetaData
  have h1 : ¬ (!(JsonObject.value md "IID").isString) = true := by
    rw [hiid.1]
    simp
  have h2 : ¬ (JsonObject.value md "IID").toString ≠ host.pluginIID := fun h => h hiid.2
  have h3 : ¬ (!(JsonObject.value md kPluginMetadata).isObject) = true := by
    rw [hobj]
    simp
  simp only [if_neg h1, if_neg h2, if_neg h3]
  have h4 : (JsonObject.value (JsonObject.value md kPluginMetadata).toObject
      kPluginName).isUndefined = true := by
    rw [hname]
    rfl
  simp only [if_pos h4]
  rw [msgValueMissing_name]
  rfl

theorem readMetaData_version_invalid (host : Host) (self : PluginSpecification)
    (md : JsonObject) (name v : String)
    (hiid : IIDMatches host md) (hobj : (JsonObject.value md kPluginMetadata).isObject = true)
    (hname : JsonObject.value (JsonObject.value md kPluginMetadata).toObject kPluginName
      = JsonValue.string name)
    (hversion : JsonObject.value (JsonObject.value md kPluginMetadata).toObject kPluginVersion
      = JsonValue.string v)
    (hbad : isValidVersion v = false) :
    (readMetaData host self md).2.m_errorString
      = some ("Value \"" ++ v ++ "\" for key \"Version\" has invalid format") := by
  have h1 : ¬ (!(JsonObject.value md "IID").isString) = true := by
    rw [hiid.1]
    simp
  have h2 : ¬ (JsonObject.value md "IID").toString ≠ host.pluginIID := fun h => h hiid.2
  have h3 : ¬ (!(JsonObject.value md kPluginMetadata).isObject) = true := by
    rw [hobj]
    simp
  have h4 : ¬ (JsonObject.value (JsonObject.value md kPluginMetadata).toObject
      kPluginName).isUndefined = true := by
    rw [hname]
    simp [JsonValue.isUndefined]
  have h5 : ¬ (!(JsonObject.value (JsonObject.value md kPluginMetadata).toObject
      kPluginName).isString) = true := by
    rw [hname]
    simp [JsonValue.isString]
  have h6 : ¬ (JsonObject.value (JsonObject.value md kPluginMetadata).toObject
      kPluginVersion).isUndefined = true := by
    rw [hversion]
    simp [JsonValue.isUndefined]
  have h7 : ¬ (!(JsonObject.value (JsonObject.value md kPluginMetadata).toObject
      kPluginVersion).isString) = true := by
    rw [hversion]
    simp [JsonValue.isString]
  have hstr : (JsonObject.value (JsonObject.value md kPluginMetadata).toObject
      kPluginVersion).toString = v := by
    rw [hversion]
    rfl
  unfold readMetaData
  simp only [if_neg h1, if_neg h2, if_neg h3, if_neg h4, if_neg h5, if_neg h6, if_neg h7]
  have h8 : (!isValidVersion (JsonObject.value (JsonObject.value md kPluginMetadata).toObject
      kPluginVersion).toString) = true := by
    rw [hstr, hbad]
    rfl
  simp only [if_pos h8]
  rw [hstr, msgInvalidFormat_version]
  rfl

end PluginSpecification

namespace PluginSpecification

open Constants Helpers

theorem readMetaDataDependencies_entry_error (host : Host) (s s' : PluginSpecification)
    (pre rest : List JsonValue) (v : JsonValue) (text : String)
    (hdeps : JsonObject.value s.m_metaData kDependencies = JsonValue.array (pre ++ v :: rest))
    (hpre : readDependencies host pre s = Except.ok s')
    (herr : readDependency host v = Except.error text) :
    readMetaDataDependencies host s = s'.reportError text := by
  unfold readMetaDataDependencies
  have h1 : ¬ (!(JsonObject.value s.m_metaData kDependencies).isUndefined &&
      !(JsonObject.value s.m_metaData kDependencies).isArray) = true := by
    rw [hdeps]
    simp [JsonValue.isUndefined, JsonValue.isArray]
  have h2 : (!(JsonObject.value s.m_metaData kDependencies).isUndefined) = true := by
    rw [hdeps]
    rfl
  simp only [if_neg h1, if_pos h2]
  have h3 : (JsonObject.value s.m_metaData kDependencies).toArray = pre ++ v :: rest := by
    rw [hdeps]
    rfl
  rw [h3, readDependencies_append host pre (v :: rest) s s' hpre]
  simp only [readDependencies, herr]

theorem readDependency_checked (host : Host) (o : JsonObject) (name version : String)
    (hname : JsonObject.value o kDependencyName = JsonValue.string name)
    (hversion : JsonObject.value o kDependencyVersion = JsonValue.string version) :
    readDependency host (JsonValue.object o) =
      if !isValidVersion version then
        Except.error ("Dependency: " ++ msgInvalidFormat kDependencyVersion version)
      else if !(JsonObject.value o kDependencyType).isUndefined &&
          !(JsonObject.value o kDependencyType).isString then
        Except.error ("Dependency: " ++ msgValueIsNotAString kDependencyType)
      else if (JsonObject.value o kDependencyType).isUndefined then
        Except.ok { name := name, version := version, type := DependencyType.Required }
      else if host.toLower (JsonObject.value o kDependencyType).toString = kDependencyTypeHard then
        Except.ok { name := name, version := version, type := DependencyType.Required }
      else if host.toLower (JsonObject.value o kDependencyType).toString = kDependencyTypeSoft then
        Except.ok { name := name, version := version, type := DependencyType.Optional }
      else if host.toLower (JsonObject.value o kDependencyType).toString = kDependencyTypeTest then
        Except.ok { name := name, version := version, type := DependencyType.Test }
      else
        Except.error
          ("Dependency: \"" ++ kDependencyType ++ "\" must be \""
            ++ kDependencyTypeHard ++ "\" or \"" ++ kDependencyTypeSoft
            ++ "\" (is \"" ++ (JsonObject.value o kDependencyType).toString ++ "\").") := by
  unfold readDependency
  have h1 : ¬ (!(JsonValue.object o).isObject) = true := by
    simp [JsonValue.isObject]
  have ho : (JsonValue.object o).toObject = o := rfl
  have h2 : ¬ (JsonObject.value o kDependencyName).isUndefined = true := by
    rw [hname]
    simp [JsonValue.isUndefined]
  have h3 : ¬ (!(JsonObject.value o kDependencyName).isString) = true := by
    rw [hname]
    simp [JsonValue.isString]
  have h4 : ¬ (!(JsonObject.value o kDependencyVersion).isUndefined &&
      !(JsonObject.value o kDependencyVersion).isString) = true := by
    rw [hversion]
    simp [JsonValue.isUndefined, JsonValue.isString]
  have hn : (JsonObject.value o kDependencyName).toString = name := by
    rw [hname]
    rfl
  have hv : (JsonObject.value o kDependencyVersion).toString = version := by
    rw [hversion]
    rfl
  simp only [if_neg h1, ho, if_neg h2, if_neg h3, if_neg h4, hn, hv]

theorem msgInvalidFormat_dependency_version (v : String) :
    "Dependency: " ++ msgInvalidFormat kDependencyVersion v
      = "Dependency: Value \"" ++ v ++ "\" for key \"Version\" has invalid format" := by
  unfold msgInvalidFormat kDependencyVersion
  simp only [String.append_assoc]
  rfl

theorem msgDependencyType (t : String) :
    "Dependency: \"" ++ kDependencyType ++ "\" must be \"" ++ kDependencyTypeHard
        ++ "\" or \"" ++ kDependencyTypeSoft ++ "\" (is \"" ++ t ++ "\")."
      = "Dependency: \"Type\" must be \"required\" or \"optional\" (is \"" ++ t ++ "\")." := by
  unfold kDependencyType kDependencyTypeHard kDependencyTypeSoft
  simp only [String.append_assoc]
  rfl

end PluginSpecification

/-! ## Claims on reading the meta data -/

/-- C5, as stated, fails: the descriptor has the matching `IID` and a `MetaData` without
`Name`. `readMetaData` sets the error text and returns `true`, and `read()` returns `true` and
leaves the specification in state `Read`. -/
theorem C5_counterexample :
    PluginSpecification.IIDMatches (hostWith descriptorWithoutName) descriptorWithoutName ∧
    (PluginSpecification.readMetaData (hostWith descriptorWithoutName) emptySpecification
      descriptorWithoutName).1 = true ∧
    (PluginSpecification.readMetaData (hostWith descriptorWithoutName) emptySpecification
      descriptorWithoutName).2.m_errorString = some "\"Name\" is missing" ∧
    (PluginSpecification.read (hostWith descriptorWithoutName) emptySpecification
      "plugin.so").1 = true ∧
    (PluginSpecification.read (hostWith descriptorWithoutName) emptySpecification
      "plugin.so").2.m_state = PluginState.Read ∧
    (PluginSpecification.read (hostWith descriptorWithoutName) emptySpecification
      "plugin.so").2.m_errorString = some "\"Name\" is missing" := by
  refine ⟨⟨rfl, rfl⟩, ?_, ?_, ?_, ?_, ?_⟩ <;> decide

/-- C5, amended: when the loader has a file name and the `IID` of the descriptor matches,
`readMetaData` returns `true` and `read()` returns `true` and sets the state to `Read`, also
when the `MetaData` violates a validation rule: a missing `Name` leaves the error text
`"Name" is missing`, and a `Version` string that fails `isValidVersion` leaves the
invalid-format text, each with state `Read`. When the loader has no file name or the `IID`
does not match, `read()` returns `false` and leaves state `Invalid` and no error. -/
theorem C5_read_returns_true_with_error (host : Host) (self : PluginSpecification)
    (filePath : String) :
    ((host.loaderFileName filePath).isEmpty = false →
      PluginSpecification.IIDMatches host (host.loaderMetaData filePath) →
      (∀ s, (PluginSpecification.readMetaData host s (host.loaderMetaData filePath)).1 = true) ∧
      (self.read host filePath).1 = true ∧
      (self.read host filePath).2.m_state = PluginState.Read ∧
      ((JsonObject.value (host.loaderMetaData filePath) "MetaData").isObject = true →
        JsonObject.value (JsonObject.value (host.loaderMetaData filePath) "MetaData").toObject
          "Name" = JsonValue.undefined →
        (self.read host filePath).2.m_errorString = some "\"Name\" is missing") ∧
      (∀ name v : String,
        (JsonObject.value (host.loaderMetaData filePath) "MetaData").isObject = true →
        JsonObject.value (JsonObject.value (host.loaderMetaData filePath) "MetaData").toObject
          "Name" = JsonValue.string name →
        JsonObject.value (JsonObject.value (host.loaderMetaData filePath) "MetaData").toObject
          "Version" = JsonValue.string v →
        Helpers.isValidVersion v = false →
        (self.read host filePath).2.m_errorString
          = some ("Value \"" ++ v ++ "\" for key \"Version\" has invalid format"))) ∧
    (((host.loaderFileName filePath).isEmpty = true ∨
        ¬ PluginSpecification.IIDMatches host (host.loaderMetaData filePath)) →
      (self.read host filePath).1 = false ∧
      (self.read host filePath).2.m_state = PluginState.Invalid ∧
      (self.read host filePath).2.m_errorString = none) := by
  constructor
  · intro hfile hiid
    obtain ⟨start, _, _, _, hread⟩ := PluginSpecification.read_of_iid host self filePath hfile hiid
    refine ⟨fun s => (PluginSpecification.readMetaData_outcome host s _ hiid).1, ?_, ?_, ?_, ?_⟩
    · rw [hread]
    · rw [hread]
    · intro hobj hname
      rw [hread]
      exact PluginSpecification.readMetaData_name_missing host start _ hiid hobj hname
    · intro name v hobj hname hversion hbad
      rw [hread]
      exact PluginSpecification.readMetaData_version_invalid host start _ name v hiid hobj
        hname hversion hbad
  · intro h
    obtain ⟨start, h1, h2, hread⟩ := PluginSpecification.read_of_not_iid host self filePath h
    rw [hread]
    exact ⟨rfl, h1, h2⟩

/-- C5, amended, at the descriptor without `Name`. -/
theorem C5_read_returns_true_with_error_witness :
    (emptySpecification.read (hostWith descriptorWithoutName) "plugin.so").1 = true ∧
    (emptySpecification.read (hostWith descriptorWithoutName) "plugin.so").2.m_state
      = PluginState.Read ∧
    (emptySpecification.read (hostWith descriptorWithoutName) "plugin.so").2.m_errorString
      = some "\"Name\" is missing" :=
  ⟨((C5_read_returns_true_with_error (hostWith descriptorWithoutName) emptySpecification
      "plugin.so").1 (by decide) ⟨rfl, rfl⟩).2.1,
    ((C5_read_returns_true_with_error (hostWith descriptorWithoutName) emptySpecification
      "plugin.so").1 (by decide) ⟨rfl, rfl⟩).2.2.1,
    ((C5_read_returns_true_with_error (hostWith descriptorWithoutName) emptySpecification
      "plugin.so").1 (by decide) ⟨rfl, rfl⟩).2.2.2.1 rfl rfl⟩

/-- C6: the code departs from the claim at the `Version` string `1.0` followed by a line
feed. The string is not of the version grammar, yet `isValidVersion` accepts it (the `$` of
the pattern also matches before a final line feed), so `readMetaData` records no error and
stores the string as the version. -/
theorem C6_version_with_line_feed_accepted :
    matchesVersionGrammar "1.0\n" = false ∧
    Helpers.isValidVersion "1.0\n" = true ∧
    (PluginSpecification.readMetaData (hostWith descriptorVersionNewline) emptySpecification
      descriptorVersionNewline).2.m_errorString = none ∧
    (PluginSpecification.readMetaData (hostWith descriptorVersionNewline) emptySpecification
      descriptorVersionNewline).2.m_version = "1.0\n" := by
  refine ⟨?_, ?_, ?_, ?_⟩ <;> decide

/-- C7, as stated, fails: the descriptor is valid but for one dependency with `Name` `B` and
the empty string as `Version`. `readMetaData` records an invalid-format error and appends no
dependency. -/
theorem C7_counterexample :
    (PluginSpecification.readMetaData (hostWith descriptorDependencyEmptyVersion)
      emptySpecification descriptorDependencyEmptyVersion).2.m_errorString
      = some "Dependency: Value \"\" for key \"Version\" has invalid format" ∧
    (PluginSpecification.readMetaData (hostWith descriptorDependencyEmptyVersion)
      emptySpecification descriptorDependencyEmptyVersion).2.m_dependencies = [] := by
  constructor <;> decide

/-- C7, amended: for a `MetaData` that is valid up to its `Dependencies` (`readMetaData`
reaches line 431 holding `s`) and whose entries before this one are accepted (leaving `s'`),
a `Dependencies` entry with a string `Name` and a `Version` string that fails
`isValidVersion`, in particular the empty string, is rejected: `readMetaData` returns with
the error text `Dependency: Value "<version>" for key "Version" has invalid format` and does
not append a dependency for the entry. -/
theorem C7_dependency_version_must_be_valid (host : Host) (self s s' : PluginSpecification)
    (md : JsonObject) (pre rest : List JsonValue) (o : JsonObject) (name version : String)
    (hreach : PluginSpecification.readMetaData host self md
      = PluginSpecification.readMetaDataDependencies host s)
    (hdeps : JsonObject.value s.m_metaData "Dependencies"
      = JsonValue.array (pre ++ JsonValue.object o :: rest))
    (hpre : PluginSpecification.readDependencies host pre s = Except.ok s')
    (hname : JsonObject.value o "Name" = JsonValue.string name)
    (hversion : JsonObject.value o "Version" = JsonValue.string version)
    (hbad : version = "" ∨ Helpers.isValidVersion version = false) :
    PluginSpecification.readMetaData host self md
      = (true, s'.setErrorString
          ("Dependency: Value \"" ++ version ++ "\" for key \"Version\" has invalid format")) ∧
    (PluginSpecification.readMetaData host self md).2.m_dependencies = s'.m_dependencies := by
  have hinvalid : Helpers.isValidVersion version = false := by
    rcases hbad with h | h
    · rw [h]
      decide
    · exact h
  have herr : PluginSpecification.readDependency host (JsonValue.object o)
      = Except.error
          ("Dependency: Value \"" ++ version ++ "\" for key \"Version\" has invalid format") := by
    rw [PluginSpecification.readDependency_checked host o name version hname hversion,
      hinvalid, ← PluginSpecification.msgInvalidFormat_dependency_version]
    rfl
  have hres := PluginSpecification.readMetaDataDependencies_entry_error host s s' pre rest
    (JsonValue.object o) _ hdeps hpre herr
  rw [hreach, hres]
  exact ⟨rfl, rfl⟩

/-- C7, amended, at the descriptor with the dependency `B` of empty `Version`. -/
theorem C7_dependency_version_must_be_valid_witness :
    PluginSpecification.readMetaData (hostWith descriptorDependencyEmptyVersion)
        emptySpecification (descriptor metaDataDependencyEmptyVersion)
      = (true, (specificationAtDependencies metaDataDependencyEmptyVersion "A"
          "1.0.0").setErrorString
          ("Dependency: Value \"" ++ "" ++ "\" for key \"Version\" has invalid format")) ∧
    (PluginSpecification.readMetaData (hostWith descriptorDependencyEmptyVersion)
        emptySpecification (descriptor metaDataDependencyEmptyVersion)).2.m_dependencies
      = (specificationAtDependencies metaDataDependencyEmptyVersion "A" "1.0.0").m_dependencies :=
  C7_dependency_version_must_be_valid (hostWith descriptorDependencyEmptyVersion)
    emptySpecification (specificationAtDependencies metaDataDependencyEmptyVersion "A" "1.0.0")
    (specificationAtDependencies metaDataDependencyEmptyVersion "A" "1.0.0")
    (descriptor metaDataDependencyEmptyVersion) [] []
    [("Name", JsonValue.string "B"), ("Version", JsonValue.string "")] "B" "" rfl rfl rfl rfl
    rfl (Or.inl rfl)

/-- C8: for a `Dependencies` entry with a string `Name` and a `Version` string that passes
`isValidVersion`, the loop body builds a dependency of type Required when `Type` is absent,
and of type Required, Optional or Test when `Type` is a string whose lower-cased form is
`required`, `optional` or `test`; for every other `Type` string it yields the error text
`Dependency: "Type" must be "required" or "optional" (is "<type>").`. When the body yields an
error for an entry, `readMetaData` returns with that error on the specification as the
entries before left it, so the dependency is not appended. When `readMetaData` leaves no
error, `dependencies()` holds, behind what was there before, the dependencies that the body
builds from the entries, in the order of the array. -/
theorem C8_dependency_types_and_order (host : Host) (o : JsonObject) (name version : String)
    (hname : JsonObject.value o "Name" = JsonValue.string name)
    (hversion : JsonObject.value o "Version" = JsonValue.string version)
    (hvalid : Helpers.isValidVersion version = true) :
    (JsonObject.value o "Type" = JsonValue.undefined →
      PluginSpecification.readDependency host (JsonValue.object o)
        = Except.ok { name := name, version := version, type := DependencyType.Required }) ∧
    (∀ t : String, JsonObject.value o "Type" = JsonValue.string t →
      (host.toLower t = "required" →
        PluginSpecification.readDependency host (JsonValue.object o)
          = Except.ok { name := name, version := version, type := DependencyType.Required }) ∧
      (host.toLower t = "optional" →
        PluginSpecification.readDependency host (JsonValue.object o)
          = Except.ok { name := name, version := version, type := DependencyType.Optional }) ∧
      (host.toLower t = "test" →
        PluginSpecification.readDependency host (JsonValue.object o)
          = Except.ok { name := name, version := version, type := DependencyType.Test }) ∧
      (host.toLower t ≠ "required" → host.toLower t ≠ "optional" → host.toLower t ≠ "test" →
        PluginSpecification.readDependency host (JsonValue.object o)
          = Except.error
              ("Dependency: \"Type\" must be \"required\" or \"optional\" (is \"" ++ t
                ++ "\")."))) ∧
    (∀ (self s s' : PluginSpecification) (md : JsonObject) (pre rest : List JsonValue)
        (text : String),
      PluginSpecification.readMetaData host self md
        = PluginSpecification.readMetaDataDependencies host s →
      JsonObject.value s.m_metaData "Dependencies"
        = JsonValue.array (pre ++ JsonValue.object o :: rest) →
      PluginSpecification.readDependencies host pre s = Except.ok s' →
      PluginSpecification.readDependency host (JsonValue.object o) = Except.error text →
      PluginSpecification.readMetaData host self md
          = (true, s'.setErrorString text) ∧
        (PluginSpecification.readMetaData host self md).2.dependencies = s'.dependencies) ∧
    (∀ (self : PluginSpecification) (md : JsonObject),
      (PluginSpecification.readMetaData host self md).1 = true →
      (PluginSpecification.readMetaData host self md).2.errorString = none →
      ∃ ds : List PluginDependency,
        (PluginSpecification.readMetaData host self md).2.dependencies
          = self.dependencies ++ ds ∧
        List.Forall₂ (fun v d => PluginSpecification.readDependency host v = Except.ok d)
          (JsonObject.value (JsonObject.value md "MetaData").toObject "Dependencies").toArray
          ds) := by
  have hchk := PluginSpecification.readDependency_checked host o name version hname hversion
  have h0 : ¬ (!Helpers.isValidVersion version) = true := by
    rw [hvalid]
    simp
  simp only [if_neg h0] at hchk
  refine ⟨?_, ?_, ?_, ?_⟩
  · intro htype
    have htype' : JsonObject.value o Constants.kDependencyType = JsonValue.undefined := htype
    rw [hchk, htype']
    rfl
  · intro t htype
    have htype' : JsonObject.value o Constants.kDependencyType = JsonValue.string t := htype
    rw [htype'] at hchk
    have h1 : ¬ (!(JsonValue.string t).isUndefined && !(JsonValue.string t).isString) = true := by
      simp [JsonValue.isUndefined, JsonValue.isString]
    have h2 : ¬ (JsonValue.string t).isUndefined = true := by
      simp [JsonValue.isUndefined]
    have h3 : (JsonValue.string t).toString = t := rfl
    simp only [if_neg h1, if_neg h2, h3] at hchk
    refine ⟨?_, ?_, ?_, ?_⟩
    · intro ht
      have ht' : host.toLower t = Constants.kDependencyTypeHard := ht
      rw [hchk, if_pos ht']
    · intro ht
      have ht' : host.toLower t = Constants.kDependencyTypeSoft := ht
      have hne : ¬ host.toLower t = Constants.kDependencyTypeHard := by
        rw [ht]
        decide
      rw [hchk, if_neg hne, if_pos ht']
    · intro ht
      have ht' : host.toLower t = Constants.kDependencyTypeTest := ht
      have hne1 : ¬ host.toLower t = Constants.kDependencyTypeHard := by
        rw [ht]
        decide
      have hne2 : ¬ host.toLower t = Constants.kDependencyTypeSoft := by
        rw [ht]
        decide
      rw [hchk, if_neg hne1, if_neg hne2, if_pos ht']
    · intro n1 n2 n3
      have n1' : ¬ host.toLower t = Constants.kDependencyTypeHard := n1
      have n2' : ¬ host.toLower t = Constants.kDependencyTypeSoft := n2
      have n3' : ¬ host.toLower t = Constants.kDependencyTypeTest := n3
      rw [hchk, if_neg n1', if_neg n2', if_neg n3', PluginSpecification.msgDependencyType]
  · intro self s s' md pre rest text hreach hdeps hpre herr
    have hres := PluginSpecification.readMetaDataDependencies_entry_error host s s' pre rest
      (JsonValue.object o) text hdeps hpre herr
    rw [hreach, hres]
    exact ⟨rfl, rfl⟩
  · intro self md hret herr
    have hiid := (PluginSpecification.readMetaData_ret_iff host self md).1 hret
    obtain ⟨_, out⟩ := (PluginSpecification.readMetaData_outcome host self md hiid).2.2 herr
    exact out.dependencies

/-- C8 at the second entry of `descriptorDependencyTypes`, with `Type` `Optional`. -/
theorem C8_dependency_types_and_order_witness :
    PluginSpecification.readDependency (hostWith descriptorDependencyTypes)
        (JsonValue.object [("Name", JsonValue.string "C"), ("Version", JsonValue.string "2.0"),
          ("Type", JsonValue.string "Optional")])
      = Except.ok { name := "C", version := "2.0", type := DependencyType.Optional } ∧
    (emptySpecification.readMetaData (hostWith descriptorDependencyTypes)
        descriptorDependencyTypes).2.dependencies.map (fun d => (d.name, d.type))
      = [("B", DependencyType.Required), ("C", DependencyType.Optional),
          ("D", DependencyType.Test), ("E", DependencyType.Required)] :=
  ⟨((C8_dependency_types_and_order (hostWith descriptorDependencyTypes)
      [("Name", JsonValue.string "C"), ("Version", JsonValue.string "2.0"),
        ("Type", JsonValue.string "Optional")] "C" "2.0" rfl rfl (by decide)).2.1
      "Optional" rfl).2.1 (by decide), by decide⟩

/-- C9: whenever `readMetaData` returns `true` and leaves no error, `isEnabledByDefault()`
equals (not `DisabledByDefault`) and (not `Experimental`), an absent key being read as
`false`, and `isEnabledBySettings()` equals `isEnabledByDefault()`; hence a specification
that `read()` has just read without error from a descriptor with `Experimental` `true` is
not effectively enabled. -/
theorem C9_enabled_by_default (host : Host) (self : PluginSpecification) (md : JsonObject)
    (hret : (self.readMetaData host md).1 = true)
    (herr : (self.readMetaData host md).2.errorString = none) :
    (self.readMetaData host md).2.isEnabledByDefault
      = (!(JsonObject.value (JsonObject.value md "MetaData").toObject
            "DisabledByDefault").toBool false
          && !(JsonObject.value (JsonObject.value md "MetaData").toObject
            "Experimental").toBool false) ∧
    (self.readMetaData host md).2.isEnabledBySettings
      = (self.readMetaData host md).2.isEnabledByDefault ∧
    JsonValue.undefined.toBool false = false ∧
    (∀ (other : PluginSpecification) (filePath : String),
      host.loaderMetaData filePath = md →
      (other.read host filePath).1 = true →
      (other.read host filePath).2.errorString = none →
      JsonObject.value (JsonObject.value md "MetaData").toObject "Experimental"
        = JsonValue.bool true →
      (other.read host filePath).2.isExperimental = true ∧
      (other.read host filePath).2.isEnabledBySettings = false ∧
      (other.read host filePath).2.isEffectivelyEnabled host = false) := by
  have hiid := (PluginSpecification.readMetaData_ret_iff host self md).1 hret
  obtain ⟨_, out⟩ := (PluginSpecification.readMetaData_outcome host self md hiid).2.2 herr
  refine ⟨out.enabledByDefault, out.enabledBySettings, rfl, ?_⟩
  intro other filePath hmd hread herr' hexp
  have hfile : (host.loaderFileName filePath).isEmpty = false := by
    cases hb : (host.loaderFileName filePath).isEmpty
    · rfl
    · obtain ⟨start, _, _, e⟩ :=
        PluginSpecification.read_of_not_iid host other filePath (Or.inl hb)
      rw [e] at hread
      exact absurd hread (by simp)
  obtain ⟨start, _, _, _, e⟩ :=
    PluginSpecification.read_of_iid host other filePath hfile (hmd ▸ hiid)
  rw [e] at herr' ⊢
  rw [hmd] at herr' ⊢
  have herr2 : (start.readMetaData host md).2.m_errorString = none := herr'
  obtain ⟨_, out'⟩ := (PluginSpecification.readMetaData_outcome host start md hiid).2.2 herr2
  have h1 : (start.readMetaData host md).2.m_experimental = true := by
    rw [out'.experimental]
    have : JsonObject.value (JsonObject.value md Constants.kPluginMetadata).toObject
        Constants.kPluginExperimental = JsonValue.bool true := hexp
    rw [this]
    rfl
  have h2 : (start.readMetaData host md).2.m_enabledBySettings = false := by
    rw [out'.enabledBySettings, out'.enabledByDefault]
    have : JsonObject.value (JsonObject.value md Constants.kPluginMetadata).toObject
        Constants.kPluginExperimental = JsonValue.bool true := hexp
    rw [this]
    simp [JsonValue.toBool]
  refine ⟨h1, h2, ?_⟩
  unfold PluginSpecification.isEffectivelyEnabled PluginSpecification.isEnabledBySettings
  simp only []
  rw [h2]
  simp

/-- C9 at the descriptor of an experimental plugin. -/
theorem C9_enabled_by_default_witness :
    (emptySpecification.readMetaData (hostWith descriptorExperimental)
        descriptorExperimental).2.isEnabledByDefault
      = (!(JsonObject.value (JsonObject.value descriptorExperimental "MetaData").toObject
            "DisabledByDefault").toBool false
          && !(JsonObject.value (JsonObject.value descriptorExperimental "MetaData").toObject
            "Experimental").toBool false) ∧
    (emptySpecification.read (hostWith descriptorExperimental) "plugin.so").2.isEffectivelyEnabled
        (hostWith descriptorExperimental) = false :=
  ⟨(C9_enabled_by_default (hostWith descriptorExperimental) emptySpecification
      descriptorExperimental (by decide) (by decide)).1,
    ((C9_enabled_by_default (hostWith descriptorExperimental) emptySpecification
      descriptorExperimental (by decide) (by decide)).2.2.2 emptySpecification "plugin.so" rfl
      (by decide) (by decide) rfl).2.2⟩

/-- C10, as stated, fails: the descriptor has `Version` `1.0` and `CompatVersion` `2.0`. It is
read without error, and the compatibility version is greater than the version in the numeric
component-wise order. -/
theorem C10_counterexample :
    (emptySpecification.read (hostWith descriptorCompatNewer) "plugin.so").1 = true ∧
    (emptySpecification.read (hostWith descriptorCompatNewer) "plugin.so").2.errorString = none ∧
    (emptySpecification.read (hostWith descriptorCompatNewer) "plugin.so").2.version = "1.0" ∧
    (emptySpecification.read (hostWith descriptorCompatNewer) "plugin.so").2.compatVersion
      = "2.0" ∧
    versionLE "2.0" "1.0" = false := by
  refine ⟨?_, ?_, ?_, ?_, ?_⟩ <;> decide

/-- C10, amended: for every descriptor that is read successfully (`readMetaData` returns
`true` and leaves no error), the version is a string that passes `isValidVersion`, and the
compatibility version is the version when `CompatVersion` is absent and otherwise the
`CompatVersion` string, which passes `isValidVersion`; the two are not compared. -/
theorem C10_compatVersion_checked_for_format (host : Host) (self : PluginSpecification)
    (md : JsonObject) (hret : (self.readMetaData host md).1 = true)
    (herr : (self.readMetaData host md).2.errorString = none) :
    Helpers.isValidVersion (self.readMetaData host md).2.version = true ∧
    Helpers.isValidVersion (self.readMetaData host md).2.compatVersion = true ∧
    (JsonObject.value (JsonObject.value md "MetaData").toObject "CompatVersion"
        = JsonValue.undefined →
      (self.readMetaData host md).2.compatVersion = (self.readMetaData host md).2.version) ∧
    (∀ c : String,
      JsonObject.value (JsonObject.value md "MetaData").toObject "CompatVersion"
        = JsonValue.string c →
      (self.readMetaData host md).2.compatVersion = c) := by
  have hiid := (PluginSpecification.readMetaData_ret_iff host self md).1 hret
  obtain ⟨_, out⟩ := (PluginSpecification.readMetaData_outcome host self md hiid).2.2 herr
  have hcompat := out.compatVersion
  have hundef : JsonObject.value (JsonObject.value md Constants.kPluginMetadata).toObject
      Constants.kPluginCompatversion = JsonValue.undefined →
      (self.readMetaData host md).2.m_compatVersion
        = (self.readMetaData host md).2.m_version := by
    intro hu
    rw [hcompat, hu]
    rfl
  refine ⟨out.version_valid, ?_, hundef, ?_⟩
  · rcases out.compatVersion_valid with hu | ⟨_, hv⟩
    · have hu' : JsonObject.value (JsonObject.value md Constants.kPluginMetadata).toObject
          Constants.kPluginCompatversion = JsonValue.undefined := by
        cases hval : JsonObject.value (JsonObject.value md Constants.kPluginMetadata).toObject
          Constants.kPluginCompatversion <;> simp [hval, JsonValue.isUndefined] at hu
        rfl
      unfold PluginSpecification.compatVersion
      rw [hundef hu']
      exact out.version_valid
    · exact hv
  · intro c hc
    have hc' : JsonObject.value (JsonObject.value md Constants.kPluginMetadata).toObject
        Constants.kPluginCompatversion = JsonValue.string c := hc
    unfold PluginSpecification.compatVersion
    rw [hcompat, hc']
    rfl

/-- C10, amended, at the descriptor whose `CompatVersion` is newer than its `Version`. -/
theorem C10_compatVersion_checked_for_format_witness :
    Helpers.isValidVersion (emptySpecification.readMetaData (hostWith descriptorCompatNewer)
      descriptorCompatNewer).2.version = true ∧
    Helpers.isValidVersion (emptySpecification.readMetaData (hostWith descriptorCompatNewer)
      descriptorCompatNewer).2.compatVersion = true ∧
    (emptySpecification.readMetaData (hostWith descriptorCompatNewer)
      descriptorCompatNewer).2.compatVersion = "2.0" :=
  ⟨(C10_compatVersion_checked_for_format (hostWith descriptorCompatNewer) emptySpecification
      descriptorCompatNewer (by decide) (by decide)).1,
    (C10_compatVersion_checked_for_format (hostWith descriptorCompatNewer) emptySpecification
      descriptorCompatNewer (by decide) (by decide)).2.1,
    (C10_compatVersion_checked_for_format (hostWith descriptorCompatNewer) emptySpecification
      descriptorCompatNewer (by decide) (by decide)).2.2.2 "2.0" rfl⟩

/-! ## Lemmas on the lifecycle -/

/-- A projection of the value of an optional result, read off the projected result. -/
theorem value_of_map {α β : Type} (f : α → β) (d : Option α) (r : α) (b : β)
    (hr : d = some r) (h : d.map f = some b) : f r = b := by
  subst hr
  exact Option.some.inj h

/-- A property that every step of an optional fold keeps, with every step defined, holds of
the result of the fold, which is defined. -/
theorem foldlM_invariant {σ α : Type} (f : σ → α → Option σ) (P : σ → Prop)
    (hstep : ∀ s a, P s → ∃ t, f s a = some t ∧ P t) (l : List α) (s : σ) (hs : P s) :
    ∃ t, l.foldlM f s = some t ∧ P t := by
  induction l generalizing s with
  | nil => exact ⟨s, rfl, hs⟩
  | cons a rest ih =>
    obtain ⟨t, ht, hP⟩ := hstep s a hs
    obtain ⟨u, hu, hQ⟩ := ih t hP
    refine ⟨u, ?_, hQ⟩
    rw [List.foldlM_cons, ht]
    exact hu

theorem foldlM_cons_of_some {σ α : Type} (f : σ → α → Option σ) (a : α) (l : List α)
    (s t : σ) (h : f s a = some t) : (a :: l).foldlM f s = l.foldlM f t := by
  rw [List.foldlM_cons, h]
  rfl

namespace PluginManager

theorem failedDependency_eq_none (h : Heap) (destState : PluginState)
    (deps : List (PluginDependency × Nat))
    (hall : ∀ key dep, (key, dep) ∈ deps → key.type = DependencyType.Required →
      (h.deref dep).state = destState) :
    failedDependency h destState deps = none := by
  induction deps with
  | nil => rfl
  | cons p rest ih =>
    obtain ⟨key, dep⟩ := p
    have hrest := ih (fun k d hd => hall k d (List.mem_cons_of_mem _ hd))
    by_cases ht : key.type ≠ DependencyType.Required
    · simp only [failedDependency, if_pos ht]
      exact hrest
    · have hreq : key.type = DependencyType.Required := not_not.1 ht
      have hs : ¬ (h.deref dep).state ≠ destState :=
        not_not.2 (hall key dep (List.mem_cons_self _ _) hreq)
      simp only [failedDependency, if_neg ht, if_neg hs]
      exact hrest

theorem failedDependency_eq_some (h : Heap) (destState : PluginState)
    (deps : List (PluginDependency × Nat))
    (hex : ∃ key dep, (key, dep) ∈ deps ∧ key.type = DependencyType.Required ∧
      (h.deref dep).state ≠ destState) :
    ∃ key dep, (key, dep) ∈ deps ∧ key.type = DependencyType.Required ∧
      (h.deref dep).state ≠ destState ∧
      failedDependency h destState deps = some (dependencyNotLoadedText (h.deref dep)) := by
  induction deps with
  | nil =>
    obtain ⟨_, _, hm, _⟩ := hex
    exact absurd hm (List.not_mem_nil _)
  | cons p rest ih =>
    obtain ⟨key, dep⟩ := p
    by_cases ht : key.type ≠ DependencyType.Required
    · have hex' : ∃ k d, (k, d) ∈ rest ∧ k.type = DependencyType.Required ∧
          (h.deref d).state ≠ destState := by
        obtain ⟨k, d, hm, hk, hs⟩ := hex
        rcases List.mem_cons.1 hm with e | hm
        · have : k = key := (Prod.mk.inj e).1
          exact absurd (this ▸ hk) ht
        · exact ⟨k, d, hm, hk, hs⟩
      obtain ⟨k, d, hm, hk, hs, hf⟩ := ih hex'
      refine ⟨k, d, List.mem_cons_of_mem _ hm, hk, hs, ?_⟩
      simp only [failedDependency, if_pos ht]
      exact hf
    · have hreq : key.type = DependencyType.Required := not_not.1 ht
      by_cases hs : (h.deref dep).state ≠ destState
      · refine ⟨key, dep, List.mem_cons_self _ _, hreq, hs, ?_⟩
        simp only [failedDependency, if_neg ht, if_pos hs]
      · have hex' : ∃ k d, (k, d) ∈ rest ∧ k.type = DependencyType.Required ∧
            (h.deref d).state ≠ destState := by
          obtain ⟨k, d, hm, hk, hs'⟩ := hex
          rcases List.mem_cons.1 hm with e | hm
          · have : d = dep := (Prod.mk.inj e).2
            exact absurd (this ▸ hs') hs
          · exact ⟨k, d, hm, hk, hs'⟩
        obtain ⟨k, d, hm, hk, hs', hf⟩ := ih hex'
        refine ⟨k, d, List.mem_cons_of_mem _ hm, hk, hs', ?_⟩
        simp only [failedDependency, if_neg ht, if_neg hs]
        exact hf

theorem loadPlugin_of_skip (host : Host) (rt : Runtime) (m : PluginManager) (spec : Nat)
    (destState : PluginState)
    (h : (m.m_pluginSpecifications.deref spec).hasError = true ∨
      (m.m_pluginSpecifications.deref spec).state.toInt ≠ destState.toInt - 1 ∨
      (destState = PluginState.Loaded ∧
        (m.m_pluginSpecifications.deref spec).isEffectivelyEnabled host = false)) :
    loadPlugin host rt m spec destState = some m := by
  unfold loadPlugin
  by_cases h1 : ((m.m_pluginSpecifications.deref spec).hasError
      || decide ((m.m_pluginSpecifications.deref spec).state.toInt ≠ destState.toInt - 1))
      = true
  · simp only [if_pos h1]
  · simp only [if_neg h1]
    have h2 : (!(m.m_pluginSpecifications.deref spec).isEffectivelyEnabled host
        && decide (destState = PluginState.Loaded)) = true := by
      rcases h with h | h | ⟨hd, he⟩
      · rw [h] at h1
        exact absurd rfl h1
      · exfalso
        apply h1
        simp [h]
      · simp [hd, he]
    simp only [if_pos h2]

theorem loadPlugin_of_checks (host : Host) (rt : Runtime) (m : PluginManager) (spec : Nat)
    (destState : PluginState)
    (hdest : destState = PluginState.Loaded ∨ destState = PluginState.Initialized ∨
      destState = PluginState.Stopped)
    (herr : (m.m_pluginSpecifications.deref spec).hasError = false)
    (hstate : (m.m_pluginSpecifications.deref spec).state.toInt = destState.toInt - 1)
    (henabled : destState = PluginState.Loaded →
      (m.m_pluginSpecifications.deref spec).isEffectivelyEnabled host = true) :
    loadPlugin host rt m spec destState =
      match failedDependency m.m_pluginSpecifications destState
          (m.m_pluginSpecifications.deref spec).dependencySpecifications with
      | some text =>
          some
            { m with
              m_pluginSpecifications := m.m_pluginSpecifications.setErrorString spec text }
      | none => loadPluginTransition rt m spec destState := by
  unfold loadPlugin
  have h1 : ¬ ((m.m_pluginSpecifications.deref spec).hasError
      || decide ((m.m_pluginSpecifications.deref spec).state.toInt ≠ destState.toInt - 1))
      = true := by
    simp [herr, hstate]
  have h2 : ¬ (!(m.m_pluginSpecifications.deref spec).isEffectivelyEnabled host
      && decide (destState = PluginState.Loaded)) = true := by
    by_cases hd : destState = PluginState.Loaded
    · simp [henabled hd]
    · simp [hd]
  simp only [if_neg h1, if_neg h2]
  rcases hdest with hd | hd | hd <;> subst hd <;> rfl

end PluginManager

/-! ## Claims on the lifecycle driver -/

/-- C11: when the specification has an error, or its state differs from `destState - 1`, or
`destState` is `Loaded` and the specification is not effectively enabled, `loadPlugin`
returns without changing anything: state, error text and plugin instance of the
specification stay as they were, and no event is recorded, so that neither the loader nor a
plugin is called; a disabled specification is skipped without an error. -/
theorem C11_loadPlugin_skips (host : Host) (rt : Runtime) (m : PluginManager) (spec : Nat)
    (destState : PluginState)
    (h : (m.m_pluginSpecifications.deref spec).hasError = true ∨
      (m.m_pluginSpecifications.deref spec).state.toInt ≠ destState.toInt - 1 ∨
      (destState = PluginState.Loaded ∧
        (m.m_pluginSpecifications.deref spec).isEffectivelyEnabled host = false)) :
    ∃ after, PluginManager.loadPlugin host rt m spec destState = some after ∧
      after = m ∧
      (after.m_pluginSpecifications.deref spec).state
        = (m.m_pluginSpecifications.deref spec).state ∧
      (after.m_pluginSpecifications.deref spec).errorString
        = (m.m_pluginSpecifications.deref spec).errorString ∧
      (after.m_pluginSpecifications.deref spec).plugin
        = (m.m_pluginSpecifications.deref spec).plugin ∧
      after.events = m.events :=
  ⟨m, PluginManager.loadPlugin_of_skip host rt m spec destState h, rfl, rfl, rfl, rfl, rfl⟩

/-- C11 at a specification disabled by the settings, for the transition to `Loaded`. -/
theorem C11_loadPlugin_skips_witness :
    PluginManager.loadPlugin plainHost baseRuntime (managerOf pairWithDisabledDependency) 0
        PluginState.Loaded = some (managerOf pairWithDisabledDependency) ∧
    (((managerOf pairWithDisabledDependency).m_pluginSpecifications.deref 0).errorString
      = none) := by
  obtain ⟨after, h, e, _, _, _, _⟩ :=
    C11_loadPlugin_skips plainHost baseRuntime (managerOf pairWithDisabledDependency) 0
      PluginState.Loaded (Or.inr (Or.inr ⟨rfl, by decide⟩))
  exact ⟨h.trans (congrArg some e), by decide⟩

/-- C12: for `destState` `Loaded` or `Initialized` and an error-free, effectively enabled
specification in state `destState - 1`: if some resolved dependency of type Required has a
state other than `destState`, `loadPlugin` sets the error text of the specification to the
dependency-failure text of such a dependency and does nothing else (the state stays, no
event is recorded, so neither the loader nor `initialize` is called); if every resolved
dependency of type Required is in state `destState`, whatever the states of the Optional and
Test dependencies, `loadPlugin` is the call of `loadLibrary` or of `initializePlugin`. -/
theorem C12_loadPlugin_dependency_check (host : Host) (rt : Runtime) (m : PluginManager)
    (spec : Nat) (destState : PluginState)
    (hdest : destState = PluginState.Loaded ∨ destState = PluginState.Initialized)
    (hvalid : spec < m.m_pluginSpecifications.length)
    (herr : (m.m_pluginSpecifications.deref spec).hasError = false)
    (hstate : (m.m_pluginSpecifications.deref spec).state.toInt = destState.toInt - 1)
    (henabled : (m.m_pluginSpecifications.deref spec).isEffectivelyEnabled host = true) :
    ((∃ key dep, (key, dep) ∈ (m.m_pluginSpecifications.deref spec).dependencySpecifications ∧
        key.type = DependencyType.Required ∧
        (m.m_pluginSpecifications.deref dep).state ≠ destState) →
      ∃ key dep after,
        (key, dep) ∈ (m.m_pluginSpecifications.deref spec).dependencySpecifications ∧
        key.type = DependencyType.Required ∧
        (m.m_pluginSpecifications.deref dep).state ≠ destState ∧
        PluginManager.loadPlugin host rt m spec destState = some after ∧
        after
          = { m with
              m_pluginSpecifications := m.m_pluginSpecifications.setErrorString spec
                (PluginManager.dependencyNotLoadedText (m.m_pluginSpecifications.deref dep)) } ∧
        (after.m_pluginSpecifications.deref spec).errorString
          = some ("Cannot load plugin because dependency failed to load: "
              ++ (m.m_pluginSpecifications.deref dep).name ++ "("
              ++ (m.m_pluginSpecifications.deref dep).version ++ ")\nReason: "
              ++ (m.m_pluginSpecifications.deref dep).errorString.getD "") ∧
        (after.m_pluginSpecifications.deref spec).state
          = (m.m_pluginSpecifications.deref spec).state ∧
        after.events = m.events) ∧
    ((∀ key dep, (key, dep) ∈ (m.m_pluginSpecifications.deref spec).dependencySpecifications →
        key.type = DependencyType.Required →
        (m.m_pluginSpecifications.deref dep).state = destState) →
      (destState = PluginState.Loaded →
        PluginManager.loadPlugin host rt m spec destState
          = ((m.m_pluginSpecifications.deref spec).loadLibrary rt).map
              (fun outcome => m.call spec outcome)) ∧
      (destState = PluginState.Initialized →
        PluginManager.loadPlugin host rt m spec destState
          = some (m.call spec ((m.m_pluginSpecifications.deref spec).initializePlugin rt)))) := by
  have hchk := PluginManager.loadPlugin_of_checks host rt m spec destState
    (by
      rcases hdest with h | h
      · exact Or.inl h
      · exact Or.inr (Or.inl h)) herr hstate (fun _ => henabled)
  constructor
  · intro hex
    obtain ⟨key, dep, hm, hk, hs, hf⟩ :=
      PluginManager.failedDependency_eq_some m.m_pluginSpecifications destState _ hex
    rw [hf] at hchk
    refine ⟨key, dep, _, hm, hk, hs, hchk, rfl, ?_, ?_, rfl⟩
    · unfold PluginSpecification.errorString
      exact Heap.errorString_setErrorString_self _ _ _ hvalid
    · exact ((sameShape_setErrorString m.m_pluginSpecifications spec _).2 spec).1
  · intro hall
    rw [PluginManager.failedDependency_eq_none m.m_pluginSpecifications destState _ hall] at hchk
    constructor
    · intro hd
      subst hd
      exact hchk
    · intro hd
      subst hd
      exact hchk

/-- C12 at `B`, which requires the disabled `A`, for the transition to `Loaded`. -/
theorem C12_loadPlugin_dependency_check_witness :
    ∃ after, PluginManager.loadPlugin plainHost baseRuntime
        (managerOf pairWithDisabledDependency) 1 PluginState.Loaded = some after ∧
      (after.m_pluginSpecifications.deref 1).errorString
        = some "Cannot load plugin because dependency failed to load: A(1.0.0)\nReason: " ∧
      (after.m_pluginSpecifications.deref 1).state = PluginState.Resolved ∧
      after.events = [] := by
  obtain ⟨key, dep, after, hm, _, _, h, _, he, hs, hev⟩ :=
    (C12_loadPlugin_dependency_check plainHost baseRuntime
      (managerOf pairWithDisabledDependency) 1 PluginState.Loaded (Or.inl rfl) (by decide)
      (by decide) (by decide) (by decide)).1
      ⟨requiredOn "A", 0, by decide, rfl, by decide⟩
  have hdep : dep = 0 := by
    simp [managerOf, pairWithDisabledDependency, Heap.deref, loadableSpec, resolvedSpec,
      PluginSpecification.dependencySpecifications] at hm
    exact hm.2
  subst hdep
  exact ⟨after, h, he.trans (by decide), hs.trans (by decide), hev.trans rfl⟩
/-- C13 does not hold of the code: `A`, `B` (requires `A`) and `C` (requires `B`) are
error-free, effectively enabled and in state `Resolved`, every library loads and every
`initialize` succeeds. `loadPlugins()` returns, it calls neither a loader nor a plugin, and
afterwards the three are still in state `Resolved` and error-free. -/
theorem C13_loadPlugins_leaves_resolved :
    loadableChain.map (fun s => (s.state, s.errorString, s.isEffectivelyEnabled plainHost))
      = [(PluginState.Resolved, none, true), (PluginState.Resolved, none, true),
          (PluginState.Resolved, none, true)] ∧
    (PluginManager.loadPlugins plainHost baseRuntime (managerOf loadableChain)).map
        (fun r => r.m_pluginSpecifications.map (fun s => (s.state, s.errorString)))
      = some [(PluginState.Resolved, none), (PluginState.Resolved, none),
          (PluginState.Resolved, none)] ∧
    (PluginManager.loadPlugins plainHost baseRuntime (managerOf loadableChain)).map
        (fun r => r.events)
      = some [Event.pluginsChanged, Event.startDelayedInitializeTimer 20] := by
  refine ⟨?_, ?_, ?_⟩ <;> decide

namespace PluginSpecification

theorem loadLibrary_of_error (rt : Runtime) (s : PluginSpecification)
    (h : s.hasError = true) : s.loadLibrary rt = some ⟨false, s, []⟩ := by
  have h' : s.m_errorString.isSome = true := h
  unfold loadLibrary
  simp only [h', if_true]

theorem initializePlugin_of_error (rt : Runtime) (s : PluginSpecification)
    (h : s.hasError = true) : s.initializePlugin rt = ⟨false, s, []⟩ := by
  have h' : s.m_errorString.isSome = true := h
  unfold initializePlugin
  simp only [h', if_true]

theorem initializeExtensions_of_error (s : PluginSpecification)
    (h : s.hasError = true) : s.initializeExtensions = ⟨false, s, []⟩ := by
  have h' : s.m_errorString.isSome = true := h
  unfold initializeExtensions
  simp only [h', if_true]

theorem delayedInitialize_of_error (rt : Runtime) (s : PluginSpecification)
    (h : s.hasError = true) : s.delayedInitialize rt = ⟨false, s, []⟩ := by
  have h' : s.m_errorString.isSome = true := h
  unfold delayedInitialize
  simp only [h', if_true]

theorem stop_of_plugin (rt : Runtime) (s : PluginSpecification) (p : Nat)
    (h : s.m_plugin = some p) :
    s.stop rt = ⟨rt.aboutToShutdown p, { s with m_state := PluginState.Stopped },
      [Event.aboutToShutdown p]⟩ := by
  unfold stop
  rw [h]

theorem stop_of_no_plugin (rt : Runtime) (s : PluginSpecification) (h : s.m_plugin = none) :
    s.stop rt = ⟨PluginShutdownFlag.SynchronousShutdown, s, []⟩ := by
  unfold stop
  rw [h]

theorem kill_of_plugin (s : PluginSpecification) (p : Nat) (h : s.m_plugin = some p) :
    s.kill = ⟨(), { s with m_plugin := none, m_state := PluginState.Deleted },
      [Event.deletePlugin p]⟩ := by
  unfold kill
  rw [h]

theorem kill_of_no_plugin (s : PluginSpecification) (h : s.m_plugin = none) :
    s.kill = ⟨(), s, []⟩ := by
  unfold kill
  rw [h]

end PluginSpecification

namespace PluginManager

theorem runningStep_of_error (host : Host) (rt : Runtime) (m : PluginManager) (spec : Nat)
    (herr : (m.m_pluginSpecifications.deref spec).hasError = true)
    (hstate : (m.m_pluginSpecifications.deref spec).state ≠ PluginState.Running) :
    runningStep host rt m spec
      = some (m.call spec (m.m_pluginSpecifications.deref spec).kill) := by
  unfold runningStep
  rw [loadPlugin_of_skip host rt m spec PluginState.Running (Or.inl herr)]
  simp only [Option.map_some', if_neg hstate]

end PluginManager

namespace PluginSpecification

theorem loadLibrary_shape (rt : Runtime) (s : PluginSpecification) (o : Outcome Bool)
    (h : s.loadLibrary rt = some o) :
    o.spec.m_dependencySpecifications = s.m_dependencySpecifications ∧
    (o.spec.m_state = s.m_state ∨
      (o.spec.m_state = PluginState.Loaded ∧ s.m_state = PluginState.Resolved)) := by
  unfold loadLibrary at h
  split_ifs at h <;> (try split at h) <;> (try split at h) <;> (try split at h) <;>
    simp_all [setErrorString] <;> subst h <;> simp_all

theorem initializePlugin_shape (rt : Runtime) (s : PluginSpecification) :
    (s.initializePlugin rt).spec.m_dependencySpecifications = s.m_dependencySpecifications ∧
    ((s.initializePlugin rt).spec.m_state = s.m_state ∨
      ((s.initializePlugin rt).spec.m_state = PluginState.Initialized ∧
        s.m_state = PluginState.Loaded)) := by
  unfold initializePlugin
  split_ifs <;> (try split) <;> (try split) <;> simp_all [setErrorString]

end PluginSpecification

theorem Heap.deref_of_length_le (h : Heap) (i : Nat) (hi : h.length ≤ i) :
    h.deref i = emptySpecification := by
  unfold Heap.deref
  simp [List.getD, List.getElem?_eq_none hi]

namespace PluginManager

theorem call_deref_of_ne {α : Type} (m : PluginManager) (spec j : Nat) (o : Outcome α)
    (hj : j ≠ spec) :
    ((m.call spec o).m_pluginSpecifications.deref j) = m.m_pluginSpecifications.deref j :=
  Heap.deref_update_of_ne _ _ _ _ hj

theorem loadPlugin_deref_of_ne (host : Host) (rt : Runtime) (m : PluginManager) (spec : Nat)
    (destState : PluginState) (j : Nat) (hj : j ≠ spec) (after : PluginManager)
    (h : loadPlugin host rt m spec destState = some after) :
    after.m_pluginSpecifications.deref j = m.m_pluginSpecifications.deref j := by
  unfold loadPlugin at h
  by_cases h1 : ((m.m_pluginSpecifications.deref spec).hasError
      || decide ((m.m_pluginSpecifications.deref spec).state.toInt ≠ destState.toInt - 1))
      = true
  · simp only [if_pos h1] at h
    cases h
    rfl
  · simp only [if_neg h1] at h
    by_cases h2 : (!(m.m_pluginSpecifications.deref spec).isEffectivelyEnabled host
        && decide (destState = PluginState.Loaded)) = true
    · simp only [if_pos h2] at h
      cases h
      rfl
    · simp only [if_neg h2] at h
      cases destState with
      | Running =>
        cases h
        exact call_deref_of_ne m spec j _ hj
      | Deleted =>
        cases h
        exact call_deref_of_ne m spec j _ hj
      | Stopped =>
        simp only [] at h
        cases hf : failedDependency m.m_pluginSpecifications PluginState.Stopped
            (m.m_pluginSpecifications.deref spec).dependencySpecifications with
        | some text =>
          rw [hf] at h
          cases h
          exact Heap.deref_setErrorString_of_ne _ _ _ _ hj
        | none =>
          rw [hf] at h
          simp only [loadPluginTransition] at h
          by_cases h3 : ((m.m_pluginSpecifications.deref spec).stop rt).ret
              = PluginShutdownFlag.AsynchronousShutdown
          · simp only [if_pos h3] at h
            cases h
            exact call_deref_of_ne m spec j _ hj
          · simp only [if_neg h3] at h
            cases h
            exact call_deref_of_ne m spec j _ hj
      | Loaded =>
        simp only [] at h
        cases hf : failedDependency m.m_pluginSpecifications PluginState.Loaded
            (m.m_pluginSpecifications.deref spec).dependencySpecifications with
        | some text =>
          rw [hf] at h
          cases h
          exact Heap.deref_setErrorString_of_ne _ _ _ _ hj
        | none =>
          rw [hf] at h
          simp only [loadPluginTransition, Option.map_eq_some'] at h
          obtain ⟨o, _, rfl⟩ := h
          exact call_deref_of_ne m spec j _ hj
      | Initialized =>
        simp only [] at h
        cases hf : failedDependency m.m_pluginSpecifications PluginState.Initialized
            (m.m_pluginSpecifications.deref spec).dependencySpecifications with
        | some text =>
          rw [hf] at h
          cases h
          exact Heap.deref_setErrorString_of_ne _ _ _ _ hj
        | none =>
          rw [hf] at h
          cases h
          exact call_deref_of_ne m spec j _ hj
      | Invalid =>
        simp only [] at h
        cases hf : failedDependency m.m_pluginSpecifications PluginState.Invalid
            (m.m_pluginSpecifications.deref spec).dependencySpecifications with
        | some text =>
          rw [hf] at h
          cases h
          exact Heap.deref_setErrorString_of_ne _ _ _ _ hj
        | none =>
          rw [hf] at h
          cases h
          rfl
      | Read =>
        simp only [] at h
        cases hf : failedDependency m.m_pluginSpecifications PluginState.Read
            (m.m_pluginSpecifications.deref spec).dependencySpecifications with
        | some text =>
          rw [hf] at h
          cases h
          exact Heap.deref_setErrorString_of_ne _ _ _ _ hj
        | none =>
          rw [hf] at h
          cases h
          rfl
      | Resolved =>
        simp only [] at h
        cases hf : failedDependency m.m_pluginSpecifications PluginState.Resolved
            (m.m_pluginSpecifications.deref spec).dependencySpecifications with
        | some text =>
          rw [hf] at h
          cases h
          exact Heap.deref_setErrorString_of_ne _ _ _ _ hj
        | none =>
          rw [hf] at h
          cases h
          rfl

end PluginManager

namespace PluginSpecification

theorem loadLibrary_eq_none_iff (rt : Runtime) (s : PluginSpecification) :
    s.loadLibrary rt = none ↔
      s.m_errorString = none ∧ s.m_state = PluginState.Resolved ∧ s.m_loader = none ∧
        s.m_staticPlugin = none := by
  unfold loadLibrary
  by_cases he : s.m_errorString.isSome = true
  · simp only [if_pos he]
    constructor
    · intro h
      cases h
    · rintro ⟨h, _⟩
      rw [h] at he
      cases he
  · have he' : s.m_errorString = none := by simpa using he
    simp only [if_neg he]
    split_ifs <;> (try split) <;> (try split) <;> (try split) <;> simp_all

end PluginSpecification

namespace PluginManager

theorem loadPlugin_defined (host : Host) (rt : Runtime) (m : PluginManager) (spec : Nat)
    (destState : PluginState) (hd : destState ≠ PluginState.Loaded) :
    ∃ after, loadPlugin host rt m spec destState = some after := by
  unfold loadPlugin
  split_ifs
  · exact ⟨_, rfl⟩
  · exact ⟨_, rfl⟩
  · cases destState with
    | Loaded => exact absurd rfl hd
    | Running => exact ⟨_, rfl⟩
    | Deleted => exact ⟨_, rfl⟩
    | Stopped =>
      simp only []
      split
      · exact ⟨_, rfl⟩
      · simp only [loadPluginTransition]
        split_ifs <;> exact ⟨_, rfl⟩
    | Initialized =>
      simp only []
      split <;> exact ⟨_, rfl⟩
    | Invalid =>
      simp only []
      split <;> exact ⟨_, rfl⟩
    | Read =>
      simp only []
      split <;> exact ⟨_, rfl⟩
    | Resolved =>
      simp only []
      split <;> exact ⟨_, rfl⟩

theorem loadPlugin_eq_none_iff (host : Host) (rt : Runtime) (m : PluginManager) (spec : Nat)
    (destState : PluginState) :
    loadPlugin host rt m spec destState = none ↔
      destState = PluginState.Loaded ∧
      (m.m_pluginSpecifications.deref spec).hasError = false ∧
      (m.m_pluginSpecifications.deref spec).state = PluginState.Resolved ∧
      (m.m_pluginSpecifications.deref spec).isEffectivelyEnabled host = true ∧
      failedDependency m.m_pluginSpecifications PluginState.Loaded
        (m.m_pluginSpecifications.deref spec).dependencySpecifications = none ∧
      (m.m_pluginSpecifications.deref spec).m_loader = none ∧
      (m.m_pluginSpecifications.deref spec).m_staticPlugin = none := by
  by_cases hd : destState = PluginState.Loaded
  · subst hd
    constructor
    · intro h
      unfold loadPlugin at h
      split_ifs at h with h1 h2
      simp only [] at h
      cases hf : failedDependency m.m_pluginSpecifications PluginState.Loaded
          (m.m_pluginSpecifications.deref spec).dependencySpecifications with
      | some text =>
        rw [hf] at h
        cases h
      | none =>
        rw [hf] at h
        simp only [loadPluginTransition, Option.map_eq_none'] at h
        have hl := (PluginSpecification.loadLibrary_eq_none_iff rt _).1 h
        refine ⟨rfl, ?_, hl.2.1, ?_, rfl, hl.2.2.1, hl.2.2.2⟩
        · have h1' := h1
          simp only [Bool.or_eq_true, not_or, Bool.not_eq_true] at h1'
          exact h1'.1
        · simpa using h2
    · rintro ⟨_, herr, hstate, hen, hf, hl, hs⟩
      have hst : (m.m_pluginSpecifications.deref spec).state.toInt
          = PluginState.Loaded.toInt - 1 := by
        rw [hstate]
        rfl
      rw [loadPlugin_of_checks host rt m spec PluginState.Loaded (Or.inl rfl) herr hst
        (fun _ => hen), hf]
      simp only [loadPluginTransition, Option.map_eq_none']
      refine (PluginSpecification.loadLibrary_eq_none_iff rt _).2 ⟨?_, hstate, hl, hs⟩
      have : (m.m_pluginSpecifications.deref spec).m_errorString.isSome = false := herr
      simpa using this
  · obtain ⟨after, h⟩ := loadPlugin_defined host rt m spec destState hd
    rw [h]
    constructor
    · intro h'
      cases h'
    · intro h'
      exact absurd h'.1 hd

end PluginManager

/-- C14, as stated, fails: the specification holds an error (its `initialize` failed), is in
state `Loaded` and has a plugin instance. `kill` sets its state to `Deleted`, `stop` sets it
to `Stopped`, and the cleanup performed by `loadPlugins()` sets it to `Deleted`. -/
theorem C14_counterexample :
    failedToInitialize.hasError = true ∧ failedToInitialize.state = PluginState.Loaded ∧
    failedToInitialize.kill.spec.state = PluginState.Deleted ∧
    (failedToInitialize.stop baseRuntime).spec.state = PluginState.Stopped ∧
    (PluginManager.loadPlugins plainHost baseRuntime (managerOf [failedToInitialize])).map
        (fun r => r.m_pluginSpecifications.map (fun s => s.state))
      = some [PluginState.Deleted] := by
  refine ⟨?_, ?_, ?_, ?_, ?_⟩ <;> decide

/-- C14, amended: for a specification whose error text is set, `loadLibrary`,
`initializePlugin`, `initializeExtensions` and `delayedInitialize` return `false`, leave the
specification as it is and call nothing, and `loadPlugin` leaves the manager as it is.
`stop`, `kill` and the cleanup performed by `loadPlugins()` do not look at the error text:
with a plugin instance `stop` calls `aboutToShutdown` and sets the state to `Stopped`, `kill`
deletes the instance and sets the state to `Deleted`, and the cleanup kills the
specification unless its state is `Running`; without a plugin instance `stop` and `kill`
change nothing. -/
theorem C14_operations_on_error (rt : Runtime) (s : PluginSpecification)
    (herr : s.hasError = true) :
    s.loadLibrary rt = some ⟨false, s, []⟩ ∧
    s.initializePlugin rt = ⟨false, s, []⟩ ∧
    s.initializeExtensions = ⟨false, s, []⟩ ∧
    s.delayedInitialize rt = ⟨false, s, []⟩ ∧
    (∀ (host : Host) (m : PluginManager) (spec : Nat) (destState : PluginState),
      m.m_pluginSpecifications.deref spec = s →
      PluginManager.loadPlugin host rt m spec destState = some m) ∧
    (∀ p : Nat, s.plugin = some p →
      (s.stop rt).spec.state = PluginState.Stopped ∧
      (s.stop rt).events = [Event.aboutToShutdown p] ∧
      s.kill.spec.state = PluginState.Deleted ∧ s.kill.spec.plugin = none ∧
      s.kill.events = [Event.deletePlugin p]) ∧
    (s.plugin = none →
      (s.stop rt).spec = s ∧ (s.stop rt).events = [] ∧
      s.kill.spec = s ∧ s.kill.events = []) ∧
    (∀ (host : Host) (m : PluginManager) (spec : Nat),
      m.m_pluginSpecifications.deref spec = s → s.state ≠ PluginState.Running →
      PluginManager.runningStep host rt m spec = some (m.call spec s.kill)) := by
  refine ⟨PluginSpecification.loadLibrary_of_error rt s herr,
    PluginSpecification.initializePlugin_of_error rt s herr,
    PluginSpecification.initializeExtensions_of_error s herr,
    PluginSpecification.delayedInitialize_of_error rt s herr, ?_, ?_, ?_, ?_⟩
  · intro host m spec destState hs
    exact PluginManager.loadPlugin_of_skip host rt m spec destState (Or.inl (hs ▸ herr))
  · intro p hp
    rw [PluginSpecification.stop_of_plugin rt s p hp, PluginSpecification.kill_of_plugin s p hp]
    exact ⟨rfl, rfl, rfl, rfl, rfl⟩
  · intro hp
    rw [PluginSpecification.stop_of_no_plugin rt s hp, PluginSpecification.kill_of_no_plugin s hp]
    exact ⟨rfl, rfl, rfl, rfl⟩
  · intro host m spec hs hstate
    have := PluginManager.runningStep_of_error host rt m spec (hs ▸ herr) (hs ▸ hstate)
    rw [hs] at this
    exact this

/-- C14, amended, at the specification whose `initialize` has failed. -/
theorem C14_operations_on_error_witness :
    failedToInitialize.loadLibrary baseRuntime = some ⟨false, failedToInitialize, []⟩ ∧
    failedToInitialize.initializePlugin baseRuntime = ⟨false, failedToInitialize, []⟩ ∧
    failedToInitialize.kill.spec.state = PluginState.Deleted :=
  ⟨(C14_operations_on_error baseRuntime failedToInitialize rfl).1,
    (C14_operations_on_error baseRuntime failedToInitialize rfl).2.1,
    ((C14_operations_on_error baseRuntime failedToInitialize rfl).2.2.2.2.2.1 1 rfl).2.2.1⟩

namespace PluginManager

theorem duringLoadPlugins_length (host : Host) (rt : Runtime) (m : PluginManager) (h : Heap)
    (queue : List Nat) :
    loadPluginsOn host rt m h queue =
      (duringLoadPlugins host rt m h queue queue.length).map (fun m =>
        { m with
          events := m.events
            ++ [Event.pluginsChanged,
                Event.startDelayedInitializeTimer kDelayedInitializeInterval] }) := by
  have : queue.reverse.take queue.length = queue.reverse := by
    rw [← List.length_reverse queue]
    exact List.take_length _
  unfold loadPluginsOn duringLoadPlugins runningPass
  rw [this]
  cases initializedPass host rt { m with m_pluginSpecifications := h } queue with
  | none => rfl
  | some m1 => rfl

theorem failedDependency_none (h : Heap) (destState : PluginState)
    (deps : List (PluginDependency × Nat)) (hnone : failedDependency h destState deps = none) :
    ∀ key dep, (key, dep) ∈ deps → key.type = DependencyType.Required →
      (h.deref dep).state = destState := by
  intro key dep hmem hreq
  by_contra hs
  obtain ⟨_, _, _, _, _, hf⟩ :=
    failedDependency_eq_some h destState deps ⟨key, dep, hmem, hreq, hs⟩
  rw [hnone] at hf
  exact Option.noConfusion hf

/-- What `loadPlugin` with destination `Loaded` or `Initialized` does to the specification
it is called on: the resolved dependencies stay, and the state stays or becomes the
destination, the latter only from the state before it and with every Required dependency in
the destination state. -/
theorem loadPlugin_spec_effect (host : Host) (rt : Runtime) (m : PluginManager) (spec : Nat)
    (destState : PluginState)
    (hdest : destState = PluginState.Loaded ∨ destState = PluginState.Initialized)
    (after : PluginManager) (hafter : loadPlugin host rt m spec destState = some after) :
    (after.m_pluginSpecifications.deref spec).m_dependencySpecifications
      = (m.m_pluginSpecifications.deref spec).m_dependencySpecifications ∧
    ((after.m_pluginSpecifications.deref spec).m_state
        = (m.m_pluginSpecifications.deref spec).m_state ∨
      ((after.m_pluginSpecifications.deref spec).m_state = destState ∧
        (m.m_pluginSpecifications.deref spec).state.toInt = destState.toInt - 1 ∧
        failedDependency m.m_pluginSpecifications destState
          (m.m_pluginSpecifications.deref spec).dependencySpecifications = none)) := by
  by_cases hskip : (m.m_pluginSpecifications.deref spec).hasError = true ∨
      (m.m_pluginSpecifications.deref spec).state.toInt ≠ destState.toInt - 1 ∨
      (destState = PluginState.Loaded ∧
        (m.m_pluginSpecifications.deref spec).isEffectivelyEnabled host = false)
  · rw [loadPlugin_of_skip host rt m spec destState hskip] at hafter
    cases hafter
    exact ⟨rfl, Or.inl rfl⟩
  · have herr : (m.m_pluginSpecifications.deref spec).hasError = false := by
      cases he : (m.m_pluginSpecifications.deref spec).hasError with
      | false => rfl
      | true => exact absurd (Or.inl he) hskip
    have hstate : (m.m_pluginSpecifications.deref spec).state.toInt = destState.toInt - 1 := by
      by_contra hne
      exact hskip (Or.inr (Or.inl hne))
    have henabled : destState = PluginState.Loaded →
        (m.m_pluginSpecifications.deref spec).isEffectivelyEnabled host = true := by
      intro hd
      cases he : (m.m_pluginSpecifications.deref spec).isEffectivelyEnabled host with
      | true => rfl
      | false => exact absurd (Or.inr (Or.inr ⟨hd, he⟩)) hskip
    rw [loadPlugin_of_checks host rt m spec destState
      (hdest.elim Or.inl (fun h => Or.inr (Or.inl h))) herr hstate henabled] at hafter
    cases hf : failedDependency m.m_pluginSpecifications destState
        (m.m_pluginSpecifications.deref spec).dependencySpecifications with
    | some text =>
      rw [hf] at hafter
      cases hafter
      obtain ⟨hs, hd, _, _⟩ :=
        (sameShape_setErrorString m.m_pluginSpecifications spec text).2 spec
      exact ⟨hd, Or.inl hs⟩
    | none =>
      rw [hf] at hafter
      have key : ∀ o : Outcome Bool,
          (o.spec.m_dependencySpecifications
              = (m.m_pluginSpecifications.deref spec).m_dependencySpecifications ∧
            (o.spec.m_state = (m.m_pluginSpecifications.deref spec).m_state ∨
              o.spec.m_state = destState)) →
          ((m.call spec o).m_pluginSpecifications.deref spec).m_dependencySpecifications
              = (m.m_pluginSpecifications.deref spec).m_dependencySpecifications ∧
            (((m.call spec o).m_pluginSpecifications.deref spec).m_state
                = (m.m_pluginSpecifications.deref spec).m_state ∨
              (((m.call spec o).m_pluginSpecifications.deref spec).m_state = destState ∧
                (m.m_pluginSpecifications.deref spec).state.toInt = destState.toInt - 1 ∧
                (none : Option String) = none)) := by
        intro o ho
        by_cases hl : spec < m.m_pluginSpecifications.length
        · have hr : (m.call spec o).m_pluginSpecifications.deref spec = o.spec :=
            Heap.deref_update_self _ _ _ hl
          rw [hr]
          exact ⟨ho.1, ho.2.elim Or.inl (fun h => Or.inr ⟨h, hstate, rfl⟩)⟩
        · have hu : (m.call spec o).m_pluginSpecifications = m.m_pluginSpecifications :=
            Heap.update_of_length_le _ _ _ (Nat.le_of_not_lt hl)
          rw [hu]
          exact ⟨rfl, Or.inl rfl⟩
      rcases hdest with hd | hd
      · subst hd
        simp only [loadPluginTransition, Option.map_eq_some'] at hafter
        obtain ⟨o, ho, rfl⟩ := hafter
        obtain ⟨h1, h2⟩ :=
          PluginSpecification.loadLibrary_shape rt (m.m_pluginSpecifications.deref spec) o ho
        exact key _ ⟨h1, h2.elim Or.inl (fun h => Or.inr h.1)⟩
      · subst hd
        cases hafter
        obtain ⟨h1, h2⟩ :=
          PluginSpecification.initializePlugin_shape rt (m.m_pluginSpecifications.deref spec)
        exact key _ ⟨h1, h2.elim Or.inl (fun h => Or.inr h.1)⟩

end PluginManager

namespace PluginManager

theorem loadPlugin_state_mono (host : Host) (rt : Runtime) (m : PluginManager) (spec : Nat)
    (destState : PluginState)
    (hdest : destState = PluginState.Loaded ∨ destState = PluginState.Initialized) (j : Nat)
    (after : PluginManager) (hafter : loadPlugin host rt m spec destState = some after) :
    (m.m_pluginSpecifications.deref j).state.toInt ≤
      (after.m_pluginSpecifications.deref j).state.toInt := by
  by_cases hj : j = spec
  · subst hj
    rcases (loadPlugin_spec_effect host rt m j destState hdest after hafter).2 with
      h | ⟨h, hprev, _⟩
    · show (m.m_pluginSpecifications.deref j).m_state.toInt ≤ _
      rw [← h]
      exact le_refl _
    · show _ ≤ PluginState.toInt (after.m_pluginSpecifications.deref j).m_state
      rw [h, hprev]
      omega
  · rw [loadPlugin_deref_of_ne host rt m spec destState j hj after hafter]

theorem loadPlugin_requiredDependenciesAhead (host : Host) (rt : Runtime) (m : PluginManager)
    (spec : Nat) (destState : PluginState)
    (hdest : destState = PluginState.Loaded ∨ destState = PluginState.Initialized)
    (hinv : RequiredDependenciesAhead m.m_pluginSpecifications)
    (after : PluginManager) (hafter : loadPlugin host rt m spec destState = some after) :
    RequiredDependenciesAhead after.m_pluginSpecifications := by
  intro p key d hp hmem hreq
  have hmono := loadPlugin_state_mono host rt m spec destState hdest d after hafter
  by_cases hps : p = spec
  · subst hps
    obtain ⟨hdeps, hstate⟩ := loadPlugin_spec_effect host rt m p destState hdest after hafter
    have hmem' : (key, d) ∈ (m.m_pluginSpecifications.deref p).dependencySpecifications := by
      show (key, d) ∈ (m.m_pluginSpecifications.deref p).m_dependencySpecifications
      rw [← hdeps]
      exact hmem
    rcases hstate with h | ⟨h, _, hnone⟩
    · have hsame : (after.m_pluginSpecifications.deref p).state
          = (m.m_pluginSpecifications.deref p).state := h
      rw [hsame] at hp ⊢
      exact le_trans (hinv p key d hp hmem' hreq) hmono
    · have hnew : (after.m_pluginSpecifications.deref p).state = destState := h
      rw [hnew]
      have hd := failedDependency_none _ _ _ hnone key d hmem' hreq
      rw [hd] at hmono
      exact hmono
  · rw [loadPlugin_deref_of_ne host rt m spec destState p hps after hafter] at hp hmem ⊢
    exact le_trans (hinv p key d hp hmem hreq) hmono

theorem loadPlugin_running_of_initialized (host : Host) (rt : Runtime) (m : PluginManager)
    (spec : Nat) (herr : (m.m_pluginSpecifications.deref spec).hasError = false)
    (hstate : (m.m_pluginSpecifications.deref spec).state = PluginState.Initialized) :
    loadPlugin host rt m spec PluginState.Running
      = some (m.call spec (m.m_pluginSpecifications.deref spec).initializeExtensions) := by
  unfold loadPlugin
  have h1 : ¬ ((m.m_pluginSpecifications.deref spec).hasError
      || decide ((m.m_pluginSpecifications.deref spec).state.toInt
          ≠ PluginState.Running.toInt - 1)) = true := by
    simp [herr, hstate, PluginState.toInt]
  have h2 : ¬ (!(m.m_pluginSpecifications.deref spec).isEffectivelyEnabled host
      && decide (PluginState.Running = PluginState.Loaded)) = true := by
    simp
  simp only [if_neg h1, if_neg h2]

end PluginManager

theorem loadedChain_requiredDependenciesAhead : RequiredDependenciesAhead loadedChain := by
  intro p key d hp hmem hreq
  match p with
  | 0 => simp [loadedChain, loadedSpec, loadableSpec, resolvedSpec, Heap.deref,
      PluginSpecification.dependencySpecifications] at hmem
  | 1 =>
    simp [loadedChain, loadedSpec, loadableSpec, resolvedSpec, Heap.deref,
      PluginSpecification.dependencySpecifications] at hmem
    obtain ⟨_, hd⟩ := hmem
    subst hd
    decide
  | 2 =>
    simp [loadedChain, loadedSpec, loadableSpec, resolvedSpec, Heap.deref,
      PluginSpecification.dependencySpecifications] at hmem
    obtain ⟨_, hd⟩ := hmem
    subst hd
    decide
  | (n + 3) =>
    simp [loadedChain, Heap.deref, emptySpecification,
      PluginSpecification.dependencySpecifications] at hmem

/-- C15, as stated, fails: `C` requires `B`, `B` requires `A`, all three loaded, and the queue
of `loadQueue()` is `A`, `B`, `C`. After the first loop of `loadPlugins()` and the first
iteration of its second loop, `extensionsInitialized` of `C` has been called and `C` is in
state `Running`, while `B`, which `C` requires, is still in state `Initialized`. -/
theorem C15_counterexample :
    loadQueue loadedChain = some (loadedChain, [0, 1, 2]) ∧
    ∃ r, PluginManager.duringLoadPlugins plainHost baseRuntime (managerOf loadedChain)
        loadedChain [0, 1, 2] 1 = some r ∧
      r.m_pluginSpecifications.map (fun s => s.state)
        = [PluginState.Initialized, PluginState.Initialized, PluginState.Running] ∧
      r.events
        = [Event.callInitialize 1 [], Event.callInitialize 2 [], Event.callInitialize 3 [],
            Event.extensionsInitialized 3] ∧
      ¬ RequiredDependenciesAhead r.m_pluginSpecifications := by
  refine ⟨rfl, ?_⟩
  obtain ⟨r, hr⟩ := Option.isSome_iff_exists.1
    (by decide : (PluginManager.duringLoadPlugins plainHost baseRuntime
      (managerOf loadedChain) loadedChain [0, 1, 2] 1).isSome = true)
  have hs : r.m_pluginSpecifications.map (fun s => s.state)
      = [PluginState.Initialized, PluginState.Initialized, PluginState.Running] :=
    value_of_map (fun r : PluginManager => r.m_pluginSpecifications.map (fun s => s.state))
      _ r _ hr (by decide)
  have he : r.events
      = [Event.callInitialize 1 [], Event.callInitialize 2 [], Event.callInitialize 3 [],
          Event.extensionsInitialized 3] :=
    value_of_map (fun r : PluginManager => r.events) _ r _ hr (by decide)
  have hc : ((r.m_pluginSpecifications.deref 2).state,
        (r.m_pluginSpecifications.deref 2).dependencySpecifications,
        (r.m_pluginSpecifications.deref 1).state)
      = (PluginState.Running, [(requiredOn "B", 1)], PluginState.Initialized) :=
    value_of_map (fun r : PluginManager =>
      ((r.m_pluginSpecifications.deref 2).state,
        (r.m_pluginSpecifications.deref 2).dependencySpecifications,
        (r.m_pluginSpecifications.deref 1).state)) _ r _ hr (by decide)
  refine ⟨r, hr, hs, he, fun h => ?_⟩
  have h2 := h 2 (requiredOn "B") 1
  rw [(Prod.mk.inj hc).1, (Prod.mk.inj (Prod.mk.inj hc).2).1,
    (Prod.mk.inj (Prod.mk.inj hc).2).2] at h2
  exact absurd (h2 (by decide) (by decide) rfl) (by decide)

/-- C15, amended: a call of `loadPlugin` with destination `Loaded` or `Initialized` keeps the
property that every specification from state `Loaded` on has each resolved Required
dependency in a state not behind its own, and it advances a specification only when every
such dependency is in the destination state already. With destination `Running` there is no
check of the dependencies: an error-free specification in state `Initialized` gets
`initializeExtensions` called whatever the states of its dependencies. -/
theorem C15_loadPlugin_keeps_dependencies_ahead (host : Host) (rt : Runtime)
    (m : PluginManager) (spec : Nat) (destState : PluginState)
    (hinv : RequiredDependenciesAhead m.m_pluginSpecifications) :
    (destState = PluginState.Loaded ∨ destState = PluginState.Initialized →
      (PluginManager.loadPlugin host rt m spec destState = none →
        destState = PluginState.Loaded ∧
        (m.m_pluginSpecifications.deref spec).m_loader = none ∧
        (m.m_pluginSpecifications.deref spec).m_staticPlugin = none) ∧
      ∀ after, PluginManager.loadPlugin host rt m spec destState = some after →
        RequiredDependenciesAhead after.m_pluginSpecifications ∧
        ((after.m_pluginSpecifications.deref spec).state
            ≠ (m.m_pluginSpecifications.deref spec).state →
          (after.m_pluginSpecifications.deref spec).state = destState ∧
          ∀ key d, (key, d) ∈ (m.m_pluginSpecifications.deref spec).dependencySpecifications →
            key.type = DependencyType.Required →
            (m.m_pluginSpecifications.deref d).state = destState ∧
            (after.m_pluginSpecifications.deref d).state = destState)) ∧
    ((m.m_pluginSpecifications.deref spec).hasError = false →
      (m.m_pluginSpecifications.deref spec).state = PluginState.Initialized →
      PluginManager.loadPlugin host rt m spec PluginState.Running
        = some (m.call spec (m.m_pluginSpecifications.deref spec).initializeExtensions)) := by
  refine ⟨fun hdest => ⟨fun hnone => ?_, fun after hafter =>
    ⟨PluginManager.loadPlugin_requiredDependenciesAhead host rt m spec
      destState hdest hinv after hafter, fun hchanged => ?_⟩⟩,
    PluginManager.loadPlugin_running_of_initialized host rt m spec⟩
  · have hn := (PluginManager.loadPlugin_eq_none_iff host rt m spec destState).1 hnone
    exact ⟨hn.1, hn.2.2.2.2.2.1, hn.2.2.2.2.2.2⟩
  rcases (PluginManager.loadPlugin_spec_effect host rt m spec destState hdest after hafter).2
    with h | ⟨h, hprev, hnone⟩
  · exact absurd h hchanged
  · refine ⟨h, fun key d hmem hreq => ?_⟩
    have hd := PluginManager.failedDependency_none _ _ _ hnone key d hmem hreq
    refine ⟨hd, ?_⟩
    have hne : d ≠ spec := by
      intro e
      rw [e] at hd
      rw [hd] at hprev
      omega
    rw [PluginManager.loadPlugin_deref_of_ne host rt m spec destState d hne after hafter]
    exact hd

/-- C15, amended, at the chain of three loaded specifications: initializing `A` keeps the
property, and `A` is then in state `Initialized`. -/
theorem C15_loadPlugin_keeps_dependencies_ahead_witness :
    RequiredDependenciesAhead (managerOf loadedChain).m_pluginSpecifications ∧
    ∃ after, PluginManager.loadPlugin plainHost baseRuntime (managerOf loadedChain) 0
        PluginState.Initialized = some after ∧
      RequiredDependenciesAhead after.m_pluginSpecifications ∧
      (after.m_pluginSpecifications.deref 0).state = PluginState.Initialized := by
  refine ⟨loadedChain_requiredDependenciesAhead, ?_⟩
  obtain ⟨after, hr⟩ := Option.isSome_iff_exists.1
    (by decide : (PluginManager.loadPlugin plainHost baseRuntime (managerOf loadedChain) 0
      PluginState.Initialized).isSome = true)
  have hs : (after.m_pluginSpecifications.deref 0).state = PluginState.Initialized :=
    value_of_map (fun r : PluginManager => (r.m_pluginSpecifications.deref 0).state)
      _ after _ hr (by decide)
  have hc := ((C15_loadPlugin_keeps_dependencies_ahead plainHost baseRuntime
    (managerOf loadedChain) 0 PluginState.Initialized
    loadedChain_requiredDependenciesAhead).1 (Or.inr rfl)).2 after hr
  exact ⟨after, hr, hc.1, hs⟩

namespace PluginSpecification

theorem stop_errorString (rt : Runtime) (s : PluginSpecification) :
    (s.stop rt).spec.m_errorString = s.m_errorString := by
  unfold stop
  cases s.m_plugin <;> rfl

theorem kill_errorString (s : PluginSpecification) :
    s.kill.spec.m_errorString = s.m_errorString := by
  unfold kill
  cases s.m_plugin <;> rfl

end PluginSpecification

namespace PluginManager

theorem call_errorString {α : Type} (m : PluginManager) (spec j : Nat) (o : Outcome α)
    (ho : o.spec.m_errorString = (m.m_pluginSpecifications.deref spec).m_errorString) :
    ((m.call spec o).m_pluginSpecifications.deref j).m_errorString
      = (m.m_pluginSpecifications.deref j).m_errorString := by
  by_cases hj : j = spec
  · subst hj
    by_cases hl : j < m.m_pluginSpecifications.length
    · have hr : (m.call j o).m_pluginSpecifications.deref j = o.spec :=
        Heap.deref_update_self _ _ _ hl
      rw [hr, ho]
    · have hu : (m.call j o).m_pluginSpecifications = m.m_pluginSpecifications :=
        Heap.update_of_length_le _ _ _ (Nat.le_of_not_lt hl)
      rw [hu]
  · rw [call_deref_of_ne m spec j o hj]

theorem loadPlugin_keeps_error (host : Host) (rt : Runtime) (m : PluginManager)
    (spec : Nat) (destState : PluginState) (j : Nat) (e : String)
    (herr : (m.m_pluginSpecifications.deref j).m_errorString = some e)
    (after : PluginManager) (hafter : loadPlugin host rt m spec destState = some after) :
    (after.m_pluginSpecifications.deref j).m_errorString = some e := by
  by_cases hj : j = spec
  · subst hj
    have hhas : (m.m_pluginSpecifications.deref j).hasError = true := by
      show (m.m_pluginSpecifications.deref j).m_errorString.isSome = true
      rw [herr]
      rfl
    rw [loadPlugin_of_skip host rt m j destState (Or.inl hhas)] at hafter
    cases hafter
    exact herr
  · rw [loadPlugin_deref_of_ne host rt m spec destState j hj after hafter]
    exact herr

theorem runningStep_defined (host : Host) (rt : Runtime) (m : PluginManager) (spec : Nat) :
    ∃ after, runningStep host rt m spec = some after := by
  obtain ⟨loaded, h⟩ := loadPlugin_defined host rt m spec PluginState.Running (by decide)
  unfold runningStep
  rw [h]
  exact ⟨_, rfl⟩

theorem runningStep_keeps_error (host : Host) (rt : Runtime) (m : PluginManager)
    (spec : Nat) (j : Nat) (e : String)
    (herr : (m.m_pluginSpecifications.deref j).m_errorString = some e)
    (after : PluginManager) (hafter : runningStep host rt m spec = some after) :
    (after.m_pluginSpecifications.deref j).m_errorString = some e := by
  unfold runningStep at hafter
  simp only [Option.map_eq_some'] at hafter
  obtain ⟨loaded, hl, rfl⟩ := hafter
  have h1 := loadPlugin_keeps_error host rt m spec PluginState.Running j e herr loaded hl
  by_cases hs : (loaded.m_pluginSpecifications.deref spec).state = PluginState.Running
  · rw [if_pos hs]
    exact h1
  · rw [if_neg hs, call_errorString _ spec j _ (PluginSpecification.kill_errorString _)]
    exact h1

theorem initializedPass_keeps_error (host : Host) (rt : Runtime) (queue : List Nat)
    (m : PluginManager) (j : Nat) (e : String)
    (herr : (m.m_pluginSpecifications.deref j).m_errorString = some e) :
    ∃ after, initializedPass host rt m queue = some after ∧
      (after.m_pluginSpecifications.deref j).m_errorString = some e :=
  foldlM_invariant (fun m spec => loadPlugin host rt m spec PluginState.Initialized)
    (fun m => (m.m_pluginSpecifications.deref j).m_errorString = some e)
    (fun s a hs => by
      obtain ⟨t, ht⟩ := loadPlugin_defined host rt s a PluginState.Initialized (by decide)
      exact ⟨t, ht, loadPlugin_keeps_error host rt s a PluginState.Initialized j e hs t ht⟩)
    queue m herr

theorem foldlM_runningStep_keeps_error (host : Host) (rt : Runtime) (l : List Nat)
    (m : PluginManager) (j : Nat) (e : String)
    (herr : (m.m_pluginSpecifications.deref j).m_errorString = some e) :
    ∃ after, l.foldlM (runningStep host rt) m = some after ∧
      (after.m_pluginSpecifications.deref j).m_errorString = some e :=
  foldlM_invariant (runningStep host rt)
    (fun m => (m.m_pluginSpecifications.deref j).m_errorString = some e)
    (fun s a hs => by
      obtain ⟨t, ht⟩ := runningStep_defined host rt s a
      exact ⟨t, ht, runningStep_keeps_error host rt s a j e hs t ht⟩)
    l m herr

theorem loadQueueRec_overwrites (fuel : Nat) (h : Heap) (spec : Nat) (queue circ : List Nat)
    (hl : spec < h.length) (hq : queue.contains spec = false) (hc : circ.contains spec = true) :
    (loadQueueRec (fuel + 1) h spec queue circ).map (fun r => (r.heap.deref spec).errorString)
      = some (some (circularDependencyText h spec circ)) := by
  simp only [loadQueueRec, hq, hc, if_true, Bool.false_eq_true, if_false, Option.map_some']
  exact congrArg some (Heap.errorString_setErrorString_self h spec _ hl)

end PluginManager

set_option maxRecDepth 100000 in
theorem cycleWithEarlierError_loadQueue :
    (loadQueue cycleWithEarlierError).map (fun r => (r.1.deref 0).errorString)
      = some (some ("Cannot load plugin because dependency failed to load: B (1.0.0)\n"
          ++ "Reason: Circular dependency detected:\nB (1.0.0) depends on\n"
          ++ "A (1.0.0) depends on\nB (1.0.0)")) := by
  decide

/-- C16, as stated, fails: `A` and `B` require each other and `A` already holds the text
`first error`. `loadQueue()` replaces it by the text on the failed dependency `B`, and a
recursive call that finds `A` on the circularity check queue replaces it by the report of
the cycle. -/
theorem C16_counterexample :
    (cycleWithEarlierError.deref 0).errorString = some "first error" ∧
    (loadQueue cycleWithEarlierError).map (fun r => (r.1.deref 0).errorString)
      = some (some ("Cannot load plugin because dependency failed to load: B (1.0.0)\n"
          ++ "Reason: Circular dependency detected:\nB (1.0.0) depends on\n"
          ++ "A (1.0.0) depends on\nB (1.0.0)")) ∧
    (loadQueueRec 1 cycleWithEarlierError 0 [] [0]).map
        (fun r => (r.heap.deref 0).errorString)
      = some (some "Circular dependency detected:\nA (1.0.0) depends on\nA (1.0.0)") :=
  ⟨rfl, cycleWithEarlierError_loadQueue, by decide⟩

/-- C16, amended: for a specification that already holds an error text, the transition
methods `loadLibrary`, `initializePlugin`, `initializeExtensions`, `delayedInitialize`, `stop`
and `kill`, every call of `loadPlugin` (on this or on another specification) and the two
loops of `loadPlugins()` leave the text exactly as it was. The recursive `loadQueue` does
not: when it finds the specification on the circularity check queue, the text becomes the
report of the cycle, whatever it was before. -/
theorem C16_error_text_kept_by_lifecycle (host : Host) (rt : Runtime) (m : PluginManager)
    (j : Nat) (e : String)
    (herr : (m.m_pluginSpecifications.deref j).errorString = some e) :
    ((∃ outcome, (m.m_pluginSpecifications.deref j).loadLibrary rt = some outcome ∧
        outcome.spec.errorString = some e) ∧
      ((m.m_pluginSpecifications.deref j).initializePlugin rt).spec.errorString = some e ∧
      (m.m_pluginSpecifications.deref j).initializeExtensions.spec.errorString = some e ∧
      ((m.m_pluginSpecifications.deref j).delayedInitialize rt).spec.errorString = some e ∧
      ((m.m_pluginSpecifications.deref j).stop rt).spec.errorString = some e ∧
      (m.m_pluginSpecifications.deref j).kill.spec.errorString = some e) ∧
    (∀ spec destState,
      (PluginManager.loadPlugin host rt m spec destState = none →
        destState = PluginState.Loaded ∧ spec ≠ j ∧
        (m.m_pluginSpecifications.deref spec).m_loader = none ∧
        (m.m_pluginSpecifications.deref spec).m_staticPlugin = none) ∧
      ∀ after, PluginManager.loadPlugin host rt m spec destState = some after →
        (after.m_pluginSpecifications.deref j).errorString = some e) ∧
    (∀ queue,
      (∃ after, PluginManager.initializedPass host rt m queue = some after ∧
        (after.m_pluginSpecifications.deref j).errorString = some e) ∧
      (∃ after, PluginManager.runningPass host rt m queue = some after ∧
        (after.m_pluginSpecifications.deref j).errorString = some e)) ∧
    (∀ fuel queue circularityCheckQueue, j < m.m_pluginSpecifications.length →
      queue.contains j = false → circularityCheckQueue.contains j = true →
      (loadQueueRec (fuel + 1) m.m_pluginSpecifications j queue circularityCheckQueue).map
          (fun r => (r.heap.deref j).errorString)
        = some (some
            (circularDependencyText m.m_pluginSpecifications j circularityCheckQueue))) := by
  have hhas : (m.m_pluginSpecifications.deref j).hasError = true := by
    show (m.m_pluginSpecifications.deref j).m_errorString.isSome = true
    have herr' : (m.m_pluginSpecifications.deref j).m_errorString = some e := herr
    rw [herr']
    rfl
  refine ⟨⟨?_, ?_, ?_, ?_, ?_, ?_⟩, ?_, ?_, ?_⟩
  · exact ⟨_, PluginSpecification.loadLibrary_of_error rt _ hhas, herr⟩
  · rw [PluginSpecification.initializePlugin_of_error rt _ hhas]
    exact herr
  · rw [PluginSpecification.initializeExtensions_of_error _ hhas]
    exact herr
  · rw [PluginSpecification.delayedInitialize_of_error rt _ hhas]
    exact herr
  · exact (PluginSpecification.stop_errorString rt _).trans herr
  · exact (PluginSpecification.kill_errorString _).trans herr
  · intro spec destState
    refine ⟨fun hnone => ?_, fun after hafter =>
      PluginManager.loadPlugin_keeps_error host rt m spec destState j e herr after hafter⟩
    have hn := (PluginManager.loadPlugin_eq_none_iff host rt m spec destState).1 hnone
    refine ⟨hn.1, ?_, hn.2.2.2.2.2.1, hn.2.2.2.2.2.2⟩
    intro hs
    rw [hs, hhas] at hn
    exact Bool.noConfusion hn.2.1
  · intro queue
    exact ⟨PluginManager.initializedPass_keeps_error host rt queue m j e herr,
      PluginManager.foldlM_runningStep_keeps_error host rt queue.reverse m j e herr⟩
  · intro fuel queue circ hl hq hc
    exact PluginManager.loadQueueRec_overwrites fuel _ j queue circ hl hq hc

/-- C16, amended, at the cycle whose `A` holds `first error`: `loadPlugin` for `B` returns
and keeps the text of `A`. -/
theorem C16_error_text_kept_by_lifecycle_witness :
    ((managerOf cycleWithEarlierError).m_pluginSpecifications.deref 0).errorString
      = some "first error" ∧
    ∃ after, PluginManager.loadPlugin plainHost baseRuntime (managerOf cycleWithEarlierError)
        1 PluginState.Loaded = some after ∧
      (after.m_pluginSpecifications.deref 0).errorString = some "first error" := by
  obtain ⟨after, hr⟩ := Option.isSome_iff_exists.1
    (by decide : (PluginManager.loadPlugin plainHost baseRuntime
      (managerOf cycleWithEarlierError) 1 PluginState.Loaded).isSome = true)
  exact ⟨rfl, after, hr, ((C16_error_text_kept_by_lifecycle plainHost baseRuntime
    (managerOf cycleWithEarlierError) 0 "first error" rfl).2.1 1 PluginState.Loaded).2
    after hr⟩

namespace PluginSpecification

theorem instanceInvariant_reset (s : PluginSpecification) : InstanceInvariant s.reset := by
  have hs : s.reset.state = PluginState.Invalid := rfl
  refine ⟨fun h => ?_, fun h => ?_⟩
  · rw [hs] at h
    exact absurd h (by decide)
  · rw [hs] at h
    exact absurd h (by decide)

theorem instanceInvariant_loadLibrary (rt : Runtime) (s : PluginSpecification)
    (h : InstanceInvariant s) (o : Outcome Bool) (ho : s.loadLibrary rt = some o) :
    InstanceInvariant o.spec := by
  unfold loadLibrary at ho
  split_ifs at ho <;> (try split at ho) <;> (try split at ho) <;> (try split at ho) <;>
    simp_all [InstanceInvariant, setErrorString, state, plugin] <;> subst ho <;> simp_all

theorem instanceInvariant_initializePlugin (rt : Runtime) (s : PluginSpecification)
    (h : InstanceInvariant s) : InstanceInvariant (s.initializePlugin rt).spec := by
  unfold initializePlugin
  split_ifs <;> (try split) <;> (try split) <;>
    simp_all [InstanceInvariant, setErrorString, state, plugin]

theorem instanceInvariant_initializeExtensions (s : PluginSpecification)
    (h : InstanceInvariant s) : InstanceInvariant s.initializeExtensions.spec := by
  unfold initializeExtensions
  split_ifs <;> (try split) <;>
    simp_all [InstanceInvariant, setErrorString, state, plugin]

theorem instanceInvariant_delayedInitialize (rt : Runtime) (s : PluginSpecification)
    (h : InstanceInvariant s) : InstanceInvariant (s.delayedInitialize rt).spec := by
  unfold delayedInitialize
  split_ifs <;> (try split) <;>
    simp_all [InstanceInvariant, setErrorString, state, plugin]

theorem instanceInvariant_stop (rt : Runtime) (s : PluginSpecification)
    (h : InstanceInvariant s) : InstanceInvariant (s.stop rt).spec := by
  unfold stop
  split <;> simp_all [InstanceInvariant, state, plugin]

theorem instanceInvariant_kill (s : PluginSpecification)
    (h : InstanceInvariant s) : InstanceInvariant s.kill.spec := by
  unfold kill
  split <;> simp_all [InstanceInvariant, state, plugin]

end PluginSpecification

theorem loadableSpec_loadLibrary :
    (loadableSpec "A" []).loadLibrary baseRuntime
      = some ⟨true, loadedSpec "A" [] 1, [Event.loaderLoad "A.so"]⟩ := by
  rfl

theorem instanceInvariant_loadableSpec (name : String) (deps : List (PluginDependency × Nat)) :
    InstanceInvariant (loadableSpec name deps) := by
  have hs : (loadableSpec name deps).state = PluginState.Resolved := rfl
  refine ⟨fun h => ?_, fun h => ?_⟩
  · rw [hs] at h
    exact absurd h (by decide)
  · rw [hs] at h
    exact absurd h (by decide)

/-- C17: in every state that a specification reaches from a reset specification (or from any
specification that has the property) through `reset`, `loadLibrary`, `initializePlugin`,
`initializeExtensions`, `delayedInitialize`, `stop` and `kill`, whatever the loader and the
plugin answer, a state among `Loaded`, `Initialized`, `Running`, `Stopped` implies that the
plugin instance is present, and the state `Deleted` implies that it is absent. -/
theorem C17_plugin_instance_invariant (start s : PluginSpecification)
    (hstart : (∃ s0 : PluginSpecification, start = s0.reset) ∨ InstanceInvariant start)
    (hreach : LifecycleReachable start s) :
    ((s.state = PluginState.Loaded ∨ s.state = PluginState.Initialized ∨
        s.state = PluginState.Running ∨ s.state = PluginState.Stopped) → s.plugin ≠ none) ∧
    (s.state = PluginState.Deleted → s.plugin = none) := by
  show InstanceInvariant s
  induction hreach with
  | start =>
    rcases hstart with ⟨s0, h0⟩ | h
    · rw [h0]
      exact PluginSpecification.instanceInvariant_reset s0
    · exact h
  | reset t _ _ => exact PluginSpecification.instanceInvariant_reset t
  | loadLibrary rt t o _ ho ih =>
    exact PluginSpecification.instanceInvariant_loadLibrary rt t ih o ho
  | initializePlugin rt t _ ih =>
    exact PluginSpecification.instanceInvariant_initializePlugin rt t ih
  | initializeExtensions t _ ih =>
    exact PluginSpecification.instanceInvariant_initializeExtensions t ih
  | delayedInitialize rt t _ ih =>
    exact PluginSpecification.instanceInvariant_delayedInitialize rt t ih
  | stop rt t _ ih => exact PluginSpecification.instanceInvariant_stop rt t ih
  | kill t _ ih => exact PluginSpecification.instanceInvariant_kill t ih

/-- C17 at a resolved specification whose library is loaded: the state is `Loaded` and the
plugin instance is present; and at the same specification killed after that: the state is
`Deleted` and the instance is absent. -/
theorem C17_plugin_instance_invariant_witness :
    (loadableSpec "A" []).loadLibrary baseRuntime
      = some ⟨true, loadedSpec "A" [] 1, [Event.loaderLoad "A.so"]⟩ ∧
    ((loadedSpec "A" [] 1).state = PluginState.Loaded ∧
      (loadedSpec "A" [] 1).plugin ≠ none) ∧
    ((loadedSpec "A" [] 1).kill.spec.state = PluginState.Deleted ∧
      (loadedSpec "A" [] 1).kill.spec.plugin = none) :=
  ⟨loadableSpec_loadLibrary,
    ⟨rfl, (C17_plugin_instance_invariant (loadableSpec "A" []) (loadedSpec "A" [] 1)
      (Or.inr (instanceInvariant_loadableSpec "A" []))
      (LifecycleReachable.loadLibrary baseRuntime _ _ LifecycleReachable.start
        loadableSpec_loadLibrary)).1 (Or.inl rfl)⟩,
    ⟨rfl, (C17_plugin_instance_invariant (loadableSpec "A" []) (loadedSpec "A" [] 1).kill.spec
      (Or.inr (instanceInvariant_loadableSpec "A" []))
      (LifecycleReachable.kill _
        (LifecycleReachable.loadLibrary baseRuntime _ _ LifecycleReachable.start
          loadableSpec_loadLibrary))).2 rfl⟩⟩

theorem contains_handle_iff {l : List ObjectHandle} {o : ObjectHandle} :
    l.contains o = true ↔ o ∈ l := by
  simp

/-- C18: when the handle is null or already registered, `addObject` leaves the manager as it
is, so the collection is unchanged and nothing is emitted; otherwise the collection becomes
the old one with the handle appended at the end, exactly one event is added, which is
`objectAdded` for the handle, and the collection at that moment holds the handle. -/
theorem C18_addObject (m : PluginManager) (obj : ObjectHandle) :
    ((obj = none ∨ obj ∈ m.allObjects) → m.addObject obj = m) ∧
    (obj ≠ none → obj ∉ m.allObjects →
      (m.addObject obj).allObjects = m.allObjects ++ [obj] ∧
      (m.addObject obj).events
        = m.events ++ [Event.objectAdded obj (m.addObject obj).allObjects] ∧
      obj ∈ (m.addObject obj).allObjects) := by
  constructor
  · intro h
    unfold PluginManager.addObject
    rcases h with h | h
    · rw [if_pos h]
    · by_cases hn : obj = none
      · rw [if_pos hn]
      · have hc : m.m_allObjects.contains obj = true := contains_handle_iff.2 h
        rw [if_neg hn, if_pos hc]
  · intro hn hnot
    have hc : ¬ m.m_allObjects.contains obj = true := fun h => hnot (contains_handle_iff.1 h)
    have hadd : m.addObject obj =
        { m with
          m_allObjects := m.m_allObjects ++ [obj]
          events := m.events ++ [Event.objectAdded obj (m.m_allObjects ++ [obj])] } := by
      unfold PluginManager.addObject
      rw [if_neg hn, if_neg hc]
    rw [hadd]
    exact ⟨rfl, rfl, List.mem_append_right _ (List.mem_singleton_self obj)⟩

/-- C18 at a registry that holds the handles 1 and 2: adding the handle 3 appends it and
emits `objectAdded` once, and adding the handle 1 again changes nothing. -/
theorem C18_addObject_witness :
    (({ managerOf [] with m_allObjects := [some 1, some 2] }).addObject (some 3)).allObjects
      = [some 1, some 2, some 3] ∧
    (({ managerOf [] with m_allObjects := [some 1, some 2] }).addObject (some 3)).events
      = [Event.objectAdded (some 3) [some 1, some 2, some 3]] ∧
    ({ managerOf [] with m_allObjects := [some 1, some 2] }).addObject (some 1)
      = { managerOf [] with m_allObjects := [some 1, some 2] } :=
  ⟨((C18_addObject { managerOf [] with m_allObjects := [some 1, some 2] } (some 3)).2
      (by decide) (by decide)).1,
    ((C18_addObject { managerOf [] with m_allObjects := [some 1, some 2] } (some 3)).2
      (by decide) (by decide)).2.1,
    (C18_addObject { managerOf [] with m_allObjects := [some 1, some 2] } (some 1)).1
      (Or.inr (by decide))⟩

/-- C19: when the handle is null or not registered, `removeObject` leaves the manager as it
is, so the collection is unchanged and nothing is emitted; otherwise exactly one event is
added, which is `aboutToRemoveObject` for the handle, emitted while the collection still holds
the handle, and afterwards the collection is the old one without the handle, the other
handles in their old order (the old collection with the handle erased, when no handle was
there twice). -/
theorem C19_removeObject (m : PluginManager) (obj : ObjectHandle) :
    ((obj = none ∨ obj ∉ m.allObjects) → m.removeObject obj = m) ∧
    (obj ≠ none → obj ∈ m.allObjects →
      (m.removeObject obj).events
        = m.events ++ [Event.aboutToRemoveObject obj m.allObjects] ∧
      (m.removeObject obj).allObjects = m.allObjects.filter (fun o => o ≠ obj) ∧
      obj ∉ (m.removeObject obj).allObjects ∧
      (∀ o, o ≠ obj → (o ∈ (m.removeObject obj).allObjects ↔ o ∈ m.allObjects)) ∧
      List.Sublist (m.removeObject obj).allObjects m.allObjects ∧
      (m.allObjects.Nodup → (m.removeObject obj).allObjects = m.allObjects.erase obj)) := by
  constructor
  · intro h
    unfold PluginManager.removeObject
    rcases h with h | h
    · rw [if_pos h]
    · by_cases hn : obj = none
      · rw [if_pos hn]
      · have hc : (!m.m_allObjects.contains obj) = true := by
          have : m.m_allObjects.contains obj = false := by
            cases hb : m.m_allObjects.contains obj with
            | false => rfl
            | true => exact absurd (contains_handle_iff.1 hb) h
          rw [this]
          rfl
        rw [if_neg hn, if_pos hc]
  · intro hn hmem
    have hc : ¬ (!m.m_allObjects.contains obj) = true := by
      have : m.m_allObjects.contains obj = true := contains_handle_iff.2 hmem
      rw [this]
      decide
    have hrem : m.removeObject obj =
        { m with
          m_allObjects := m.m_allObjects.filter (fun o => o ≠ obj)
          events := m.events ++ [Event.aboutToRemoveObject obj m.m_allObjects] } := by
      unfold PluginManager.removeObject
      rw [if_neg hn, if_neg hc]
    rw [hrem]
    refine ⟨rfl, rfl, ?_, ?_, ?_, ?_⟩
    · show obj ∉ m.m_allObjects.filter (fun o => o ≠ obj)
      simp [List.mem_filter]
    · intro o ho
      show o ∈ m.m_allObjects.filter (fun o => o ≠ obj) ↔ o ∈ m.m_allObjects
      simp [List.mem_filter, ho]
    · exact List.filter_sublist _
    · intro hnd
      show m.m_allObjects.filter (fun o => o ≠ obj) = m.m_allObjects.erase obj
      have hnd' : m.m_allObjects.Nodup := hnd
      rw [List.Nodup.erase_eq_filter hnd']
      congr 1
      funext o
      by_cases ho : o = obj <;> simp [ho]

/-- C19 at a registry that holds the handles 1, 2 and 3: removing the handle 2 emits
`aboutToRemoveObject` with the collection still complete and leaves 1 and 3 in this order;
removing the handle 4 changes nothing. -/
theorem C19_removeObject_witness :
    (({ managerOf [] with m_allObjects := [some 1, some 2, some 3] }).removeObject
        (some 2)).events
      = [Event.aboutToRemoveObject (some 2) [some 1, some 2, some 3]] ∧
    (({ managerOf [] with m_allObjects := [some 1, some 2, some 3] }).removeObject
        (some 2)).allObjects = [some 1, some 3] ∧
    ({ managerOf [] with m_allObjects := [some 1, some 2, some 3] }).removeObject (some 4)
      = { managerOf [] with m_allObjects := [some 1, some 2, some 3] } :=
  ⟨((C19_removeObject { managerOf [] with m_allObjects := [some 1, some 2, some 3] }
      (some 2)).2 (by decide) (by decide)).1,
    ((C19_removeObject { managerOf [] with m_allObjects := [some 1, some 2, some 3] }
      (some 2)).2 (by decide) (by decide)).2.1,
    (C19_removeObject { managerOf [] with m_allObjects := [some 1, some 2, some 3] }
      (some 4)).1 (Or.inr (by decide))⟩

set_option maxRecDepth 100000 in
theorem dependencyNotLoadedText_of_A (s : PluginSpecification) (E : String)
    (hname : s.name = "A") (hversion : s.version = "1.0.0") (herr : s.errorString = some E) :
    PluginManager.dependencyNotLoadedText s
      = "Cannot load plugin because dependency failed to load: A(1.0.0)\nReason: " ++ E := by
  unfold PluginManager.dependencyNotLoadedText
  rw [hname, hversion, herr]
  exact congrArg (fun t => t ++ E) (by decide)

set_option maxRecDepth 100000 in
theorem loadablePair_after_failed_load :
    PluginManager.loadPlugin plainHost runtimeLoadOfAFails (managerOf loadablePair) 0
        PluginState.Loaded = some pairAfterFailedLoad := by
  rfl

set_option maxRecDepth 100000 in
theorem loadablePair_dependent_text :
    (PluginManager.loadPlugin plainHost runtimeLoadOfAFails pairAfterFailedLoad 1
        PluginState.Loaded).map (fun r => r.m_pluginSpecifications.map (fun s => s.errorString))
      = some [some "/plugins/A.so: X",
          some ("Cannot load plugin because dependency failed to load: A(1.0.0)\nReason: "
            ++ "/plugins/A.so: X")] := by
  decide

/-- C20, as stated, fails: the load of `A` fails with the text `/plugins/A.so: X`, and the
transition of `B` to `Loaded` records on `B` a text that begins with `Cannot`, with a capital
letter; it is not the text of the claim, which begins with `cannot`. -/
theorem C20_counterexample :
    PluginManager.loadPlugin plainHost runtimeLoadOfAFails (managerOf loadablePair) 0
        PluginState.Loaded = some pairAfterFailedLoad ∧
    (PluginManager.loadPlugin plainHost runtimeLoadOfAFails pairAfterFailedLoad 1
        PluginState.Loaded).map (fun r => r.m_pluginSpecifications.map (fun s => s.errorString))
      = some [some "/plugins/A.so: X",
          some ("Cannot load plugin because dependency failed to load: A(1.0.0)\nReason: "
            ++ "/plugins/A.so: X")] ∧
    "Cannot load plugin because dependency failed to load: A(1.0.0)\nReason: /plugins/A.so: X"
      ≠ "cannot load plugin because dependency failed to load: A(1.0.0)\nReason: "
          ++ "/plugins/A.so: X" := by
  refine ⟨loadablePair_after_failed_load, loadablePair_dependent_text, ?_⟩
  decide

theorem pairAfterFailedLoad_other_dependencies (k : PluginDependency) (d : Nat)
    (hmem : (k, d) ∈
      (pairAfterFailedLoad.m_pluginSpecifications.deref 1).dependencySpecifications)
    (hne : d ≠ 0) :
    (pairAfterFailedLoad.m_pluginSpecifications.deref d).state = PluginState.Loaded := by
  have hdeps : (pairAfterFailedLoad.m_pluginSpecifications.deref 1).dependencySpecifications
      = [(requiredOn "A", 0)] := rfl
  rw [hdeps] at hmem
  have hd : d = 0 := by
    have := List.mem_singleton.1 hmem
    exact (Prod.mk.inj this).2
  exact absurd hd hne

/-- C20, amended: when the error-free, effectively enabled specification `B` in state
`Resolved` has a resolved Required dependency `A` (name `A`, version `1.0.0`) that is not in
state `Loaded` and holds the error text `E`, and every other Required dependency of `B` is
loaded, the transition of `B` to `Loaded` records on `B` exactly the text
`Cannot load plugin because dependency failed to load: A(1.0.0)`, a line feed, `Reason: ` and
`E`; `B` stays in state `Resolved`, nothing is called, and every later `loadPlugin` on `B` is
skipped and `initializePlugin` of `B` calls nothing, so `initialize` of `B` is never called. -/
theorem C20_dependent_error_names_cause (host : Host) (rt : Runtime) (m : PluginManager)
    (a b : Nat) (key : PluginDependency) (E : String)
    (hname : (m.m_pluginSpecifications.deref a).name = "A")
    (hversion : (m.m_pluginSpecifications.deref a).version = "1.0.0")
    (hfailed : (m.m_pluginSpecifications.deref a).state ≠ PluginState.Loaded)
    (hcause : (m.m_pluginSpecifications.deref a).errorString = some E)
    (hb : b < m.m_pluginSpecifications.length)
    (herr : (m.m_pluginSpecifications.deref b).hasError = false)
    (hstate : (m.m_pluginSpecifications.deref b).state = PluginState.Resolved)
    (henabled : (m.m_pluginSpecifications.deref b).isEffectivelyEnabled host = true)
    (hdep : (key, a) ∈ (m.m_pluginSpecifications.deref b).dependencySpecifications)
    (hreq : key.type = DependencyType.Required)
    (hothers : ∀ k d, (k, d) ∈ (m.m_pluginSpecifications.deref b).dependencySpecifications →
      k.type = DependencyType.Required → d ≠ a →
      (m.m_pluginSpecifications.deref d).state = PluginState.Loaded) :
    ∃ after, PluginManager.loadPlugin host rt m b PluginState.Loaded = some after ∧
      (after.m_pluginSpecifications.deref b).errorString
        = some ("Cannot load plugin because dependency failed to load: A(1.0.0)\nReason: "
            ++ E) ∧
      (after.m_pluginSpecifications.deref b).state = PluginState.Resolved ∧
      after.events = m.events ∧
      (∀ destState, PluginManager.loadPlugin host rt after b destState = some after) ∧
      ((after.m_pluginSpecifications.deref b).initializePlugin rt).events = [] := by
  have hprev : (m.m_pluginSpecifications.deref b).state.toInt
      = PluginState.Loaded.toInt - 1 := by
    rw [hstate]
    rfl
  obtain ⟨k, d, hmem, hk, hd, hf⟩ := PluginManager.failedDependency_eq_some
    m.m_pluginSpecifications PluginState.Loaded
    (m.m_pluginSpecifications.deref b).dependencySpecifications ⟨key, a, hdep, hreq, hfailed⟩
  have hda : d = a := by
    by_contra hne
    exact hd (hothers k d hmem hk hne)
  rw [hda, dependencyNotLoadedText_of_A _ E hname hversion hcause] at hf
  have hload : PluginManager.loadPlugin host rt m b PluginState.Loaded =
      some { m with
        m_pluginSpecifications := m.m_pluginSpecifications.setErrorString b
          ("Cannot load plugin because dependency failed to load: A(1.0.0)\nReason: "
            ++ E) } := by
    rw [PluginManager.loadPlugin_of_checks host rt m b PluginState.Loaded (Or.inl rfl) herr
      hprev (fun _ => henabled), hf]
  have htext := Heap.errorString_setErrorString_self m.m_pluginSpecifications b
    ("Cannot load plugin because dependency failed to load: A(1.0.0)\nReason: " ++ E) hb
  have hhas : ((m.m_pluginSpecifications.setErrorString b
      ("Cannot load plugin because dependency failed to load: A(1.0.0)\nReason: "
        ++ E)).deref b).hasError = true := by
    show ((m.m_pluginSpecifications.setErrorString b _).deref b).m_errorString.isSome = true
    rw [htext]
    rfl
  refine ⟨_, hload, htext, ?_, rfl, ?_, ?_⟩
  · exact ((sameShape_setErrorString m.m_pluginSpecifications b _).2 b).1.trans hstate
  · intro destState
    exact PluginManager.loadPlugin_of_skip host rt _ b destState (Or.inl hhas)
  · show ((PluginSpecification.initializePlugin rt
      ((m.m_pluginSpecifications.setErrorString b _).deref b))).events = []
    rw [PluginSpecification.initializePlugin_of_error rt _ hhas]

/-- C20, amended, at `B` that requires `A`, after the load of `A` has failed with the text
`/plugins/A.so: X`. -/
theorem C20_dependent_error_names_cause_witness :
    ∃ after, PluginManager.loadPlugin plainHost runtimeLoadOfAFails pairAfterFailedLoad 1
        PluginState.Loaded = some after ∧
      (after.m_pluginSpecifications.deref 1).errorString
        = some ("Cannot load plugin because dependency failed to load: A(1.0.0)\nReason: "
            ++ "/plugins/A.so: X") ∧
      (after.m_pluginSpecifications.deref 1).state = PluginState.Resolved := by
  obtain ⟨after, h, he, hs, _⟩ :=
    C20_dependent_error_names_cause plainHost runtimeLoadOfAFails pairAfterFailedLoad 0 1
      (requiredOn "A") "/plugins/A.so: X" rfl rfl (by decide) rfl (by decide) rfl rfl rfl
      (List.mem_singleton.2 rfl) rfl
      (fun k d hmem _ hne => pairAfterFailedLoad_other_dependencies k d hmem hne)
  exact ⟨after, h, he, hs⟩

namespace PluginSpecification

open Constants Helpers

theorem withEnabledBySettings_self (s : PluginSpecification) :
    s.withEnabledBySettings s.m_enabledBySettings = s := rfl

theorem readMetaDataFlags_keepsOrSets (host : Host) (s : PluginSpecification) :
    KeepsOrSets (readMetaDataFlags host) s := by
  unfold KeepsOrSets readMetaDataFlags withEnabledBySettings
  by_cases h1 : (!(JsonObject.value s.m_metaData kPluginRequired).isUndefined &&
      !(JsonObject.value s.m_metaData kPluginRequired).isBool) = true
  · left
    intro b
    simp only [if_pos h1]
    rfl
  by_cases h2 : (!(JsonObject.value s.m_metaData kPluginExperimental).isUndefined &&
      !(JsonObject.value s.m_metaData kPluginExperimental).isBool) = true
  · left
    intro b
    simp only [if_neg h1, if_pos h2]
    rfl
  by_cases h3 : (!(JsonObject.value s.m_metaData kPluginDisabledByDefault).isUndefined &&
      !(JsonObject.value s.m_metaData kPluginDisabledByDefault).isBool) = true
  · left
    intro b
    simp only [if_neg h1, if_neg h2, if_pos h3]
    rfl
  · right
    intro b
    simp only [if_neg h1, if_neg h2, if_neg h3]

end PluginSpecification

namespace PluginSpecification

open Constants Helpers

theorem readMetaData_keepsOrSets (host : Host) (md : JsonObject) (s : PluginSpecification) :
    KeepsOrSets (fun x => readMetaData host x md) s := by
  unfold KeepsOrSets
  by_cases h1 : (!(JsonObject.value md "IID").isString) = true
  · left
    intro b
    unfold readMetaData
    simp only [if_pos h1]
  by_cases h2 : (JsonObject.value md "IID").toString ≠ host.pluginIID
  · left
    intro b
    unfold readMetaData
    simp only [if_neg h1, if_pos h2]
  by_cases h3 : (!(JsonObject.value md kPluginMetadata).isObject) = true
  · left
    intro b
    unfold readMetaData
    simp only [if_neg h1, if_neg h2, if_pos h3]
    rfl
  generalize hmeta : (JsonObject.value md kPluginMetadata).toObject = mo
  by_cases h4 : (JsonObject.value mo kPluginName).isUndefined = true
  · left
    intro b
    unfold readMetaData
    simp only [if_neg h1, if_neg h2, if_neg h3, hmeta, if_pos h4]
    rfl
  by_cases h5 : (!(JsonObject.value mo kPluginName).isString) = true
  · left
    intro b
    unfold readMetaData
    simp only [if_neg h1, if_neg h2, if_neg h3, hmeta, if_neg h4, if_pos h5]
    rfl
  by_cases h6 : (JsonObject.value mo kPluginVersion).isUndefined = true
  · left
    intro b
    unfold readMetaData
    simp only [if_neg h1, if_neg h2, if_neg h3, hmeta, if_neg h4, if_neg h5, if_pos h6]
    rfl
  by_cases h7 : (!(JsonObject.value mo kPluginVersion).isString) = true
  · left
    intro b
    unfold readMetaData
    simp only [if_neg h1, if_neg h2, if_neg h3, hmeta, if_neg h4, if_neg h5, if_neg h6,
      if_pos h7]
    rfl
  by_cases h8 : (!isValidVersion (JsonObject.value mo kPluginVersion).toString) = true
  · left
    intro b
    unfold readMetaData
    simp only [if_neg h1, if_neg h2, if_neg h3, hmeta, if_neg h4, if_neg h5, if_neg h6,
      if_neg h7, if_pos h8]
    rfl
  by_cases h9 : (!(JsonObject.value mo kPluginCompatversion).isUndefined &&
      !(JsonObject.value mo kPluginCompatversion).isString) = true
  · left
    intro b
    unfold readMetaData
    simp only [if_neg h1, if_neg h2, if_neg h3, hmeta, if_neg h4, if_neg h5, if_neg h6,
      if_neg h7, if_neg h8, if_pos h9]
    rfl
  by_cases h10 : (!(JsonObject.value mo kPluginCompatversion).isUndefined &&
      !isValidVersion ((JsonObject.value mo kPluginCompatversion).toStringOr
        (JsonObject.value mo kPluginVersion).toString)) = true
  · left
    intro b
    unfold readMetaData
    simp only [if_neg h1, if_neg h2, if_neg h3, hmeta, if_neg h4, if_neg h5, if_neg h6,
      if_neg h7, if_neg h8, if_neg h9, if_pos h10]
    rfl
  have hstep : ∀ x : PluginSpecification, readMetaData host x md =
      readMetaDataFlags host { x with
        m_metaData := mo
        m_name := (JsonObject.value mo kPluginName).toString
        m_version := (JsonObject.value mo kPluginVersion).toString
        m_compatVersion := (JsonObject.value mo kPluginCompatversion).toStringOr
          (JsonObject.value mo kPluginVersion).toString } := by
    intro x
    unfold readMetaData
    simp only [if_neg h1, if_neg h2, if_neg h3, hmeta, if_neg h4, if_neg h5, if_neg h6,
      if_neg h7, if_neg h8, if_neg h9, if_neg h10]
  rcases readMetaDataFlags_keepsOrSets host { s with
      m_metaData := mo
      m_name := (JsonObject.value mo kPluginName).toString
      m_version := (JsonObject.value mo kPluginVersion).toString
      m_compatVersion := (JsonObject.value mo kPluginCompatversion).toStringOr
        (JsonObject.value mo kPluginVersion).toString } with hk | ho
  · left
    intro b
    simp only [hstep]
    exact hk b
  · right
    intro b
    simp only [hstep]
    exact ho b

end PluginSpecification

namespace PluginSpecification

theorem read_eq (host : Host) (s : PluginSpecification) (filePath : String) :
    read host s filePath =
      if (host.loaderFileName filePath).isEmpty then
        (false, readStart host s filePath)
      else if !(readMetaData host (readStart host s filePath)
          (host.loaderMetaData filePath)).1 then
        (false, (readMetaData host (readStart host s filePath)
          (host.loaderMetaData filePath)).2)
      else
        (true, { (readMetaData host (readStart host s filePath)
          (host.loaderMetaData filePath)).2 with m_state := PluginState.Read }) := rfl

theorem readStart_eq_with (host : Host) (s1 s2 : PluginSpecification) (filePath : String) :
    readStart host s2 filePath
      = (readStart host s1 filePath).withEnabledBySettings s2.m_enabledBySettings := rfl

theorem read_of_settings_eq (host : Host) (s1 s2 : PluginSpecification) (filePath : String)
    (h : s1.m_enabledBySettings = s2.m_enabledBySettings) :
    read host s1 filePath = read host s2 filePath := by
  have hstart : readStart host s1 filePath = readStart host s2 filePath := by
    rw [readStart_eq_with host s1 s2, ← h]
    rfl
  rw [read_eq, read_eq, hstart]

theorem read_of_overwritten (host : Host) (s1 s2 : PluginSpecification) (filePath : String)
    (hfile : (host.loaderFileName filePath).isEmpty = false)
    (ho : ∀ b, readMetaData host ((readStart host s1 filePath).withEnabledBySettings b)
        (host.loaderMetaData filePath)
      = readMetaData host (readStart host s1 filePath) (host.loaderMetaData filePath)) :
    read host s2 filePath = read host s1 filePath := by
  have hne : ¬ (host.loaderFileName filePath).isEmpty = true := by
    rw [hfile]
    exact Bool.false_ne_true
  rw [read_eq, read_eq, if_neg hne, if_neg hne, readStart_eq_with host s1 s2, ho]

theorem read_settings (host : Host) (s : PluginSpecification) (filePath : String) :
    (read host s filePath).2.m_enabledBySettings
      = if (host.loaderFileName filePath).isEmpty then s.m_enabledBySettings
        else (readMetaData host (readStart host s filePath)
          (host.loaderMetaData filePath)).2.m_enabledBySettings := by
  rw [read_eq]
  by_cases h1 : (host.loaderFileName filePath).isEmpty = true
  · rw [if_pos h1, if_pos h1]
    rfl
  · rw [if_neg h1, if_neg h1]
    by_cases h2 : (!(readMetaData host (readStart host s filePath)
        (host.loaderMetaData filePath)).1) = true
    · rw [if_pos h2]
    · rw [if_neg h2]

theorem read_read (host : Host) (s : PluginSpecification) (filePath : String) :
    read host (read host s filePath).2 filePath = read host s filePath := by
  by_cases h1 : (host.loaderFileName filePath).isEmpty = true
  · apply read_of_settings_eq
    rw [read_settings, if_pos h1]
  · have hfile : (host.loaderFileName filePath).isEmpty = false := by
      cases hb : (host.loaderFileName filePath).isEmpty
      · rfl
      · exact absurd hb h1
    rcases readMetaData_keepsOrSets host (host.loaderMetaData filePath)
        (readStart host s filePath) with hk | ho
    · apply read_of_settings_eq
      rw [read_settings, if_neg h1]
      have h := hk (readStart host s filePath).m_enabledBySettings
      rw [withEnabledBySettings_self] at h
      have h2 := congrArg (fun r => r.2.m_enabledBySettings) h
      exact h2
    · exact read_of_overwritten host s _ filePath hfile ho

end PluginSpecification

/-- C21: for every descriptor (every host and file path) and every specification, `read` on
the result of `read` gives the returned value and the specification that the first `read`
gave: the same members, the same error text, the same state. When the loader has a file name
and the `IID` of the descriptor matches, as with every well-formed descriptor, that state is
`Read`. -/
theorem C21_read_twice_is_read_once (host : Host) (s : PluginSpecification)
    (filePath : String) :
    PluginSpecification.read host (PluginSpecification.read host s filePath).2 filePath
      = PluginSpecification.read host s filePath ∧
    ((host.loaderFileName filePath).isEmpty = false →
      PluginSpecification.IIDMatches host (host.loaderMetaData filePath) →
      (PluginSpecification.read host s filePath).2.state = PluginState.Read ∧
      (PluginSpecification.read host (PluginSpecification.read host s filePath).2
        filePath).2.state = PluginState.Read) := by
  refine ⟨PluginSpecification.read_read host s filePath, fun hfile hiid => ?_⟩
  rw [PluginSpecification.read_read host s filePath]
  obtain ⟨start, _, _, _, hread⟩ :=
    PluginSpecification.read_of_iid host s filePath hfile hiid
  rw [hread]
  exact ⟨rfl, rfl⟩

/-- C21 at the descriptor of plugin `A` with version `1.0` and compatibility version `2.0`:
the second `read` leaves state `Read`. -/
theorem C21_read_twice_is_read_once_witness :
    (PluginSpecification.read (hostWith descriptorCompatNewer)
      (PluginSpecification.read (hostWith descriptorCompatNewer) emptySpecification "A.so").2
      "A.so").2.state = PluginState.Read :=
  ((C21_read_twice_is_read_once (hostWith descriptorCompatNewer) emptySpecification
    "A.so").2 rfl ⟨rfl, rfl⟩).2

namespace PluginSpecification

theorem read_modulo_settings (host : Host) (s1 s2 : PluginSpecification) (filePath : String)
    (b : Bool) :
    (read host s1 filePath).1 = (read host s2 filePath).1 ∧
    (read host s1 filePath).2.withEnabledBySettings b
      = (read host s2 filePath).2.withEnabledBySettings b := by
  by_cases h1 : (host.loaderFileName filePath).isEmpty = true
  · rw [read_eq, read_eq, if_pos h1, if_pos h1]
    exact ⟨rfl, rfl⟩
  · have hfile : (host.loaderFileName filePath).isEmpty = false := by
      cases hb : (host.loaderFileName filePath).isEmpty
      · rfl
      · exact absurd hb h1
    rcases readMetaData_keepsOrSets host (host.loaderMetaData filePath)
        (readStart host s1 filePath) with hk | ho
    · have h2 : readMetaData host (readStart host s2 filePath) (host.loaderMetaData filePath)
          = ((readMetaData host (readStart host s1 filePath) (host.loaderMetaData filePath)).1,
            (readMetaData host (readStart host s1 filePath)
              (host.loaderMetaData filePath)).2.withEnabledBySettings
                s2.m_enabledBySettings) := hk s2.m_enabledBySettings
      rw [read_eq host s2, read_eq host s1, if_neg h1, if_neg h1, h2]
      by_cases h3 : (!(readMetaData host (readStart host s1 filePath)
          (host.loaderMetaData filePath)).1) = true
      · rw [if_pos h3, if_pos h3]
        exact ⟨rfl, rfl⟩
      · rw [if_neg h3, if_neg h3]
        exact ⟨rfl, rfl⟩
    · rw [read_of_overwritten host s1 s2 filePath hfile ho]
      exact ⟨rfl, rfl⟩

end PluginSpecification

/-- C30 does not hold of the code: `reset` leaves `m_enabledBySettings` as it is, and
`readMetaData` assigns it at line 385 only. For every descriptor and every two prior
contents, `read` returns the same value and leaves the same members except possibly
`m_enabledBySettings`; and for the descriptor without `Name`, where validation stops before
line 385, `isEnabledBySettings` is `true` after reading into a fresh specification and
`false` after reading into one that held the experimental plugin, with the same error text
and state in both runs. -/
theorem C30_read_keeps_prior_enabledBySettings :
    (∀ (host : Host) (s1 s2 : PluginSpecification) (filePath : String) (b : Bool),
      (PluginSpecification.read host s1 filePath).1
        = (PluginSpecification.read host s2 filePath).1 ∧
      (PluginSpecification.read host s1 filePath).2.withEnabledBySettings b
        = (PluginSpecification.read host s2 filePath).2.withEnabledBySettings b) ∧
    (PluginSpecification.read (hostWith descriptorWithoutName) emptySpecification
      "A.so").2.isEnabledBySettings = true ∧
    (PluginSpecification.read (hostWith descriptorWithoutName) readExperimentalBefore
      "A.so").2.isEnabledBySettings = false ∧
    (PluginSpecification.read (hostWith descriptorWithoutName) emptySpecification
      "A.so").2.errorString = some "\"Name\" is missing" ∧
    (PluginSpecification.read (hostWith descriptorWithoutName) readExperimentalBefore
      "A.so").2.errorString = some "\"Name\" is missing" ∧
    (PluginSpecification.read (hostWith descriptorWithoutName) emptySpecification
      "A.so").2.state = PluginState.Read ∧
    (PluginSpecification.read (hostWith descriptorWithoutName) readExperimentalBefore
      "A.so").2.state = PluginState.Read := by
  refine ⟨fun host s1 s2 filePath b =>
    PluginSpecification.read_modulo_settings host s1 s2 filePath b, ?_, ?_, ?_, ?_, ?_, ?_⟩ <;>
    decide

theorem loadQueueRec_of_queued (fuel : Nat) (h : Heap) (spec : Nat)
    (queue circ : List Nat) (hq : queue.contains spec = true) :
    loadQueueRec (fuel + 1) h spec queue circ = some ⟨true, h, queue, circ⟩ := by
  simp only [loadQueueRec, hq, if_true]

theorem loadQueueRec_of_unresolved (fuel : Nat) (h : Heap) (spec : Nat)
    (queue circ : List Nat)
    (hstate : (h.deref spec).state = PluginState.Invalid ∨
      (h.deref spec).state = PluginState.Read)
    (hq : queue.contains spec = false) (hc : circ.contains spec = false) :
    loadQueueRec (fuel + 1) h spec queue circ
      = some ⟨false, h, queue ++ [spec], circ ++ [spec]⟩ := by
  simp only [loadQueueRec, hq, hc, Bool.false_eq_true, if_false]
  rw [if_pos hstate]

theorem loadQueueRec_of_resolved (fuel : Nat) (h : Heap) (spec : Nat)
    (queue circ : List Nat)
    (hstate : ¬ ((h.deref spec).state = PluginState.Invalid ∨
      (h.deref spec).state = PluginState.Read))
    (hq : queue.contains spec = false) (hc : circ.contains spec = false) :
    loadQueueRec (fuel + 1) h spec queue circ
      = loadQueueDeps (loadQueueRec fuel) spec (h.deref spec).dependencySpecifications h queue
          (circ ++ [spec]) := by
  simp only [loadQueueRec, hq, hc, Bool.false_eq_true, if_false]
  rw [if_neg hstate]

theorem loadQueueDeps_skip_tests
    (recurse : Heap → Nat → List Nat → List Nat → Option LoadQueueResult) (spec : Nat)
    (pre rest : List (PluginDependency × Nat)) (h : Heap) (queue circ : List Nat)
    (hpre : ∀ e ∈ pre, e.1.type = DependencyType.Test) :
    loadQueueDeps recurse spec (pre ++ rest) h queue circ
      = loadQueueDeps recurse spec rest h queue circ := by
  induction pre with
  | nil => rfl
  | cons e pre ih =>
    obtain ⟨key, dep⟩ := e
    have hk : key.type = DependencyType.Test := hpre (key, dep) (List.mem_cons_self _ _)
    have hrec := ih (fun e he => hpre e (List.mem_cons_of_mem _ he))
    simp only [List.cons_append, loadQueueDeps, if_pos hk]
    exact hrec

theorem loadQueueDeps_of_failed
    (recurse : Heap → Nat → List Nat → List Nat → Option LoadQueueResult) (spec : Nat)
    (key : PluginDependency) (dep : Nat) (rest : List (PluginDependency × Nat)) (h : Heap)
    (queue circ : List Nat) (r : LoadQueueResult)
    (hk : key.type ≠ DependencyType.Test) (hr : recurse h dep queue circ = some r)
    (hret : r.ret = false) :
    loadQueueDeps recurse spec ((key, dep) :: rest) h queue circ
      = some ⟨false, r.heap.setErrorString spec (dependencyFailedText (r.heap.deref dep)),
          r.queue, r.circularityCheckQueue⟩ := by
  simp only [loadQueueDeps, if_neg hk, hr, hret, Bool.false_eq_true, if_false]

/-- C22, as stated, fails: `B` is in state `Read`, in no queue and on no path. The recursive
`loadQueue` appends `B` to the queue and returns `false`, and `loadQueue()` leaves on `A`,
which is resolved and requires `B`, the text on the failed dependency. -/
theorem C22_counterexample :
    (dependentOfUnresolved.deref 1).state = PluginState.Read ∧
    (loadQueueRec 1 dependentOfUnresolved 1 [] []).map (fun r => (r.ret, r.queue))
      = some (false, [1]) ∧
    (loadQueue dependentOfUnresolved).map
        (fun r => (r.2, (r.1.deref 0).errorString, (r.1.deref 1).errorString))
      = some ([1],
          some "Cannot load plugin because dependency failed to load: B (1.0.0)\nReason: ",
          none) := by
  refine ⟨rfl, ?_, ?_⟩ <;> decide

/-- C22, amended: for a specification in state `Invalid` or `Read` that is neither in the
queue nor on the circularity check queue, the recursive `loadQueue` appends it to both, leaves
the specifications as they are and returns `false`. A specification `p` that is in neither
queue, in another state, and whose first dependency that is not of type Test is this one,
gets the text on the failed dependency and `false` is returned for it as well. Only when the
specification in state `Invalid` or `Read` is in the queue already does the call return
`true` and change nothing. -/
theorem C22_unresolved_spec_fails_dependent (fuel : Nat) (h : Heap) (spec : Nat)
    (queue circ : List Nat)
    (hstate : (h.deref spec).state = PluginState.Invalid ∨
      (h.deref spec).state = PluginState.Read) :
    (queue.contains spec = false → circ.contains spec = false →
      loadQueueRec (fuel + 1) h spec queue circ
        = some ⟨false, h, queue ++ [spec], circ ++ [spec]⟩ ∧
      ∀ (p : Nat) (key : PluginDependency) (pre rest : List (PluginDependency × Nat)),
        (h.deref p).state ≠ PluginState.Invalid → (h.deref p).state ≠ PluginState.Read →
        queue.contains p = false → circ.contains p = false →
        (h.deref p).dependencySpecifications = pre ++ (key, spec) :: rest →
        (∀ e ∈ pre, e.1.type = DependencyType.Test) → key.type ≠ DependencyType.Test →
        loadQueueRec (fuel + 2) h p queue circ
          = some ⟨false, h.setErrorString p (dependencyFailedText (h.deref spec)),
              queue ++ [spec], circ ++ [p] ++ [spec]⟩) ∧
    (queue.contains spec = true →
      loadQueueRec (fuel + 1) h spec queue circ = some ⟨true, h, queue, circ⟩) := by
  refine ⟨fun hq hc => ⟨loadQueueRec_of_unresolved fuel h spec queue circ hstate hq hc, ?_⟩,
    loadQueueRec_of_queued fuel h spec queue circ⟩
  intro p key pre rest hp1 hp2 hpq hpc hdeps hpre hkey
  have hne : spec ≠ p := by
    intro e
    rw [e] at hstate
    rcases hstate with hs | hs
    · exact hp1 hs
    · exact hp2 hs
  have hc' : (circ ++ [p]).contains spec = false := by
    cases hb : (circ ++ [p]).contains spec with
    | false => rfl
    | true =>
      have hmem : spec ∈ circ ++ [p] := by simpa using hb
      rcases List.mem_append.1 hmem with hm | hm
      · have : circ.contains spec = true := by simpa using hm
        rw [hc] at this
        exact absurd this Bool.false_ne_true
      · exact absurd (List.mem_singleton.1 hm) hne
  have hres : ¬ ((h.deref p).state = PluginState.Invalid ∨
      (h.deref p).state = PluginState.Read) := fun hs => hs.elim hp1 hp2
  rw [loadQueueRec_of_resolved (fuel + 1) h p queue circ hres hpq hpc, hdeps,
    loadQueueDeps_skip_tests _ p pre _ h queue _ hpre,
    loadQueueDeps_of_failed _ p key spec rest h queue _ _ hkey
      (loadQueueRec_of_unresolved fuel h spec queue (circ ++ [p]) hstate hq hc') rfl]

/-- C22, amended, at `A`, which requires `B` in state `Read`. -/
theorem C22_unresolved_spec_fails_dependent_witness :
    loadQueueRec 1 dependentOfUnresolved 1 [] []
      = some ⟨false, dependentOfUnresolved, [1], [1]⟩ ∧
    loadQueueRec 2 dependentOfUnresolved 0 [] []
      = some ⟨false,
          dependentOfUnresolved.setErrorString 0
            (dependencyFailedText (dependentOfUnresolved.deref 1)),
          [1], [0, 1]⟩ :=
  ⟨((C22_unresolved_spec_fails_dependent 0 dependentOfUnresolved 1 [] []
      (Or.inr rfl)).1 rfl rfl).1,
    ((C22_unresolved_spec_fails_dependent 0 dependentOfUnresolved 1 [] []
      (Or.inr rfl)).1 rfl rfl).2 0 (requiredOn "B") [] [] (by decide) (by decide) rfl rfl rfl
      (fun e he => absurd he (List.not_mem_nil e)) (by decide)⟩

namespace PluginManager

theorem loadPluginTransition_stopped (rt : Runtime) (m : PluginManager) (spec p : Nat)
    (hp : (m.m_pluginSpecifications.deref spec).m_plugin = some p) :
    loadPluginTransition rt m spec PluginState.Stopped =
      some { m with
        m_pluginSpecifications :=
          Heap.update
            (fun _ => { m.m_pluginSpecifications.deref spec with
              m_state := PluginState.Stopped })
            m.m_pluginSpecifications spec
        m_asynchronousPlugins :=
          if rt.aboutToShutdown p = PluginShutdownFlag.AsynchronousShutdown then
            (if m.m_asynchronousPlugins.contains spec then m.m_asynchronousPlugins
              else m.m_asynchronousPlugins ++ [spec])
          else m.m_asynchronousPlugins
        events := m.events ++ [Event.aboutToShutdown p] ++
          (if rt.aboutToShutdown p = PluginShutdownFlag.AsynchronousShutdown then
            [Event.connectAsynchronousShutdownFinished (some p)]
          else []) } := by
  unfold loadPluginTransition
  simp only []
  rw [PluginSpecification.stop_of_plugin rt _ p hp]
  by_cases ha : rt.aboutToShutdown p = PluginShutdownFlag.AsynchronousShutdown
  · simp only [if_pos ha]
    simp [call, PluginSpecification.plugin, hp]
  · simp only [if_neg ha]
    simp [call]

end PluginManager

/-- C23, as stated, fails: `B` is error-free, running, has a plugin instance and requires `A`,
which is running too. `loadPlugin(B, Stopped)` calls nothing, leaves `B` in state `Running`
and records on `B` the text on the failed dependency. -/
theorem C23_counterexample :
    (runningPair.deref 1).hasError = false ∧
    (runningPair.deref 1).state = PluginState.Running ∧
    (runningPair.deref 1).plugin = some 2 ∧
    (PluginManager.loadPlugin plainHost runtimeAsynchronous (managerOf runningPair) 1
        PluginState.Stopped).map (fun r =>
          ((r.m_pluginSpecifications.deref 1).state,
            (r.m_pluginSpecifications.deref 1).errorString, r.events,
            r.m_asynchronousPlugins))
      = some (PluginState.Running,
          some "Cannot load plugin because dependency failed to load: A(1.0.0)\nReason: ",
          [], []) := by
  refine ⟨rfl, rfl, rfl, ?_⟩
  decide

/-- C23, amended: the dependency check applies to the transition to `Stopped` as well. For
an error-free specification in state `Running` with a plugin instance: when every resolved
Required dependency is in state `Stopped`, `loadPlugin(spec, Stopped)` calls
`aboutToShutdown` exactly once, sets the state to `Stopped` and leaves no error, and the
specification is in the set of asynchronous plugins afterwards if and only if the call
returned `AsynchronousShutdown` or it was there before (the connection to
`asynchronousShutdownFinished` is made in the first case only); when some resolved Required
dependency is not in state `Stopped`, nothing is called, the state stays `Running`, the set
is unchanged and the specification gets the text on such a dependency. -/
theorem C23_stop_checks_dependencies (host : Host) (rt : Runtime) (m : PluginManager)
    (spec p : Nat) (hl : spec < m.m_pluginSpecifications.length)
    (herr : (m.m_pluginSpecifications.deref spec).hasError = false)
    (hstate : (m.m_pluginSpecifications.deref spec).state = PluginState.Running)
    (hp : (m.m_pluginSpecifications.deref spec).plugin = some p) :
    ((∀ key d, (key, d) ∈ (m.m_pluginSpecifications.deref spec).dependencySpecifications →
        key.type = DependencyType.Required →
        (m.m_pluginSpecifications.deref d).state = PluginState.Stopped) →
      ∃ after, PluginManager.loadPlugin host rt m spec PluginState.Stopped = some after ∧
        (after.m_pluginSpecifications.deref spec).state = PluginState.Stopped ∧
        (after.m_pluginSpecifications.deref spec).errorString = none ∧
        after.events
          = m.events ++ [Event.aboutToShutdown p] ++
            (if rt.aboutToShutdown p = PluginShutdownFlag.AsynchronousShutdown then
              [Event.connectAsynchronousShutdownFinished (some p)]
            else []) ∧
        (spec ∈ after.m_asynchronousPlugins ↔
          rt.aboutToShutdown p = PluginShutdownFlag.AsynchronousShutdown ∨
            spec ∈ m.m_asynchronousPlugins) ∧
        (∀ other, other ≠ spec →
          (other ∈ after.m_asynchronousPlugins ↔ other ∈ m.m_asynchronousPlugins))) ∧
    ((∃ key d, (key, d) ∈ (m.m_pluginSpecifications.deref spec).dependencySpecifications ∧
        key.type = DependencyType.Required ∧
        (m.m_pluginSpecifications.deref d).state ≠ PluginState.Stopped) →
      ∃ after, PluginManager.loadPlugin host rt m spec PluginState.Stopped = some after ∧
        (after.m_pluginSpecifications.deref spec).state = PluginState.Running ∧
        after.events = m.events ∧
        after.m_asynchronousPlugins = m.m_asynchronousPlugins ∧
        ∃ key d, (key, d) ∈ (m.m_pluginSpecifications.deref spec).dependencySpecifications ∧
          key.type = DependencyType.Required ∧
          (m.m_pluginSpecifications.deref d).state ≠ PluginState.Stopped ∧
          (after.m_pluginSpecifications.deref spec).errorString
            = some (PluginManager.dependencyNotLoadedText (m.m_pluginSpecifications.deref d)))
    := by
  have hprev : (m.m_pluginSpecifications.deref spec).state.toInt
      = PluginState.Stopped.toInt - 1 := by
    rw [hstate]
    rfl
  have hchecks := PluginManager.loadPlugin_of_checks host rt m spec PluginState.Stopped
    (Or.inr (Or.inr rfl)) herr hprev (fun h => absurd h (by decide))
  have hnoerr : (m.m_pluginSpecifications.deref spec).m_errorString = none := by
    cases he : (m.m_pluginSpecifications.deref spec).m_errorString with
    | none => rfl
    | some e =>
      have : (m.m_pluginSpecifications.deref spec).hasError = true := by
        show (m.m_pluginSpecifications.deref spec).m_errorString.isSome = true
        rw [he]
        rfl
      rw [herr] at this
      exact absurd this Bool.false_ne_true
  constructor
  · intro hall
    rw [PluginManager.failedDependency_eq_none _ _ _ hall] at hchecks
    refine ⟨_, hchecks.trans (PluginManager.loadPluginTransition_stopped rt m spec p hp),
      ?_, ?_, rfl, ?_, ?_⟩
    · show ((Heap.update _ m.m_pluginSpecifications spec).deref spec).state = _
      rw [Heap.deref_update_self _ _ _ hl]
      rfl
    · show ((Heap.update _ m.m_pluginSpecifications spec).deref spec).errorString = _
      rw [Heap.deref_update_self _ _ _ hl]
      exact hnoerr
    · show spec ∈ (if rt.aboutToShutdown p = PluginShutdownFlag.AsynchronousShutdown then
          (if m.m_asynchronousPlugins.contains spec then m.m_asynchronousPlugins
            else m.m_asynchronousPlugins ++ [spec])
        else m.m_asynchronousPlugins) ↔ _
      by_cases ha : rt.aboutToShutdown p = PluginShutdownFlag.AsynchronousShutdown
      · rw [if_pos ha]
        by_cases hc : m.m_asynchronousPlugins.contains spec = true
        · rw [if_pos hc]
          have : spec ∈ m.m_asynchronousPlugins := by simpa using hc
          exact ⟨fun _ => Or.inl ha, fun _ => this⟩
        · rw [if_neg hc]
          exact ⟨fun _ => Or.inl ha, fun _ =>
            List.mem_append_right _ (List.mem_singleton_self spec)⟩
      · rw [if_neg ha]
        exact ⟨fun h => Or.inr h, fun h => h.elim (fun h => absurd h ha) id⟩
    · intro other hne
      show other ∈ (if rt.aboutToShutdown p = PluginShutdownFlag.AsynchronousShutdown then
          (if m.m_asynchronousPlugins.contains spec then m.m_asynchronousPlugins
            else m.m_asynchronousPlugins ++ [spec])
        else m.m_asynchronousPlugins) ↔ _
      by_cases ha : rt.aboutToShutdown p = PluginShutdownFlag.AsynchronousShutdown
      · rw [if_pos ha]
        by_cases hc : m.m_asynchronousPlugins.contains spec = true
        · rw [if_pos hc]
        · rw [if_neg hc]
          constructor
          · intro h
            rcases List.mem_append.1 h with h | h
            · exact h
            · exact absurd (List.mem_singleton.1 h) hne
          · exact fun h => List.mem_append_left _ h
      · rw [if_neg ha]
  · intro hex
    obtain ⟨key, d, hmem, hreq, hne, hf⟩ :=
      PluginManager.failedDependency_eq_some _ PluginState.Stopped _ hex
    rw [hf] at hchecks
    refine ⟨_, hchecks, ?_, rfl, rfl, key, d, hmem, hreq, hne, ?_⟩
    · exact ((sameShape_setErrorString m.m_pluginSpecifications spec _).2 spec).1.trans hstate
    · exact Heap.errorString_setErrorString_self m.m_pluginSpecifications spec _ hl

theorem runningAfterStopped_dependencies (key : PluginDependency) (d : Nat)
    (hmem : (key, d) ∈
      ((managerOf runningAfterStopped).m_pluginSpecifications.deref
        1).dependencySpecifications) :
    ((managerOf runningAfterStopped).m_pluginSpecifications.deref d).state
      = PluginState.Stopped := by
  have hdeps : ((managerOf runningAfterStopped).m_pluginSpecifications.deref
      1).dependencySpecifications = [(requiredOn "A", 0)] := rfl
  rw [hdeps] at hmem
  have hd : d = 0 := (Prod.mk.inj (List.mem_singleton.1 hmem)).2
  rw [hd]
  rfl

/-- C23, amended, at `B`, whose plugin shuts down asynchronously and whose dependency `A` has
been stopped: `B` is stopped, `aboutToShutdown` is called once, and `B` is in the set of
asynchronous plugins. -/
theorem C23_stop_checks_dependencies_witness :
    ∃ after, PluginManager.loadPlugin plainHost runtimeAsynchronous
        (managerOf runningAfterStopped) 1 PluginState.Stopped = some after ∧
      (after.m_pluginSpecifications.deref 1).state = PluginState.Stopped ∧
      after.events
        = [Event.aboutToShutdown 2, Event.connectAsynchronousShutdownFinished (some 2)] ∧
      1 ∈ after.m_asynchronousPlugins := by
  obtain ⟨after, h, hs, _, he, ha, _⟩ :=
    (C23_stop_checks_dependencies plainHost runtimeAsynchronous (managerOf runningAfterStopped)
      1 2 (by decide) rfl rfl rfl).1
      (fun key d hmem _ => runningAfterStopped_dependencies key d hmem)
  exact ⟨after, h, hs, he, ha.2 (Or.inl rfl)⟩

/-- C24: for an error-free specification in state `Loaded` with a plugin instance,
`initializePlugin` calls `initialize` of the plugin exactly once, with the arguments that
`addArguments` has accumulated. When the call succeeds, `initializePlugin` returns `true`, the
state becomes `Initialized` and there is no error; when it fails with the text `e`,
`initializePlugin` returns `false`, the error text is `Plugin initialization failed: `
followed by `e`, and the state stays `Loaded`. For an error-free specification in state
`Initialized` it returns `true`, changes nothing and calls nothing. -/
theorem C24_initializePlugin (rt : Runtime) (s : PluginSpecification)
    (herr : s.hasError = false) :
    (∀ p, s.state = PluginState.Loaded → s.plugin = some p →
      (s.initializePlugin rt).events = [Event.callInitialize p s.arguments] ∧
      (∀ more, (s.addArguments more).arguments = s.arguments ++ more ∧
        ((s.addArguments more).initializePlugin rt).events
          = [Event.callInitialize p (s.arguments ++ more)]) ∧
      ((rt.callInitialize p s.arguments).1 = true →
        (s.initializePlugin rt).ret = true ∧
        (s.initializePlugin rt).spec.state = PluginState.Initialized ∧
        (s.initializePlugin rt).spec.errorString = none) ∧
      (∀ e, rt.callInitialize p s.arguments = (false, e) →
        (s.initializePlugin rt).ret = false ∧
        (s.initializePlugin rt).spec.errorString
          = some ("Plugin initialization failed: " ++ e) ∧
        (s.initializePlugin rt).spec.state = PluginState.Loaded)) ∧
    (s.state = PluginState.Initialized → s.initializePlugin rt = ⟨true, s, []⟩) := by
  have hnone : s.m_errorString = none := by
    cases he : s.m_errorString with
    | none => rfl
    | some e =>
      have : s.hasError = true := by
        show s.m_errorString.isSome = true
        rw [he]
        rfl
      rw [herr] at this
      exact absurd this Bool.false_ne_true
  have h0 : ¬ s.m_errorString.isSome = true := by
    rw [hnone]
    exact Bool.false_ne_true
  have hloaded : ∀ (t : PluginSpecification) (p : Nat), t.m_errorString = none →
      t.m_state = PluginState.Loaded → t.m_plugin = some p →
      t.initializePlugin rt =
        if !(rt.callInitialize p t.m_arguments).1 then
          ⟨false,
            t.setErrorString
              ("Plugin initialization failed: " ++ (rt.callInitialize p t.m_arguments).2),
            [Event.callInitialize p t.m_arguments]⟩
        else
          ⟨true, { t with m_state := PluginState.Initialized },
            [Event.callInitialize p t.m_arguments]⟩ := by
    intro t p ht hst hpl
    have ht0 : ¬ t.m_errorString.isSome = true := by
      rw [ht]
      exact Bool.false_ne_true
    have ht1 : ¬ t.m_state ≠ PluginState.Loaded := not_not.2 hst
    unfold PluginSpecification.initializePlugin
    rw [if_neg ht0, if_neg ht1, hpl]
  constructor
  · intro p hstate hp
    have hcall := hloaded s p hnone hstate hp
    refine ⟨?_, ?_, ?_, ?_⟩
    · rw [hcall]
      by_cases hi : (!(rt.callInitialize p s.m_arguments).1) = true
      · rw [if_pos hi]
        rfl
      · rw [if_neg hi]
        rfl
    · intro more
      refine ⟨rfl, ?_⟩
      rw [hloaded (s.addArguments more) p hnone hstate hp]
      by_cases hi : (!(rt.callInitialize p (s.addArguments more).m_arguments).1) = true
      · rw [if_pos hi]
        rfl
      · rw [if_neg hi]
        rfl
    · intro hok
      have hok' : (rt.callInitialize p s.m_arguments).1 = true := hok
      have hi : ¬ (!(rt.callInitialize p s.m_arguments).1) = true := by
        rw [hok']
        exact Bool.false_ne_true
      rw [hcall, if_neg hi]
      exact ⟨rfl, rfl, hnone⟩
    · intro e he
      have he' : rt.callInitialize p s.m_arguments = (false, e) := he
      have hi : (!(rt.callInitialize p s.m_arguments).1) = true := by
        rw [he']
        rfl
      rw [hcall, if_pos hi, he']
      exact ⟨rfl, rfl, hstate⟩
  · intro hstate
    have hst : s.m_state = PluginState.Initialized := hstate
    have h1 : s.m_state ≠ PluginState.Loaded := by
      rw [hst]
      decide
    unfold PluginSpecification.initializePlugin
    rw [if_neg h0, if_pos h1, if_pos hst]

/-- C24 at the loaded specification of `A`: with a plugin whose `initialize` succeeds the
state becomes `Initialized`, and with one whose `initialize` fails with the text `no` the
error text is `Plugin initialization failed: no` and the state stays `Loaded`. -/
theorem C24_initializePlugin_witness :
    (((loadedSpec "A" [] 1).initializePlugin baseRuntime).ret = true ∧
      ((loadedSpec "A" [] 1).initializePlugin baseRuntime).spec.state
        = PluginState.Initialized ∧
      ((loadedSpec "A" [] 1).initializePlugin baseRuntime).spec.errorString = none) ∧
    (((loadedSpec "A" [] 1).initializePlugin runtimeInitializeFails).ret = false ∧
      ((loadedSpec "A" [] 1).initializePlugin runtimeInitializeFails).spec.errorString
        = some ("Plugin initialization failed: " ++ "no") ∧
      ((loadedSpec "A" [] 1).initializePlugin runtimeInitializeFails).spec.state
        = PluginState.Loaded) :=
  ⟨((C24_initializePlugin baseRuntime (loadedSpec "A" [] 1) rfl).1 1 rfl rfl).2.2.1 rfl,
    ((C24_initializePlugin runtimeInitializeFails (loadedSpec "A" [] 1) rfl).1 1 rfl
      rfl).2.2.2 "no" rfl⟩

namespace PluginSpecification

theorem initializeExtensions_shape (s : PluginSpecification) :
    s.initializeExtensions.spec.m_state = s.m_state ∨
      s.initializeExtensions.spec.m_state = PluginState.Running := by
  unfold initializeExtensions
  split_ifs <;> (try split) <;> simp_all [setErrorString]

theorem kill_shape (s : PluginSpecification) :
    s.kill.spec.m_state = s.m_state ∨ s.kill.spec.m_state = PluginState.Deleted := by
  unfold kill
  split <;> simp_all

theorem stop_shape (rt : Runtime) (s : PluginSpecification) :
    (s.stop rt).spec.m_state = s.m_state ∨ (s.stop rt).spec.m_state = PluginState.Stopped := by
  unfold stop
  split <;> simp_all

theorem loadLibrary_progress (rt : Runtime) (s : PluginSpecification)
    (herr : s.m_errorString = none) (hstate : s.m_state = PluginState.Resolved)
    (o : Outcome Bool) (ho : s.loadLibrary rt = some o) :
    o.spec.m_state = PluginState.Loaded ∨ o.spec.m_errorString.isSome = true := by
  unfold loadLibrary at ho
  split_ifs at ho <;> (try split at ho) <;> (try split at ho) <;> (try split at ho) <;>
    simp_all [setErrorString] <;> subst ho <;> simp_all

theorem initializePlugin_progress (rt : Runtime) (s : PluginSpecification)
    (herr : s.m_errorString = none) (hstate : s.m_state = PluginState.Loaded) :
    (s.initializePlugin rt).spec.m_state = PluginState.Initialized ∨
      (s.initializePlugin rt).spec.m_errorString.isSome = true := by
  unfold initializePlugin
  split_ifs <;> (try split) <;> (try split) <;> simp_all [setErrorString]

end PluginSpecification

namespace PluginManager

theorem call_state_cases {α : Type} (m : PluginManager) (spec : Nat) (o : Outcome α)
    (d : PluginState)
    (ho : o.spec.m_state = (m.m_pluginSpecifications.deref spec).m_state ∨
      o.spec.m_state = d) :
    ((m.call spec o).m_pluginSpecifications.deref spec).m_state
        = (m.m_pluginSpecifications.deref spec).m_state ∨
      ((m.call spec o).m_pluginSpecifications.deref spec).m_state = d := by
  by_cases hl : spec < m.m_pluginSpecifications.length
  · have hr : (m.call spec o).m_pluginSpecifications.deref spec = o.spec :=
      Heap.deref_update_self _ _ _ hl
    rw [hr]
    exact ho
  · have hu : (m.call spec o).m_pluginSpecifications = m.m_pluginSpecifications :=
      Heap.update_of_length_le _ _ _ (Nat.le_of_not_lt hl)
    rw [hu]
    exact Or.inl rfl

theorem loadPlugin_state_cases (host : Host) (rt : Runtime) (m : PluginManager) (spec : Nat)
    (destState : PluginState) (after : PluginManager)
    (h : loadPlugin host rt m spec destState = some after) :
    (after.m_pluginSpecifications.deref spec).m_state
        = (m.m_pluginSpecifications.deref spec).m_state ∨
      (after.m_pluginSpecifications.deref spec).m_state = destState := by
  unfold loadPlugin at h
  by_cases h1 : ((m.m_pluginSpecifications.deref spec).hasError
      || decide ((m.m_pluginSpecifications.deref spec).state.toInt ≠ destState.toInt - 1))
      = true
  · simp only [if_pos h1] at h
    cases h
    exact Or.inl rfl
  · simp only [if_neg h1] at h
    by_cases h2 : (!(m.m_pluginSpecifications.deref spec).isEffectivelyEnabled host
        && decide (destState = PluginState.Loaded)) = true
    · simp only [if_pos h2] at h
      cases h
      exact Or.inl rfl
    · simp only [if_neg h2] at h
      have hset : ∀ text d,
          ((m.m_pluginSpecifications.setErrorString spec text).deref spec).m_state
              = (m.m_pluginSpecifications.deref spec).m_state ∨
            ((m.m_pluginSpecifications.setErrorString spec text).deref spec).m_state = d :=
        fun text _ => Or.inl ((sameShape_setErrorString m.m_pluginSpecifications spec text).2
          spec).1
      cases destState with
      | Running =>
        cases h
        exact call_state_cases m spec _ _
          (PluginSpecification.initializeExtensions_shape _)
      | Deleted =>
        cases h
        exact call_state_cases m spec _ _ (PluginSpecification.kill_shape _)
      | Stopped =>
        simp only [] at h
        cases hf : failedDependency m.m_pluginSpecifications PluginState.Stopped
            (m.m_pluginSpecifications.deref spec).dependencySpecifications with
        | some text =>
          rw [hf] at h
          cases h
          exact hset text _
        | none =>
          rw [hf] at h
          simp only [loadPluginTransition] at h
          by_cases h3 : ((m.m_pluginSpecifications.deref spec).stop rt).ret
              = PluginShutdownFlag.AsynchronousShutdown
          · simp only [if_pos h3] at h
            cases h
            exact call_state_cases m spec _ _ (PluginSpecification.stop_shape rt _)
          · simp only [if_neg h3] at h
            cases h
            exact call_state_cases m spec _ _ (PluginSpecification.stop_shape rt _)
      | Loaded =>
        simp only [] at h
        cases hf : failedDependency m.m_pluginSpecifications PluginState.Loaded
            (m.m_pluginSpecifications.deref spec).dependencySpecifications with
        | some text =>
          rw [hf] at h
          cases h
          exact hset text _
        | none =>
          rw [hf] at h
          simp only [loadPluginTransition, Option.map_eq_some'] at h
          obtain ⟨o, ho, rfl⟩ := h
          exact call_state_cases m spec _ _
            ((PluginSpecification.loadLibrary_shape rt _ o ho).2.elim Or.inl
              (fun h => Or.inr h.1))
      | Initialized =>
        simp only [] at h
        cases hf : failedDependency m.m_pluginSpecifications PluginState.Initialized
            (m.m_pluginSpecifications.deref spec).dependencySpecifications with
        | some text =>
          rw [hf] at h
          cases h
          exact hset text _
        | none =>
          rw [hf] at h
          cases h
          exact call_state_cases m spec _ _
            ((PluginSpecification.initializePlugin_shape rt _).2.elim Or.inl
              (fun h => Or.inr h.1))
      | Invalid =>
        simp only [] at h
        cases hf : failedDependency m.m_pluginSpecifications PluginState.Invalid
            (m.m_pluginSpecifications.deref spec).dependencySpecifications with
        | some text =>
          rw [hf] at h
          cases h
          exact hset text _
        | none =>
          rw [hf] at h
          cases h
          exact Or.inl rfl
      | Read =>
        simp only [] at h
        cases hf : failedDependency m.m_pluginSpecifications PluginState.Read
            (m.m_pluginSpecifications.deref spec).dependencySpecifications with
        | some text =>
          rw [hf] at h
          cases h
          exact hset text _
        | none =>
          rw [hf] at h
          cases h
          exact Or.inl rfl
      | Resolved =>
        simp only [] at h
        cases hf : failedDependency m.m_pluginSpecifications PluginState.Resolved
            (m.m_pluginSpecifications.deref spec).dependencySpecifications with
        | some text =>
          rw [hf] at h
          cases h
          exact hset text _
        | none =>
          rw [hf] at h
          cases h
          exact Or.inl rfl

theorem loadPlugin_error_when_stuck (host : Host) (rt : Runtime) (m : PluginManager)
    (spec : Nat) (destState : PluginState) (after : PluginManager)
    (hafter : loadPlugin host rt m spec destState = some after)
    (hdest : destState = PluginState.Loaded ∨ destState = PluginState.Initialized)
    (herr : (m.m_pluginSpecifications.deref spec).hasError = false)
    (hstate : (m.m_pluginSpecifications.deref spec).state.toInt = destState.toInt - 1)
    (henabled : destState = PluginState.Loaded →
      (m.m_pluginSpecifications.deref spec).isEffectivelyEnabled host = true)
    (hstuck : (after.m_pluginSpecifications.deref spec).state
      = (m.m_pluginSpecifications.deref spec).state) :
    (after.m_pluginSpecifications.deref spec).hasError = true := by
  have hl : spec < m.m_pluginSpecifications.length := by
    by_contra hn
    rw [Heap.deref_of_length_le _ _ (Nat.le_of_not_lt hn)] at hstate
    rcases hdest with hd | hd <;> rw [hd] at hstate <;> exact absurd hstate (by decide)
  have hnone : (m.m_pluginSpecifications.deref spec).m_errorString = none := by
    cases he : (m.m_pluginSpecifications.deref spec).m_errorString with
    | none => rfl
    | some e =>
      have : (m.m_pluginSpecifications.deref spec).hasError = true := by
        show (m.m_pluginSpecifications.deref spec).m_errorString.isSome = true
        rw [he]
        rfl
      rw [herr] at this
      exact absurd this Bool.false_ne_true
  have hchecks := loadPlugin_of_checks host rt m spec destState
    (hdest.elim Or.inl (fun h => Or.inr (Or.inl h))) herr hstate henabled
  rw [hchecks] at hafter
  have key : ∀ o : Outcome Bool, ∀ d : PluginState,
      (m.m_pluginSpecifications.deref spec).m_state ≠ d →
      (o.spec.m_state = d ∨ o.spec.m_errorString.isSome = true) →
      ((m.call spec o).m_pluginSpecifications.deref spec).state
        = (m.m_pluginSpecifications.deref spec).state →
      ((m.call spec o).m_pluginSpecifications.deref spec).hasError = true := by
    intro o d hne ho hst
    have hr : (m.call spec o).m_pluginSpecifications.deref spec = o.spec :=
      Heap.deref_update_self _ _ _ hl
    rw [hr] at hst ⊢
    rcases ho with h | h
    · have hst' : o.spec.m_state = (m.m_pluginSpecifications.deref spec).m_state := hst
      rw [h] at hst'
      exact absurd hst'.symm hne
    · exact h
  cases hf : failedDependency m.m_pluginSpecifications destState
      (m.m_pluginSpecifications.deref spec).dependencySpecifications with
  | some text =>
    rw [hf] at hafter
    cases hafter
    show ((m.m_pluginSpecifications.setErrorString spec text).deref spec).m_errorString.isSome
      = true
    rw [Heap.errorString_setErrorString_self _ _ _ hl]
    rfl
  | none =>
    rw [hf] at hafter
    rcases hdest with hd | hd
    · subst hd
      have hres : (m.m_pluginSpecifications.deref spec).m_state = PluginState.Resolved := by
        have h3 : (m.m_pluginSpecifications.deref spec).m_state.toInt = 2 := hstate
        cases hs : (m.m_pluginSpecifications.deref spec).m_state <;> rw [hs] at h3 <;>
          first | rfl | exact absurd h3 (by decide)
      simp only [loadPluginTransition, Option.map_eq_some'] at hafter
      obtain ⟨o, ho, rfl⟩ := hafter
      exact key o PluginState.Loaded (by rw [hres]; decide)
        (PluginSpecification.loadLibrary_progress rt _ hnone hres o ho) hstuck
    · subst hd
      have hres : (m.m_pluginSpecifications.deref spec).m_state = PluginState.Loaded := by
        have h3 : (m.m_pluginSpecifications.deref spec).m_state.toInt = 3 := hstate
        cases hs : (m.m_pluginSpecifications.deref spec).m_state <;> rw [hs] at h3 <;>
          first | rfl | exact absurd h3 (by decide)
      cases hafter
      exact key _ PluginState.Initialized (by rw [hres]; decide)
        (PluginSpecification.initializePlugin_progress rt _ hnone hres) hstuck

end PluginManager
/-- C26: `loadPlugin(spec, destState)` returns for every specification and every destination
state, but for the one call in which `loadLibrary` is reached (destination `Loaded`, no
error, state `Resolved`, effectively enabled, no failed dependency) with neither a loader nor
a static plugin, where the code dereferences an empty optional. After every call that
returns, the state of the specification is what it was or it is `destState`, and when it has
changed the earlier state was the one just before `destState`; no other specification has
changed. When a transition to `Loaded` or `Initialized` got past the checks at the top of
`loadPlugin` (no error, the state just before the destination, effectively enabled for
`Loaded`) and the state is what it was, the specification has an error afterwards. -/
theorem C26_loadPlugin_never_skips (host : Host) (rt : Runtime) (m : PluginManager)
    (spec : Nat) (destState : PluginState) :
    (PluginManager.loadPlugin host rt m spec destState = none ↔
      destState = PluginState.Loaded ∧
      (m.m_pluginSpecifications.deref spec).hasError = false ∧
      (m.m_pluginSpecifications.deref spec).state = PluginState.Resolved ∧
      (m.m_pluginSpecifications.deref spec).isEffectivelyEnabled host = true ∧
      PluginManager.failedDependency m.m_pluginSpecifications PluginState.Loaded
        (m.m_pluginSpecifications.deref spec).dependencySpecifications = none ∧
      (m.m_pluginSpecifications.deref spec).m_loader = none ∧
      (m.m_pluginSpecifications.deref spec).m_staticPlugin = none) ∧
    ∀ after, PluginManager.loadPlugin host rt m spec destState = some after →
      ((after.m_pluginSpecifications.deref spec).state
          = (m.m_pluginSpecifications.deref spec).state ∨
        ((after.m_pluginSpecifications.deref spec).state = destState ∧
          (m.m_pluginSpecifications.deref spec).state.toInt = destState.toInt - 1)) ∧
      (∀ other, other ≠ spec →
        after.m_pluginSpecifications.deref other = m.m_pluginSpecifications.deref other) ∧
      (destState = PluginState.Loaded ∨ destState = PluginState.Initialized →
        (m.m_pluginSpecifications.deref spec).hasError = false →
        (m.m_pluginSpecifications.deref spec).state.toInt = destState.toInt - 1 →
        (destState = PluginState.Loaded →
          (m.m_pluginSpecifications.deref spec).isEffectivelyEnabled host = true) →
        (after.m_pluginSpecifications.deref spec).state
          = (m.m_pluginSpecifications.deref spec).state →
        (after.m_pluginSpecifications.deref spec).hasError = true) := by
  refine ⟨PluginManager.loadPlugin_eq_none_iff host rt m spec destState,
    fun after hafter => ⟨?_, fun other hne =>
      PluginManager.loadPlugin_deref_of_ne host rt m spec destState other hne after hafter,
      PluginManager.loadPlugin_error_when_stuck host rt m spec destState after hafter⟩⟩
  by_cases hprev : (m.m_pluginSpecifications.deref spec).state.toInt = destState.toInt - 1
  · rcases PluginManager.loadPlugin_state_cases host rt m spec destState after hafter with
      h | h
    · exact Or.inl h
    · exact Or.inr ⟨h, hprev⟩
  · rw [PluginManager.loadPlugin_of_skip host rt m spec destState (Or.inr (Or.inl hprev))]
      at hafter
    cases hafter
    exact Or.inl rfl

/-- C26 at `B`, which requires `A` whose load has failed: the transition of `B` to `Loaded`
gets past the checks at the top and returns, the state of `B` stays `Resolved`, and `B` has
an error. -/
theorem C26_loadPlugin_never_skips_witness :
    ∃ after, PluginManager.loadPlugin plainHost runtimeLoadOfAFails pairAfterFailedLoad 1
        PluginState.Loaded = some after ∧
      (after.m_pluginSpecifications.deref 1).state = PluginState.Resolved ∧
      (after.m_pluginSpecifications.deref 1).hasError = true := by
  obtain ⟨after, hr⟩ := Option.isSome_iff_exists.1
    (by decide : (PluginManager.loadPlugin plainHost runtimeLoadOfAFails pairAfterFailedLoad 1
      PluginState.Loaded).isSome = true)
  have hs : (after.m_pluginSpecifications.deref 1).state = PluginState.Resolved :=
    value_of_map (fun r : PluginManager => (r.m_pluginSpecifications.deref 1).state)
      _ after _ hr (by decide)
  exact ⟨after, hr, hs,
    ((C26_loadPlugin_never_skips plainHost runtimeLoadOfAFails pairAfterFailedLoad 1
      PluginState.Loaded).2 after hr).2.2 (Or.inl rfl) rfl rfl (fun _ => rfl) hs⟩

theorem Heap.deref_withoutTestDependencies (h : Heap) (i : Nat) :
    h.withoutTestDependencies.deref i = (h.deref i).withoutTestDependencies := by
  unfold Heap.withoutTestDependencies Heap.deref
  rw [List.getD_eq_getElem?_getD, List.getD_eq_getElem?_getD, List.getElem?_map]
  cases h[i]? <;> rfl

theorem Heap.withoutTestDependencies_update (f g : PluginSpecification → PluginSpecification)
    (hfg : ∀ s, (f s).withoutTestDependencies = g s.withoutTestDependencies)
    (h : Heap) (i : Nat) :
    (Heap.update f h i).withoutTestDependencies
      = Heap.update g h.withoutTestDependencies i := by
  induction h generalizing i with
  | nil => rfl
  | cons s rest ih =>
    cases i with
    | zero =>
      simp only [Heap.update, Heap.withoutTestDependencies, List.map_cons, hfg]
    | succ i =>
      have := ih i
      simp only [Heap.withoutTestDependencies] at this
      simp only [Heap.update, Heap.withoutTestDependencies, List.map_cons, this]

theorem Heap.withoutTestDependencies_setErrorString (h : Heap) (i : Nat) (text : String) :
    (h.setErrorString i text).withoutTestDependencies
      = h.withoutTestDependencies.setErrorString i text :=
  Heap.withoutTestDependencies_update (fun s => s.setErrorString text)
    (fun s => s.setErrorString text) (fun _ => rfl) h i

theorem Heap.length_withoutTestDependencies (h : Heap) :
    h.withoutTestDependencies.length = h.length := by
  unfold Heap.withoutTestDependencies
  exact List.length_map _ _

theorem circularDependencyText_withoutTestDependencies (h : Heap) (spec : Nat)
    (circ : List Nat) :
    circularDependencyText h.withoutTestDependencies spec circ
      = circularDependencyText h spec circ := by
  unfold circularDependencyText
  simp only [Heap.deref_withoutTestDependencies]
  rfl

theorem dependencyFailedText_withoutTestDependencies (s : PluginSpecification) :
    dependencyFailedText s.withoutTestDependencies = dependencyFailedText s := rfl

theorem loadQueueDeps_withoutTestDependencies
    (recurse recurse' : Heap → Nat → List Nat → List Nat → Option LoadQueueResult)
    (hrec : ∀ h d q c, recurse' h.withoutTestDependencies d q c
      = (recurse h d q c).map LoadQueueResult.withoutTestDependencies)
    (spec : Nat) (deps : List (PluginDependency × Nat)) (h : Heap) (queue circ : List Nat) :
    loadQueueDeps recurse' spec (deps.filter (fun e => e.1.type ≠ DependencyType.Test))
        h.withoutTestDependencies queue circ
      = (loadQueueDeps recurse spec deps h queue circ).map
          LoadQueueResult.withoutTestDependencies := by
  induction deps generalizing h queue circ with
  | nil => rfl
  | cons e rest ih =>
    obtain ⟨key, dep⟩ := e
    by_cases hk : key.type = DependencyType.Test
    · have hf : ((key, dep) :: rest).filter (fun e => e.1.type ≠ DependencyType.Test)
          = rest.filter (fun e => e.1.type ≠ DependencyType.Test) := by
        simp [List.filter_cons, hk]
      rw [hf]
      simp only [loadQueueDeps, if_pos hk]
      exact ih h queue circ
    · have hf : ((key, dep) :: rest).filter (fun e => e.1.type ≠ DependencyType.Test)
          = (key, dep) :: rest.filter (fun e => e.1.type ≠ DependencyType.Test) := by
        simp [List.filter_cons, hk]
      rw [hf]
      simp only [loadQueueDeps, if_neg hk, hrec]
      cases hr : recurse h dep queue circ with
      | none => rfl
      | some r =>
        simp only [Option.map_some']
        by_cases hret : r.ret = true
        · have hret' : r.withoutTestDependencies.ret = true := hret
          simp only [hret, hret', if_true]
          exact ih r.heap r.queue r.circularityCheckQueue
        · have hret' : ¬ r.withoutTestDependencies.ret = true := hret
          simp only [if_neg hret, if_neg hret', Option.map_some']
          show some (LoadQueueResult.mk false
              (r.heap.withoutTestDependencies.setErrorString spec
                (dependencyFailedText (r.heap.withoutTestDependencies.deref dep)))
              r.queue r.circularityCheckQueue) = _
          rw [Heap.deref_withoutTestDependencies, dependencyFailedText_withoutTestDependencies,
            ← Heap.withoutTestDependencies_setErrorString]
          rfl

theorem loadQueueRec_withoutTestDependencies (fuel : Nat) (h : Heap) (spec : Nat)
    (queue circ : List Nat) :
    loadQueueRec fuel h.withoutTestDependencies spec queue circ
      = (loadQueueRec fuel h spec queue circ).map LoadQueueResult.withoutTestDependencies := by
  induction fuel generalizing h spec queue circ with
  | zero => rfl
  | succ fuel ih =>
    by_cases hq : queue.contains spec = true
    · simp only [loadQueueRec, hq, if_true, Option.map_some']
      rfl
    · by_cases hc : circ.contains spec = true
      · simp only [loadQueueRec, if_neg hq, hc, if_true, Option.map_some']
        rw [circularDependencyText_withoutTestDependencies,
          ← Heap.withoutTestDependencies_setErrorString]
        rfl
      · have hstate : (h.withoutTestDependencies.deref spec).state = (h.deref spec).state := by
          rw [Heap.deref_withoutTestDependencies]
          rfl
        have hdeps : (h.withoutTestDependencies.deref spec).dependencySpecifications
            = (h.deref spec).dependencySpecifications.filter
                (fun e => e.1.type ≠ DependencyType.Test) := by
          rw [Heap.deref_withoutTestDependencies]
          rfl
        by_cases hs : (h.deref spec).state = PluginState.Invalid ∨
            (h.deref spec).state = PluginState.Read
        · simp only [loadQueueRec, if_neg hq, if_neg hc, hstate, if_pos hs, Option.map_some']
          rfl
        · simp only [loadQueueRec, if_neg hq, if_neg hc, hstate, if_neg hs, hdeps]
          exact loadQueueDeps_withoutTestDependencies (loadQueueRec fuel) (loadQueueRec fuel)
            (fun h d q c => ih h d q c) spec _ h queue _

theorem loadQueueLoop_withoutTestDependencies (fuel : Nat) (specs : List Nat) (h : Heap)
    (queue : List Nat) :
    loadQueueLoop fuel specs h.withoutTestDependencies queue
      = (loadQueueLoop fuel specs h queue).map (fun r => (r.1.withoutTestDependencies, r.2)) := by
  induction specs generalizing h queue with
  | nil => rfl
  | cons spec rest ih =>
    simp only [loadQueueLoop, loadQueueRec_withoutTestDependencies]
    cases loadQueueRec fuel h spec queue [] with
    | none => rfl
    | some r => exact ih r.heap r.queue

theorem loadQueueWith_withoutTestDependencies (fuel : Nat) (h : Heap) :
    loadQueueWith fuel h.withoutTestDependencies
      = (loadQueueWith fuel h).map (fun r => (r.1.withoutTestDependencies, r.2)) := by
  unfold loadQueueWith
  rw [Heap.length_withoutTestDependencies]
  exact loadQueueLoop_withoutTestDependencies fuel _ h []

/-- C25: for every set of specifications, `loadQueue()` returns the same queue and leaves the
same error texts as it does after every entry of type Test has been deleted from the resolved
dependencies of every specification (the specifications it leaves differ in those entries
only), with every recursion bound; and for `A` requiring `B` with `B` depending on `A` by a
dependency of type Test, the queue is `B`, `A` and no error is recorded. -/
theorem C25_test_dependencies_excluded (h : Heap) :
    (loadQueue h.withoutTestDependencies).map (fun r => (r.2, r.1.map (fun s => s.errorString)))
      = (loadQueue h).map (fun r => (r.2, r.1.map (fun s => s.errorString))) ∧
    (∀ fuel, loadQueueWith fuel h.withoutTestDependencies
      = (loadQueueWith fuel h).map (fun r => (r.1.withoutTestDependencies, r.2))) ∧
    (loadQueue cycleThroughTest).map (fun r => (r.2, r.1.map (fun s => s.errorString)))
      = some ([1, 0], [none, none]) := by
  refine ⟨?_, fun fuel => loadQueueWith_withoutTestDependencies fuel h, by decide⟩
  unfold loadQueue
  rw [Heap.length_withoutTestDependencies, loadQueueWith_withoutTestDependencies]
  cases loadQueueWith (h.length + 1) h with
  | none => rfl
  | some r =>
    simp only [Option.map_some', Heap.withoutTestDependencies, List.map_map]
    rfl

theorem contains_eq_false_iff_not_mem {l : List Nat} {x : Nat} :
    l.contains x = false ↔ x ∉ l := by
  simp

theorem loadQueueDeps_total (g : Heap) (fuel : Nat)
    (ih : ∀ (h : Heap) (spec : Nat) (queue circ : List Nat), SameShape g h → queue.Nodup →
      circ.Nodup → (∀ x ∈ circ, x < g.length) → g.length + 1 ≤ fuel + circ.length →
      ∃ r, loadQueueRec fuel h spec queue circ = some r ∧
        LoadQueueTotal g queue circ (WellFormed g ∧ spec < g.length) r)
    (spec : Nat) (outer : List Nat) (hspec : spec ∉ outer)
    (deps : List (PluginDependency × Nat)) :
    ∀ (h : Heap) (queue circ : List Nat), SameShape g h → queue.Nodup → circ.Nodup →
      (∀ x ∈ circ, x < g.length) → g.length + 1 ≤ fuel + circ.length →
      spec ∈ circ → spec ∉ queue → (∀ x ∈ outer, x ∈ circ) →
      ∃ r, loadQueueDeps (loadQueueRec fuel) spec deps h queue circ = some r ∧
        SameShape g r.heap ∧ r.queue.Nodup ∧ (∀ x ∈ r.queue, x ∈ queue ∨ x ∉ outer) ∧
        (∃ l, r.circularityCheckQueue = circ ++ l) ∧ r.circularityCheckQueue.Nodup ∧
        (r.ret = true → ∀ x ∈ r.circularityCheckQueue, x < g.length) ∧
        ((WellFormed g ∧ ∀ e ∈ deps, e.2 < g.length) →
          ∀ x ∈ r.circularityCheckQueue, x < g.length) := by
  induction deps with
  | nil =>
    intro h queue circ hshape hq hc hb _ _ hsq _
    refine ⟨⟨true, h, queue ++ [spec], circ⟩, rfl, hshape, ?_, ?_, ⟨[], by simp⟩, hc,
      fun _ => hb, fun _ => hb⟩
    · exact List.Nodup.append hq (List.nodup_singleton spec)
        (by
          intro a ha hb'
          rw [List.mem_singleton] at hb'
          exact hsq (hb' ▸ ha))
    · intro x hx
      rcases List.mem_append.1 hx with hx | hx
      · exact Or.inl hx
      · rw [List.mem_singleton] at hx
        exact Or.inr (hx ▸ hspec)
  | cons e rest ihd =>
    obtain ⟨key, dep⟩ := e
    intro h queue circ hshape hq hc hb hfuel hsc hsq hout
    by_cases hk : key.type = DependencyType.Test
    · obtain ⟨r, hr, h1, h2, h3, h4, h5, h6, h7⟩ :=
        ihd h queue circ hshape hq hc hb hfuel hsc hsq hout
      refine ⟨r, ?_, h1, h2, h3, h4, h5, h6, fun hv => h7 ⟨hv.1, fun e he =>
        hv.2 e (List.mem_cons_of_mem _ he)⟩⟩
      simp only [loadQueueDeps, if_pos hk]
      exact hr
    · obtain ⟨r1, hr1, t1⟩ := ih h dep queue circ hshape hq hc hb hfuel
      obtain ⟨l1, hl1⟩ := t1.path_prefix
      by_cases hret : r1.ret = true
      · have hb1 := t1.bounded hret
        have hfuel1 : g.length + 1 ≤ fuel + r1.circularityCheckQueue.length := by
          rw [hl1, List.length_append]
          omega
        have hsc1 : spec ∈ r1.circularityCheckQueue := by
          rw [hl1]
          exact List.mem_append_left _ hsc
        have hsq1 : spec ∉ r1.queue := by
          intro hx
          rcases t1.fresh spec hx with hx | hx
          · exact hsq hx
          · exact hx hsc
        have hout1 : ∀ x ∈ outer, x ∈ r1.circularityCheckQueue := by
          intro x hx
          rw [hl1]
          exact List.mem_append_left _ (hout x hx)
        obtain ⟨r, hr, h1, h2, h3, ⟨l2, hl2⟩, h5, h6, h7⟩ :=
          ihd r1.heap r1.queue r1.circularityCheckQueue t1.shape t1.nodup t1.path_nodup hb1
            hfuel1 hsc1 hsq1 hout1
        refine ⟨r, ?_, h1, h2, ?_, ⟨l1 ++ l2, by rw [hl2, hl1, List.append_assoc]⟩, h5, h6,
          fun hv => h7 ⟨hv.1, fun e he => hv.2 e (List.mem_cons_of_mem _ he)⟩⟩
        · simp only [loadQueueDeps, if_neg hk, hr1, hret, if_true]
          exact hr
        · intro x hx
          rcases h3 x hx with hx | hx
          · rcases t1.fresh x hx with hx | hx
            · exact Or.inl hx
            · exact Or.inr (fun ho => hx (hout x ho))
          · exact Or.inr hx
      · refine ⟨⟨false, r1.heap.setErrorString spec (dependencyFailedText (r1.heap.deref dep)),
          r1.queue, r1.circularityCheckQueue⟩, ?_, ?_, t1.nodup, ?_, ⟨l1, hl1⟩, t1.path_nodup,
          fun hf => absurd hf Bool.false_ne_true, ?_⟩
        · simp only [loadQueueDeps, if_neg hk, hr1, if_neg hret]
        · exact SameShape.then t1.shape (sameShape_setErrorString _ _ _)
        · intro x hx
          rcases t1.fresh x hx with hx | hx
          · exact Or.inl hx
          · exact Or.inr (fun ho => hx (hout x ho))
        · intro hv
          exact t1.bounded_of_valid ⟨hv.1, hv.2 (key, dep) (List.mem_cons_self _ _)⟩

theorem loadQueueRec_total (g : Heap) :
    ∀ (fuel : Nat) (h : Heap) (spec : Nat) (queue circ : List Nat), SameShape g h →
      queue.Nodup → circ.Nodup → (∀ x ∈ circ, x < g.length) →
      g.length + 1 ≤ fuel + circ.length →
      ∃ r, loadQueueRec fuel h spec queue circ = some r ∧
        LoadQueueTotal g queue circ (WellFormed g ∧ spec < g.length) r := by
  intro fuel
  induction fuel with
  | zero =>
    intro h spec queue circ _ _ hc hb hfuel
    have := length_le_of_nodup_of_lt hc hb
    omega
  | succ fuel ih =>
    intro h spec queue circ hshape hq hc hb hfuel
    by_cases hqs : queue.contains spec = true
    · refine ⟨⟨true, h, queue, circ⟩, by simp only [loadQueueRec, hqs, if_true], ?_⟩
      exact ⟨hshape, hq, fun x hx => Or.inl hx, ⟨[], by simp⟩, hc, fun _ => hb, fun _ => hb⟩
    have hsq : spec ∉ queue := fun hx => hqs (by simpa using hx)
    by_cases hcs : circ.contains spec = true
    · refine ⟨⟨false, h.setErrorString spec (circularDependencyText h spec circ), queue, circ⟩,
        by simp only [loadQueueRec, if_neg hqs, hcs, if_true], ?_⟩
      exact ⟨SameShape.then hshape (sameShape_setErrorString _ _ _), hq,
        fun x hx => Or.inl hx, ⟨[], by simp⟩, hc, fun hf => absurd hf Bool.false_ne_true,
        fun _ => hb⟩
    have hsc : spec ∉ circ := fun hx => hcs (by simpa using hx)
    have hc' : (circ ++ [spec]).Nodup :=
      List.Nodup.append hc (List.nodup_singleton spec)
        (by
          intro a ha hb'
          rw [List.mem_singleton] at hb'
          exact hsc (hb' ▸ ha))
    by_cases hs : (h.deref spec).state = PluginState.Invalid ∨
        (h.deref spec).state = PluginState.Read
    · refine ⟨⟨false, h, queue ++ [spec], circ ++ [spec]⟩, ?_, ?_⟩
      · simp only [loadQueueRec, if_neg hqs, if_neg hcs]
        rw [if_pos hs]
      · refine ⟨hshape, ?_, ?_, ⟨[spec], rfl⟩, hc', fun hf => absurd hf Bool.false_ne_true,
          ?_⟩
        · exact List.Nodup.append hq (List.nodup_singleton spec)
            (by
              intro a ha hb'
              rw [List.mem_singleton] at hb'
              exact hsq (hb' ▸ ha))
        · intro x hx
          rcases List.mem_append.1 hx with hx | hx
          · exact Or.inl hx
          · rw [List.mem_singleton] at hx
            exact Or.inr (hx ▸ hsc)
        · intro hv x hx
          rcases List.mem_append.1 hx with hx | hx
          · exact hb x hx
          · rw [List.mem_singleton] at hx
            exact hx ▸ hv.2
    · have hsl : spec < g.length := by
        by_contra hn
        apply hs
        left
        rw [Heap.deref_of_length_le h spec (hshape.1 ▸ Nat.le_of_not_lt hn)]
        rfl
      have hb' : ∀ x ∈ circ ++ [spec], x < g.length := by
        intro x hx
        rcases List.mem_append.1 hx with hx | hx
        · exact hb x hx
        · rw [List.mem_singleton] at hx
          exact hx ▸ hsl
      have hfuel' : g.length + 1 ≤ fuel + (circ ++ [spec]).length := by
        rw [List.length_append, List.length_singleton]
        omega
      obtain ⟨r, hr, h1, h2, h3, ⟨l, hl⟩, h5, h6, h7⟩ :=
        loadQueueDeps_total g fuel ih spec circ hsc
          (h.deref spec).dependencySpecifications h queue (circ ++ [spec]) hshape hq hc' hb'
          hfuel' (List.mem_append_right _ (List.mem_singleton_self spec)) hsq
          (fun x hx => List.mem_append_left _ hx)
      refine ⟨r, ?_, ?_⟩
      · simp only [loadQueueRec, if_neg hqs, if_neg hcs]
        rw [if_neg hs]
        exact hr
      · refine ⟨h1, h2, h3, ⟨[spec] ++ l, by rw [hl, List.append_assoc]⟩, h5, h6, ?_⟩
        intro hv
        apply h7
        refine ⟨hv.1, fun e he => ?_⟩
        have hdeps : (h.deref spec).dependencySpecifications
            = (g.deref spec).dependencySpecifications := (hshape.2 spec).2.1
        rw [hdeps] at he
        exact hv.1 spec hv.2 e he

theorem loadQueueLoop_total (g : Heap) (fuel : Nat) (hfuel : g.length + 1 ≤ fuel)
    (specs : List Nat) :
    ∀ (h : Heap) (queue : List Nat), SameShape g h → queue.Nodup →
      ∃ h' queue', loadQueueLoop fuel specs h queue = some (h', queue') ∧ SameShape g h' ∧
        queue'.Nodup := by
  induction specs with
  | nil =>
    intro h queue hshape hq
    exact ⟨h, queue, rfl, hshape, hq⟩
  | cons spec rest ih =>
    intro h queue hshape hq
    obtain ⟨r, hr, t⟩ := loadQueueRec_total g fuel h spec queue [] hshape hq List.nodup_nil
      (fun x hx => absurd hx (List.not_mem_nil x)) (by simpa using hfuel)
    obtain ⟨h', queue', hl, hs', hq'⟩ := ih r.heap r.queue t.shape t.nodup
    refine ⟨h', queue', ?_, hs', hq'⟩
    simp only [loadQueueLoop, hr]
    exact hl

theorem loadQueueWith_total (h : Heap) (fuel : Nat) (hfuel : h.length + 1 ≤ fuel) :
    ∃ h' queue, loadQueueWith fuel h = some (h', queue) ∧ SameShape h h' ∧ queue.Nodup :=
  loadQueueLoop_total h fuel hfuel (List.range h.length) h [] (sameShape_refl h) List.nodup_nil

theorem loadQueueDeps_mono
    (rec1 rec2 : Heap → Nat → List Nat → List Nat → Option LoadQueueResult)
    (hmono : ∀ h d q c r, rec1 h d q c = some r → rec2 h d q c = some r)
    (spec : Nat) (deps : List (PluginDependency × Nat)) :
    ∀ (h : Heap) (queue circ : List Nat) (r : LoadQueueResult),
      loadQueueDeps rec1 spec deps h queue circ = some r →
      loadQueueDeps rec2 spec deps h queue circ = some r := by
  induction deps with
  | nil =>
    intro h queue circ r hr
    exact hr
  | cons e rest ih =>
    obtain ⟨key, dep⟩ := e
    intro h queue circ r hr
    by_cases hk : key.type = DependencyType.Test
    · simp only [loadQueueDeps, if_pos hk] at hr ⊢
      exact ih h queue circ r hr
    · simp only [loadQueueDeps, if_neg hk] at hr ⊢
      cases h1 : rec1 h dep queue circ with
      | none =>
        rw [h1] at hr
        exact absurd hr (by simp)
      | some r1 =>
        rw [h1] at hr
        rw [hmono h dep queue circ r1 h1]
        by_cases hret : r1.ret = true
        · simp only [hret, if_true] at hr ⊢
          exact ih _ _ _ r hr
        · simp only [if_neg hret] at hr ⊢
          exact hr

theorem loadQueueRec_mono (fuel : Nat) :
    ∀ (h : Heap) (spec : Nat) (queue circ : List Nat) (r : LoadQueueResult),
      loadQueueRec fuel h spec queue circ = some r →
      loadQueueRec (fuel + 1) h spec queue circ = some r := by
  induction fuel with
  | zero =>
    intro h spec queue circ r hr
    exact absurd hr (by simp [loadQueueRec])
  | succ fuel ih =>
    intro h spec queue circ r hr
    by_cases hqs : queue.contains spec = true
    · simp only [loadQueueRec, hqs, if_true] at hr ⊢
      exact hr
    by_cases hcs : circ.contains spec = true
    · simp only [loadQueueRec, if_neg hqs, hcs, if_true] at hr ⊢
      exact hr
    by_cases hs : (h.deref spec).state = PluginState.Invalid ∨
        (h.deref spec).state = PluginState.Read
    · rw [loadQueueRec_of_unresolved _ h spec queue circ hs (by simpa using hqs)
        (by simpa using hcs)] at hr ⊢
      exact hr
    · rw [loadQueueRec_of_resolved _ h spec queue circ hs (by simpa using hqs)
        (by simpa using hcs)] at hr ⊢
      exact loadQueueDeps_mono _ _ ih spec _ h queue _ r hr

theorem loadQueueRec_mono_add (fuel k : Nat) (h : Heap) (spec : Nat) (queue circ : List Nat)
    (r : LoadQueueResult) (hr : loadQueueRec fuel h spec queue circ = some r) :
    loadQueueRec (fuel + k) h spec queue circ = some r := by
  induction k with
  | zero => exact hr
  | succ k ih => exact loadQueueRec_mono (fuel + k) h spec queue circ r ih

theorem loadQueueLoop_mono_add (fuel k : Nat) (specs : List Nat) :
    ∀ (h : Heap) (queue : List Nat) (x : Heap × List Nat),
      loadQueueLoop fuel specs h queue = some x →
      loadQueueLoop (fuel + k) specs h queue = some x := by
  induction specs with
  | nil =>
    intro h queue x hx
    exact hx
  | cons spec rest ih =>
    intro h queue x hx
    simp only [loadQueueLoop] at hx ⊢
    cases h1 : loadQueueRec fuel h spec queue [] with
    | none =>
      rw [h1] at hx
      exact absurd hx (by simp)
    | some r =>
      rw [h1] at hx
      rw [loadQueueRec_mono_add fuel k h spec queue [] r h1]
      exact ih _ _ x hx

theorem loadQueueWith_eq_loadQueue (h : Heap) (k : Nat) :
    loadQueueWith (h.length + 1 + k) h = loadQueue h := by
  obtain ⟨h', queue, hr, _, _⟩ := loadQueueWith_total h (h.length + 1) (Nat.le_refl _)
  unfold loadQueue
  rw [hr]
  exact loadQueueLoop_mono_add (h.length + 1) k _ h [] (h', queue) hr

/-- C28: for every set of specifications, whatever their states, their errors and their
dependency graph, `loadQueue()` returns, and no specification occurs more than once in the
queue it returns; a larger recursion bound gives the same result. -/
theorem C28_queue_without_duplicates (h : Heap) (k : Nat) :
    (∃ h' queue, loadQueue h = some (h', queue) ∧ queue.Nodup) ∧
    loadQueueWith (h.length + 1 + k) h = loadQueue h := by
  obtain ⟨h', queue, hr, _, hq⟩ := loadQueueWith_total h (h.length + 1) (Nat.le_refl _)
  exact ⟨⟨h', queue, hr, hq⟩, loadQueueWith_eq_loadQueue h k⟩

set_option maxRecDepth 100000 in
theorem cycleABC_call_on_path :
    (loadQueueRec 1 cycleABC 0 [] [0, 1, 2]).map (fun r => (r.ret, r.queue,
        r.circularityCheckQueue, (r.heap.deref 0).errorString))
      = some (false, [], [0, 1, 2],
          some ("Circular dependency detected:\nA (1.0.0) depends on\nB (1.0.0) depends on\n"
            ++ "C (1.0.0) depends on\nA (1.0.0)")) := by
  decide

/-- C29, as stated, fails: in the cycle `A` requires `B`, `B` requires `C`, `C` requires `A`,
the call on `C` with the path `A`, `B` cannot return without a recursive call, and the
recursive call it makes is the one on `A` with the path `A`, `B`, `C`: `A` is on the path. That
call returns `false` with the report of the cycle. -/
theorem C29_counterexample :
    loadQueueRec 1 cycleABC 2 [] [0, 1] = none ∧
    loadQueueRec 2 cycleABC 2 [] [0, 1]
      = loadQueueDeps (loadQueueRec 1) 2 [(requiredOn "A", 0)] cycleABC [] [0, 1, 2] ∧
    loadQueueDeps (loadQueueRec 1) 2 [(requiredOn "A", 0)] cycleABC [] [0, 1, 2]
      = (match loadQueueRec 1 cycleABC 0 [] [0, 1, 2] with
          | none => none
          | some r =>
              if r.ret then
                loadQueueDeps (loadQueueRec 1) 2 [] r.heap r.queue r.circularityCheckQueue
              else
                some ⟨false,
                  r.heap.setErrorString 2 (dependencyFailedText (r.heap.deref 0)),
                  r.queue, r.circularityCheckQueue⟩) ∧
    0 ∈ [0, 1, 2] ∧
    (loadQueueRec 1 cycleABC 0 [] [0, 1, 2]).map (fun r => (r.ret, r.queue,
        r.circularityCheckQueue, (r.heap.deref 0).errorString))
      = some (false, [], [0, 1, 2],
          some ("Circular dependency detected:\nA (1.0.0) depends on\nB (1.0.0) depends on\n"
            ++ "C (1.0.0) depends on\nA (1.0.0)")) :=
  ⟨rfl, rfl, rfl, by decide, cycleABC_call_on_path⟩

/-- C29, amended: for every set of specifications, cyclic or not, `loadQueue()` returns, and
so does every call of the recursive `loadQueue` whose recursion bound covers the
specifications not yet on the path. The path of the result is the path of the call with
entries appended and repeats no specification, and it is no longer than the number of
specifications when the pointers are valid. A call on a specification that is in the queue
or on the path returns without a recursive call and leaves queue and path as they are; every
other call appends its specification to the path before anything else. -/
theorem C29_loadQueue_terminates (h : Heap) (fuel spec : Nat) (queue circ : List Nat)
    (hq : queue.Nodup) (hc : circ.Nodup) (hb : ∀ x ∈ circ, x < h.length)
    (hfuel : h.length + 1 ≤ fuel + circ.length) :
    (∃ h' queue', loadQueue h = some (h', queue')) ∧
    (∃ r, loadQueueRec fuel h spec queue circ = some r ∧
      (∃ l, r.circularityCheckQueue = circ ++ l) ∧ r.circularityCheckQueue.Nodup ∧
      (WellFormed h → spec < h.length → r.circularityCheckQueue.length ≤ h.length) ∧
      (queue.contains spec = false → circ.contains spec = false →
        ∃ l, r.circularityCheckQueue = circ ++ [spec] ++ l)) ∧
    (queue.contains spec = true ∨ circ.contains spec = true →
      ∃ r, loadQueueRec 1 h spec queue circ = some r ∧ r.circularityCheckQueue = circ ∧
        r.queue = queue) := by
  refine ⟨?_, ?_, ?_⟩
  · obtain ⟨h', queue', hr, _, _⟩ := loadQueueWith_total h (h.length + 1) (Nat.le_refl _)
    exact ⟨h', queue', hr⟩
  · obtain ⟨r, hr, t⟩ := loadQueueRec_total h fuel h spec queue circ (sameShape_refl h) hq hc
      hb hfuel
    refine ⟨r, hr, t.path_prefix, t.path_nodup, ?_, ?_⟩
    · intro hwf hsl
      exact length_le_of_nodup_of_lt t.path_nodup (t.bounded_of_valid ⟨hwf, hsl⟩)
    · intro hqs hcs
      cases fuel with
      | zero => exact absurd hr (by simp [loadQueueRec])
      | succ fuel =>
        by_cases hs : (h.deref spec).state = PluginState.Invalid ∨
            (h.deref spec).state = PluginState.Read
        · rw [loadQueueRec_of_unresolved fuel h spec queue circ hs hqs hcs] at hr
          refine ⟨[], ?_⟩
          rw [← Option.some.inj hr]
          simp
        · rw [loadQueueRec_of_resolved fuel h spec queue circ hs hqs hcs] at hr
          have hsc : spec ∉ circ := contains_eq_false_iff_not_mem.1 hcs
          have hsq : spec ∉ queue := contains_eq_false_iff_not_mem.1 hqs
          have hsl : spec < h.length := by
            by_contra hn
            apply hs
            left
            rw [Heap.deref_of_length_le h spec (Nat.le_of_not_lt hn)]
            rfl
          have hc' : (circ ++ [spec]).Nodup :=
            List.Nodup.append hc (List.nodup_singleton spec)
              (by
                intro a ha hb'
                rw [List.mem_singleton] at hb'
                exact hsc (hb' ▸ ha))
          have hb' : ∀ x ∈ circ ++ [spec], x < h.length := by
            intro x hx
            rcases List.mem_append.1 hx with hx | hx
            · exact hb x hx
            · rw [List.mem_singleton] at hx
              exact hx ▸ hsl
          have hfuel' : h.length + 1 ≤ fuel + (circ ++ [spec]).length := by
            rw [List.length_append, List.length_singleton]
            omega
          obtain ⟨r', hr', _, _, _, hpre, _⟩ :=
            loadQueueDeps_total h fuel (loadQueueRec_total h fuel) spec circ hsc
              (h.deref spec).dependencySpecifications h queue (circ ++ [spec])
              (sameShape_refl h) hq hc' hb' hfuel'
              (List.mem_append_right _ (List.mem_singleton_self spec)) hsq
              (fun x hx => List.mem_append_left _ hx)
          rw [hr'] at hr
          rw [← Option.some.inj hr]
          exact hpre
  · intro hor
    by_cases hqs : queue.contains spec = true
    · exact ⟨_, loadQueueRec_of_queued 0 h spec queue circ hqs, rfl, rfl⟩
    · have hcs : circ.contains spec = true := hor.elim (fun h => absurd h hqs) id
      refine ⟨⟨false, h.setErrorString spec (circularDependencyText h spec circ), queue, circ⟩,
        ?_, rfl, rfl⟩
      simp only [loadQueueRec, if_neg hqs, hcs, if_true]

/-- C29, amended, at the cycle of `A`, `B` and `C`: `loadQueue()` returns, and the call on `A`
with empty queue and path returns with a path that begins with `A`. -/
theorem C29_loadQueue_terminates_witness :
    (∃ h' queue', loadQueue cycleABC = some (h', queue')) ∧
    ∃ r, loadQueueRec 4 cycleABC 0 [] [] = some r ∧
      ∃ l, r.circularityCheckQueue = [] ++ [0] ++ l :=
  ⟨(C29_loadQueue_terminates cycleABC 4 0 [] [] List.nodup_nil List.nodup_nil
      (fun x hx => absurd hx (List.not_mem_nil x)) (by decide)).1,
    (C29_loadQueue_terminates cycleABC 4 0 [] [] List.nodup_nil List.nodup_nil
      (fun x hx => absurd hx (List.not_mem_nil x)) (by decide)).2.1.elim
      (fun r hr => ⟨r, hr.1, hr.2.2.2.2 rfl rfl⟩)⟩

namespace PluginSpecification

theorem delayedInitialize_again (rt : Runtime) (s : PluginSpecification) :
    ((s.delayedInitialize rt).spec.delayedInitialize rt).events
        = (s.delayedInitialize rt).events ∧
      ((s.delayedInitialize rt).spec.delayedInitialize rt).ret
        = (s.delayedInitialize rt).ret := by
  by_cases h1 : s.m_errorString.isSome = true
  · have hs : s.delayedInitialize rt = ⟨false, s, []⟩ := delayedInitialize_of_error rt s h1
    rw [hs]
    exact ⟨congrArg Outcome.events hs, congrArg Outcome.ret hs⟩
  · by_cases h2 : s.m_state ≠ PluginState.Running
    · have hs : s.delayedInitialize rt = ⟨false, s, []⟩ := by
        unfold delayedInitialize
        rw [if_neg h1, if_pos h2]
      rw [hs]
      exact ⟨congrArg Outcome.events hs, congrArg Outcome.ret hs⟩
    · cases hp : s.m_plugin with
      | none =>
        have hs : s.delayedInitialize rt = ⟨false,
            s.setErrorString
              "Internal error: have no plugin instance to perform delayedInitialize",
            []⟩ := by
          unfold delayedInitialize
          rw [if_neg h1, if_neg h2, hp]
        rw [hs]
        have hs' := delayedInitialize_of_error rt
          (s.setErrorString
            "Internal error: have no plugin instance to perform delayedInitialize") rfl
        exact ⟨congrArg Outcome.events hs', congrArg Outcome.ret hs'⟩
      | some p =>
        have hs : s.delayedInitialize rt
            = ⟨rt.delayedInitialize p, s, [Event.delayedInitialize p]⟩ := by
          unfold delayedInitialize
          rw [if_neg h1, if_neg h2, hp]
        rw [hs]
        exact ⟨congrArg Outcome.events hs, congrArg Outcome.ret hs⟩

theorem delayedInitialize_of_running (rt : Runtime) (s : PluginSpecification) (p : Nat)
    (herr : s.hasError = false) (hstate : s.state = PluginState.Running)
    (hp : s.plugin = some p) :
    s.delayedInitialize rt = ⟨rt.delayedInitialize p, s, [Event.delayedInitialize p]⟩ := by
  have h1 : ¬ s.m_errorString.isSome = true := by
    have : s.m_errorString.isSome = false := herr
    rw [this]
    exact Bool.false_ne_true
  have h2 : ¬ s.m_state ≠ PluginState.Running := not_not.2 hstate
  have hp' : s.m_plugin = some p := hp
  unfold delayedInitialize
  rw [if_neg h1, if_neg h2, hp']

end PluginSpecification

namespace PluginManager

theorem delayedCallEvents_again (rt : Runtime) (s : PluginSpecification) :
    delayedCallEvents rt (s.delayedInitialize rt).spec = delayedCallEvents rt s := by
  unfold delayedCallEvents
  rw [(PluginSpecification.delayedInitialize_again rt s).1,
    (PluginSpecification.delayedInitialize_again rt s).2]

theorem delayedInitializeStep_callEvents (rt : Runtime) (m : PluginManager) (spec : Nat)
    (rest : List Nat) (i : Nat) :
    delayedCallEvents rt ((delayedInitializeStep rt m spec rest).m_pluginSpecifications.deref i)
      = delayedCallEvents rt (m.m_pluginSpecifications.deref i) := by
  by_cases hi : i = spec
  · subst hi
    by_cases hl : i < m.m_pluginSpecifications.length
    · have hr : (delayedInitializeStep rt m i rest).m_pluginSpecifications.deref i
          = ((m.m_pluginSpecifications.deref i).delayedInitialize rt).spec :=
        Heap.deref_update_self _ _ _ hl
      rw [hr, delayedCallEvents_again]
    · have hu : (delayedInitializeStep rt m i rest).m_pluginSpecifications
          = m.m_pluginSpecifications :=
        Heap.update_of_length_le _ _ _ (Nat.le_of_not_lt hl)
      rw [hu]
  · have hr : (delayedInitializeStep rt m spec rest).m_pluginSpecifications.deref i
        = m.m_pluginSpecifications.deref i :=
      Heap.deref_update_of_ne _ _ _ _ hi
    rw [hr]

theorem delayedInitializeLoop_total (rt : Runtime) (queue : List Nat) :
    ∀ (fuel : Nat) (m : PluginManager), m.m_delayedInitializeQueue = queue →
      queue.length + 1 ≤ fuel →
      ∃ m', delayedInitializeLoop rt fuel m = some m' ∧ m'.m_delayedInitializeQueue = [] ∧
        m'.m_isInitializationDone = m.m_isInitializationDone ∧
        m'.events = m.events
          ++ (queue.map (fun spec =>
                delayedCallEvents rt (m.m_pluginSpecifications.deref spec))).flatten ∧
        (∀ i, delayedCallEvents rt (m'.m_pluginSpecifications.deref i)
          = delayedCallEvents rt (m.m_pluginSpecifications.deref i)) := by
  induction queue with
  | nil =>
    intro fuel m hm hfuel
    cases fuel with
    | zero => exact absurd hfuel (by simp)
    | succ fuel =>
      refine ⟨m, ?_, hm, rfl, by simp, fun _ => rfl⟩
      simp only [delayedInitializeLoop, hm]
  | cons spec rest ih =>
    intro fuel m hm hfuel
    cases fuel with
    | zero => exact absurd hfuel (by simp)
    | succ fuel =>
      have hfuel' : rest.length + 1 ≤ fuel := by
        simp only [List.length_cons] at hfuel
        omega
      obtain ⟨m', hm', h1, h2, h3, h4⟩ :=
        ih fuel (delayedInitializeStep rt m spec rest) rfl hfuel'
      refine ⟨m', ?_, h1, h2, ?_, ?_⟩
      · simp only [delayedInitializeLoop, hm]
        exact hm'
      · rw [h3]
        have hmap : rest.map (fun spec' => delayedCallEvents rt
            ((delayedInitializeStep rt m spec rest).m_pluginSpecifications.deref spec'))
            = rest.map (fun spec' =>
                delayedCallEvents rt (m.m_pluginSpecifications.deref spec')) :=
          List.map_congr_left (fun i _ => delayedInitializeStep_callEvents rt m spec rest i)
        rw [hmap]
        show m.events ++ ((m.m_pluginSpecifications.deref spec).delayedInitialize rt).events
          ++ (if ((m.m_pluginSpecifications.deref spec).delayedInitialize rt).ret then
                [Event.processEvents]
              else []) ++ _ = _
        simp only [List.map_cons, List.flatten_cons, delayedCallEvents, List.append_assoc]
      · intro i
        rw [h4 i, delayedInitializeStep_callEvents]

theorem delayedInitializeLoop_mono (rt : Runtime) (fuel : Nat) :
    ∀ (m m' : PluginManager), delayedInitializeLoop rt fuel m = some m' →
      delayedInitializeLoop rt (fuel + 1) m = some m' := by
  induction fuel with
  | zero =>
    intro m m' h
    exact absurd h (by simp [delayedInitializeLoop])
  | succ fuel ih =>
    intro m m' h
    cases hq : m.m_delayedInitializeQueue with
    | nil =>
      simp only [delayedInitializeLoop, hq] at h ⊢
      exact h
    | cons spec rest =>
      simp only [delayedInitializeLoop, hq] at h ⊢
      exact ih _ _ h

theorem delayedInitializeLoop_mono_add (rt : Runtime) (fuel k : Nat) (m m' : PluginManager)
    (h : delayedInitializeLoop rt fuel m = some m') :
    delayedInitializeLoop rt (fuel + k) m = some m' := by
  induction k with
  | zero => exact h
  | succ k ih => exact delayedInitializeLoop_mono rt (fuel + k) m m' ih

end PluginManager

namespace PluginSpecification

theorem kill_plugin (s : PluginSpecification) : s.kill.spec.m_plugin = none := by
  unfold kill
  cases hp : s.m_plugin with
  | none => exact hp
  | some p => rfl

end PluginSpecification

namespace PluginManager

theorem loadPlugin_delayedInitializeQueue (host : Host) (rt : Runtime) (m : PluginManager)
    (spec : Nat) (destState : PluginState) (after : PluginManager)
    (h : loadPlugin host rt m spec destState = some after) :
    after.m_delayedInitializeQueue = m.m_delayedInitializeQueue := by
  unfold loadPlugin at h
  by_cases h1 : ((m.m_pluginSpecifications.deref spec).hasError
      || decide ((m.m_pluginSpecifications.deref spec).state.toInt ≠ destState.toInt - 1))
      = true
  · simp only [if_pos h1] at h
    cases h
    rfl
  · simp only [if_neg h1] at h
    by_cases h2 : (!(m.m_pluginSpecifications.deref spec).isEffectivelyEnabled host
        && decide (destState = PluginState.Loaded)) = true
    · simp only [if_pos h2] at h
      cases h
      rfl
    · simp only [if_neg h2] at h
      cases destState with
      | Running =>
        cases h
        rfl
      | Deleted =>
        cases h
        rfl
      | Stopped =>
        simp only [] at h
        cases hf : failedDependency m.m_pluginSpecifications PluginState.Stopped
            (m.m_pluginSpecifications.deref spec).dependencySpecifications with
        | some text =>
          rw [hf] at h
          cases h
          rfl
        | none =>
          rw [hf] at h
          simp only [loadPluginTransition] at h
          by_cases h3 : ((m.m_pluginSpecifications.deref spec).stop rt).ret
              = PluginShutdownFlag.AsynchronousShutdown
          · simp only [if_pos h3] at h
            cases h
            rfl
          · simp only [if_neg h3] at h
            cases h
            rfl
      | Loaded =>
        simp only [] at h
        cases hf : failedDependency m.m_pluginSpecifications PluginState.Loaded
            (m.m_pluginSpecifications.deref spec).dependencySpecifications with
        | some text =>
          rw [hf] at h
          cases h
          rfl
        | none =>
          rw [hf] at h
          simp only [loadPluginTransition, Option.map_eq_some'] at h
          obtain ⟨o, _, rfl⟩ := h
          rfl
      | Initialized =>
        simp only [] at h
        cases hf : failedDependency m.m_pluginSpecifications PluginState.Initialized
            (m.m_pluginSpecifications.deref spec).dependencySpecifications with
        | some text =>
          rw [hf] at h
          cases h
          rfl
        | none =>
          rw [hf] at h
          cases h
          rfl
      | Invalid =>
        simp only [] at h
        cases hf : failedDependency m.m_pluginSpecifications PluginState.Invalid
            (m.m_pluginSpecifications.deref spec).dependencySpecifications with
        | some text =>
          rw [hf] at h
          cases h
          rfl
        | none =>
          rw [hf] at h
          cases h
          rfl
      | Read =>
        simp only [] at h
        cases hf : failedDependency m.m_pluginSpecifications PluginState.Read
            (m.m_pluginSpecifications.deref spec).dependencySpecifications with
        | some text =>
          rw [hf] at h
          cases h
          rfl
        | none =>
          rw [hf] at h
          cases h
          rfl
      | Resolved =>
        simp only [] at h
        cases hf : failedDependency m.m_pluginSpecifications PluginState.Resolved
            (m.m_pluginSpecifications.deref spec).dependencySpecifications with
        | some text =>
          rw [hf] at h
          cases h
          rfl
        | none =>
          rw [hf] at h
          cases h
          rfl

theorem initializedPass_delayedInitializeQueue (host : Host) (rt : Runtime)
    (queue : List Nat) (m : PluginManager) :
    ∃ after, initializedPass host rt m queue = some after ∧
      after.m_delayedInitializeQueue = m.m_delayedInitializeQueue :=
  foldlM_invariant (fun m spec => loadPlugin host rt m spec PluginState.Initialized)
    (fun s => s.m_delayedInitializeQueue = m.m_delayedInitializeQueue)
    (fun s a hs => by
      obtain ⟨t, ht⟩ := loadPlugin_defined host rt s a PluginState.Initialized (by decide)
      exact ⟨t, ht,
        (loadPlugin_delayedInitializeQueue host rt s a PluginState.Initialized t ht).trans hs⟩)
    queue m rfl

theorem runningStep_deref_of_ne (host : Host) (rt : Runtime) (m : PluginManager)
    (spec j : Nat) (hj : j ≠ spec) (after : PluginManager)
    (hafter : runningStep host rt m spec = some after) :
    after.m_pluginSpecifications.deref j = m.m_pluginSpecifications.deref j := by
  unfold runningStep at hafter
  simp only [Option.map_eq_some'] at hafter
  obtain ⟨loaded, hl, rfl⟩ := hafter
  have h1 := loadPlugin_deref_of_ne host rt m spec PluginState.Running j hj loaded hl
  by_cases hs : (loaded.m_pluginSpecifications.deref spec).state = PluginState.Running
  · rw [if_pos hs]
    exact h1
  · rw [if_neg hs, call_deref_of_ne _ spec j _ hj]
    exact h1

theorem runningStep_effect (host : Host) (rt : Runtime) (m : PluginManager) (spec : Nat)
    (after : PluginManager) (hafter : runningStep host rt m spec = some after) :
    ((after.m_pluginSpecifications.deref spec).state = PluginState.Running ∧
      after.m_delayedInitializeQueue = m.m_delayedInitializeQueue ++ [spec]) ∨
    ((after.m_pluginSpecifications.deref spec).state ≠ PluginState.Running ∧
      (after.m_pluginSpecifications.deref spec).plugin = none ∧
      after.m_delayedInitializeQueue = m.m_delayedInitializeQueue) := by
  unfold runningStep at hafter
  simp only [Option.map_eq_some'] at hafter
  obtain ⟨loaded, hload, rfl⟩ := hafter
  have hq := loadPlugin_delayedInitializeQueue host rt m spec PluginState.Running loaded hload
  by_cases hs : (loaded.m_pluginSpecifications.deref spec).state = PluginState.Running
  · rw [if_pos hs]
    left
    refine ⟨hs, ?_⟩
    show loaded.m_delayedInitializeQueue ++ [spec] = _
    rw [hq]
  · rw [if_neg hs]
    right
    refine ⟨?_, ?_, hq⟩
    · by_cases hl : spec < loaded.m_pluginSpecifications.length
      · have hr : (loaded.call spec
            (loaded.m_pluginSpecifications.deref spec).kill).m_pluginSpecifications.deref spec
            = (loaded.m_pluginSpecifications.deref spec).kill.spec :=
          Heap.deref_update_self _ _ _ hl
        rw [hr]
        rcases PluginSpecification.kill_shape (loaded.m_pluginSpecifications.deref spec)
          with h | h
        · intro hrun
          exact hs (h.symm.trans hrun)
        · intro hrun
          have hrun' : (loaded.m_pluginSpecifications.deref spec).kill.spec.m_state
              = PluginState.Running := hrun
          rw [h] at hrun'
          exact absurd hrun' (by decide)
      · have hu : (loaded.call spec
            (loaded.m_pluginSpecifications.deref spec).kill).m_pluginSpecifications
            = loaded.m_pluginSpecifications :=
          Heap.update_of_length_le _ _ _ (Nat.le_of_not_lt hl)
        rw [hu]
        exact hs
    · by_cases hl : spec < loaded.m_pluginSpecifications.length
      · have hr : (loaded.call spec
            (loaded.m_pluginSpecifications.deref spec).kill).m_pluginSpecifications.deref spec
            = (loaded.m_pluginSpecifications.deref spec).kill.spec :=
          Heap.deref_update_self _ _ _ hl
        rw [hr]
        exact PluginSpecification.kill_plugin _
      · have hu : (loaded.call spec
            (loaded.m_pluginSpecifications.deref spec).kill).m_pluginSpecifications
            = loaded.m_pluginSpecifications :=
          Heap.update_of_length_le _ _ _ (Nat.le_of_not_lt hl)
        rw [hu, Heap.deref_of_length_le _ _ (Nat.le_of_not_lt hl)]
        rfl

theorem foldlM_runningStep_deref_of_not_mem (host : Host) (rt : Runtime) (l : List Nat)
    (m : PluginManager) (j : Nat) (hj : j ∉ l) (after : PluginManager)
    (hafter : l.foldlM (runningStep host rt) m = some after) :
    after.m_pluginSpecifications.deref j = m.m_pluginSpecifications.deref j := by
  induction l generalizing m with
  | nil =>
    cases hafter
    rfl
  | cons spec rest ih =>
    have hne : j ≠ spec := fun e => hj (e ▸ List.mem_cons_self _ _)
    obtain ⟨t, ht⟩ := runningStep_defined host rt m spec
    rw [foldlM_cons_of_some _ _ _ _ _ ht] at hafter
    have hrec := ih t (fun h => hj (List.mem_cons_of_mem _ h)) hafter
    rw [runningStep_deref_of_ne host rt m spec j hne t ht] at hrec
    exact hrec

theorem foldlM_runningStep_queue (host : Host) (rt : Runtime) (l : List Nat) (hl : l.Nodup)
    (m : PluginManager) :
    ∃ after, l.foldlM (runningStep host rt) m = some after ∧
      after.m_delayedInitializeQueue
        = m.m_delayedInitializeQueue ++ l.filter (fun i =>
            decide ((after.m_pluginSpecifications.deref i).state = PluginState.Running)) ∧
      ∀ i ∈ l, (after.m_pluginSpecifications.deref i).state ≠ PluginState.Running →
        (after.m_pluginSpecifications.deref i).plugin = none := by
  induction l generalizing m with
  | nil => exact ⟨m, rfl, by simp, fun i hi => absurd hi (List.not_mem_nil i)⟩
  | cons spec rest ih =>
    have hnd := List.nodup_cons.1 hl
    obtain ⟨t, ht⟩ := runningStep_defined host rt m spec
    obtain ⟨after, hafter, h1, h2⟩ := ih hnd.2 t
    have hspec := foldlM_runningStep_deref_of_not_mem host rt rest t spec hnd.1 after hafter
    refine ⟨after, (foldlM_cons_of_some _ _ _ _ _ ht).trans hafter, ?_, ?_⟩
    · rw [h1]
      rcases runningStep_effect host rt m spec t ht with ⟨hs, hq⟩ | ⟨hs, _, hq⟩
      · rw [hq, List.filter_cons, hspec, hs]
        simp
      · rw [hq, List.filter_cons, hspec]
        simp [hs]
    · intro i hi
      rcases List.mem_cons.1 hi with hi | hi
      · rw [hi, hspec]
        rcases runningStep_effect host rt m spec t ht with ⟨hs, _⟩ | ⟨_, hp, _⟩
        · exact fun hn => absurd hs hn
        · exact fun _ => hp
      · exact h2 i hi

end PluginManager

namespace PluginManager

theorem delayedCallEvents_of_running (rt : Runtime) (s : PluginSpecification) (p : Nat)
    (herr : s.hasError = false) (hstate : s.state = PluginState.Running)
    (hp : s.plugin = some p) :
    delayedCallEvents rt s
      = Event.delayedInitialize p ::
          (if rt.delayedInitialize p then [Event.processEvents] else []) := by
  unfold delayedCallEvents
  rw [PluginSpecification.delayedInitialize_of_running rt s p herr hstate hp]
  rfl

theorem delayedCallEvents_of_not_running (rt : Runtime) (s : PluginSpecification)
    (h : s.hasError = true ∨ s.state ≠ PluginState.Running ∨ s.plugin = none) :
    delayedCallEvents rt s = [] := by
  unfold delayedCallEvents
  by_cases h1 : s.m_errorString.isSome = true
  · rw [PluginSpecification.delayedInitialize_of_error rt s h1]
    rfl
  · by_cases h2 : s.m_state ≠ PluginState.Running
    · have hs : s.delayedInitialize rt = ⟨false, s, []⟩ := by
        unfold PluginSpecification.delayedInitialize
        rw [if_neg h1, if_pos h2]
      rw [hs]
      rfl
    · have hp : s.m_plugin = none := by
        rcases h with h | h | h
        · exact absurd h h1
        · exact absurd h h2
        · exact h
      have hs : s.delayedInitialize rt = ⟨false,
          s.setErrorString
            "Internal error: have no plugin instance to perform delayedInitialize",
          []⟩ := by
        unfold PluginSpecification.delayedInitialize
        rw [if_neg h1, if_neg h2, hp]
      rw [hs]
      rfl

theorem initializationDone_not_mem_delayedCallEvents (rt : Runtime)
    (s : PluginSpecification) : Event.initializationDone ∉ delayedCallEvents rt s := by
  by_cases h : s.hasError = true ∨ s.state ≠ PluginState.Running ∨ s.plugin = none
  · rw [delayedCallEvents_of_not_running rt s h]
    exact List.not_mem_nil _
  · have herr : s.hasError = false := by
      cases hb : s.hasError
      · rfl
      · exact absurd (Or.inl hb) h
    have hstate : s.state = PluginState.Running := by
      by_contra hn
      exact h (Or.inr (Or.inl hn))
    cases hp : s.plugin with
    | none => exact absurd (Or.inr (Or.inr hp)) h
    | some p =>
      rw [delayedCallEvents_of_running rt s p herr hstate hp]
      cases rt.delayedInitialize p <;> simp

end PluginManager

/-- C27: for every content of the delayed-initialize queue, `startDelayedInitialize` returns
(with every bound on the loop of at least one more than the length of the queue). It goes
through the queue from the front, calls `delayedInitialize` once on each specification, which
calls `delayedInitialize` of the plugin when the specification is error-free, running and has
a plugin instance, followed by `processEvents` when that returned `true`, and calls nothing
otherwise. It leaves the queue empty and the flag set, and emits `initializationDone` once, at
the end. `loadPlugins()` appends to the queue exactly the specifications of the load queue
that are in state `Running` afterwards, last of the load queue first, so that a queue that
was empty holds exactly these; every other specification of the load queue has no plugin
instance afterwards. -/
theorem C27_delayed_initialize_queue (host : Host) (rt : Runtime) (m : PluginManager)
    (k : Nat) :
    (∃ m', PluginManager.startDelayedInitialize rt m = some m' ∧
      PluginManager.startDelayedInitializeWith (m.m_delayedInitializeQueue.length + 1 + k) rt m
        = some m' ∧
      m'.m_delayedInitializeQueue = [] ∧ m'.m_isInitializationDone = true ∧
      m'.events = m.events
        ++ (m.m_delayedInitializeQueue.map (fun spec =>
              PluginManager.delayedCallEvents rt (m.m_pluginSpecifications.deref spec))).flatten
        ++ [Event.initializationDone] ∧
      Event.initializationDone ∉
        (m.m_delayedInitializeQueue.map (fun spec =>
          PluginManager.delayedCallEvents rt (m.m_pluginSpecifications.deref spec))).flatten) ∧
    (∀ (s : PluginSpecification) (p : Nat), s.hasError = false →
      s.state = PluginState.Running → s.plugin = some p →
      PluginManager.delayedCallEvents rt s
        = Event.delayedInitialize p ::
            (if rt.delayedInitialize p then [Event.processEvents] else [])) ∧
    (∀ s : PluginSpecification,
      s.hasError = true ∨ s.state ≠ PluginState.Running ∨ s.plugin = none →
      PluginManager.delayedCallEvents rt s = []) ∧
    (∃ h queue after, loadQueue m.m_pluginSpecifications = some (h, queue) ∧
      PluginManager.loadPlugins host rt m = some after ∧
      PluginManager.loadPluginsOn host rt m h queue = some after ∧
      after.m_delayedInitializeQueue
        = m.m_delayedInitializeQueue ++ queue.reverse.filter (fun i =>
            decide ((after.m_pluginSpecifications.deref i).state = PluginState.Running)) ∧
      (m.m_delayedInitializeQueue = [] →
        ∀ i, i ∈ after.m_delayedInitializeQueue ↔
          i ∈ queue ∧ (after.m_pluginSpecifications.deref i).state = PluginState.Running) ∧
      ∀ i ∈ queue, (after.m_pluginSpecifications.deref i).state ≠ PluginState.Running →
        (after.m_pluginSpecifications.deref i).plugin = none) := by
  refine ⟨?_, PluginManager.delayedCallEvents_of_running rt,
    PluginManager.delayedCallEvents_of_not_running rt, ?_⟩
  · obtain ⟨m', hm', h1, h2, h3, _⟩ :=
      PluginManager.delayedInitializeLoop_total rt m.m_delayedInitializeQueue
        (m.m_delayedInitializeQueue.length + 1) m rfl (Nat.le_refl _)
    have hk := PluginManager.delayedInitializeLoop_mono_add rt _ k m m' hm'
    refine ⟨{ m' with
        m_isInitializationDone := true
        events := m'.events ++ [Event.initializationDone] }, ?_, ?_, h1, rfl, ?_, ?_⟩
    · unfold PluginManager.startDelayedInitialize PluginManager.startDelayedInitializeWith
      rw [hm']
      rfl
    · unfold PluginManager.startDelayedInitializeWith
      rw [hk]
      rfl
    · show m'.events ++ [Event.initializationDone] = _
      rw [h3]
    · intro hmem
      obtain ⟨l, hl, he⟩ := List.mem_flatten.1 hmem
      obtain ⟨spec, _, hs⟩ := List.mem_map.1 hl
      rw [← hs] at he
      exact PluginManager.initializationDone_not_mem_delayedCallEvents rt _ he
  · obtain ⟨h, queue, hr, _, hq⟩ :=
      loadQueueWith_total m.m_pluginSpecifications (m.m_pluginSpecifications.length + 1)
        (Nat.le_refl _)
    have hr' : loadQueue m.m_pluginSpecifications = some (h, queue) := hr
    obtain ⟨m1, hm1, hq1⟩ := PluginManager.initializedPass_delayedInitializeQueue host rt
      queue { m with m_pluginSpecifications := h }
    obtain ⟨m2, hm2, hq2, hp2⟩ := PluginManager.foldlM_runningStep_queue host rt queue.reverse
      (List.nodup_reverse.2 hq) m1
    have hon : PluginManager.loadPluginsOn host rt m h queue
        = some { m2 with
            events := m2.events
              ++ [Event.pluginsChanged,
                  Event.startDelayedInitializeTimer
                    PluginManager.kDelayedInitializeInterval] } := by
      unfold PluginManager.loadPluginsOn PluginManager.runningPass
      rw [hm1]
      show Option.map _ (List.foldlM (PluginManager.runningStep host rt) m1 queue.reverse) = _
      rw [hm2]
      rfl
    have hq3 : m2.m_delayedInitializeQueue
        = m.m_delayedInitializeQueue ++ queue.reverse.filter (fun i =>
            decide ((m2.m_pluginSpecifications.deref i).state = PluginState.Running)) := by
      rw [hq2, hq1]
    refine ⟨h, queue, _, hr', ?_, hon, hq3, fun hempty i => ?_,
      fun i hi => hp2 i (List.mem_reverse.2 hi)⟩
    · unfold PluginManager.loadPlugins
      rw [hr']
      exact hon
    · show i ∈ m2.m_delayedInitializeQueue ↔
        i ∈ queue ∧ (m2.m_pluginSpecifications.deref i).state = PluginState.Running
      rw [hq3, hempty, List.nil_append, List.mem_filter, List.mem_reverse]
      simp

/-- C27 at the running pair with `B` and `A` queued: `startDelayedInitialize` returns with an
empty queue and the flag set, and for `B`, whose plugin reports work, the call of
`delayedInitialize` is followed by `processEvents`. -/
theorem C27_delayed_initialize_queue_witness :
    (∃ m', PluginManager.startDelayedInitialize runtimeDelayed runningPairQueued = some m' ∧
      m'.m_delayedInitializeQueue = [] ∧ m'.m_isInitializationDone = true) ∧
    PluginManager.delayedCallEvents runtimeDelayed (runningPair.deref 1)
      = [Event.delayedInitialize 2, Event.processEvents] :=
  ⟨(C27_delayed_initialize_queue plainHost runtimeDelayed runningPairQueued 0).1.elim
      (fun m' hm' => ⟨m', hm'.1, hm'.2.2.1, hm'.2.2.2.1⟩),
    (C27_delayed_initialize_queue plainHost runtimeDelayed runningPairQueued 0).2.1
      (runningPair.deref 1) 2 rfl rfl rfl⟩

end ExtensionSystem
